import Mathlib

/-!
# MAVLinkProtocol — receive path, loss accounting, device gate, relay,
# heartbeats and packet log

A shallow embedding of `src/comm/MAVLinkProtocol.cc`.

* Member variables of the class become fields of `Protocol`, with the names
  they have in the source.
* Qt signals (`emit ...`), requests to the UAS factory and writes to links or
  to the log file become values of `Event`; every operation returns the new
  state together with the events it produced, in program order.
* The four packet counters are only ever set to zero or incremented, so they
  are natural numbers; the wrap-around of the C integers after 2^31 packets
  is not modelled.  Entries of `lastIndex` are integers because the source
  uses `-1` for "no packet seen yet".
* `float receiveLoss` is computed here over exact rationals.
-/

namespace MAVLinkProtocol

/-! ## Data -/

/-- The fields of `mavlink_message_t` that the receive path reads. -/
structure Message where
  sysid : Nat
  compid : Nat
  seq : Nat
  msgid : Nat
  len : Nat
  payload : List Nat
  deriving DecidableEq, Repr

/-- A `LinkInterface*`: `handle` stands for the pointer (object identity),
`id` for `getId()`, `connected` for `isConnected()`. -/
structure Link where
  handle : Nat
  id : Nat
  connected : Bool
  deriving DecidableEq, Repr

/-- A `QFile*` held in `m_logfile`. -/
structure QFile where
  fileName : String
  isOpen : Bool
  deriving DecidableEq, Repr

/-- The `QTimer* heartbeatTimer`: its interval in milliseconds and whether
it has been started. -/
structure QTimer where
  interval : Int
  active : Bool
  deriving DecidableEq, Repr

/-- The user-visible notices sent through `protocolStatusMessage`. -/
inductive Notice where
  /-- Title "MAVLink Logging failed" (line 202), with the file name. -/
  | loggingFailed (fileName : String)
  /-- Title "SYSTEM ID CONFLICT!" (line 225), with the own system id. -/
  | systemIdConflict (systemId : Int)
  /-- Title "The MAVLink protocol version on the MAV and QGroundControl
  mismatch!" (line 245), with the sender, its version and the expected one. -/
  | versionMismatch (sysid version expected : Nat)
  /-- Title "Opening MAVLink logfile for writing failed" (line 499). -/
  | logOpenFailed (fileName : String)
  deriving DecidableEq, Repr

/-- Everything the protocol object does to the outside world. -/
inductive Event where
  /-- Signal `protocolStatusMessage(title, detail)`. -/
  | protocolStatusMessage (n : Notice)
  /-- Signal `receiveLossChanged(sysid, receiveLoss)`. -/
  | receiveLossChanged (sysid : Nat) (receiveLoss : ℚ)
  /-- Signal `messageReceived(link, message)`. -/
  | messageReceived (link : Link) (message : Message)
  /-- Call `QGCMAVLinkUASFactory::createUAS(this, link, sysid, &heartbeat)`;
  `created` tells whether the factory handed back a non-null UAS. -/
  | createUAS (link : Link) (sysid : Nat) (mavlink_version : Nat) (created : Bool)
  /-- Call `link->writeBytes(buffer, len)`. -/
  | writeBytes (link : Link) (bytes : List Nat)
  /-- Call `m_logfile->write(b)` that stored `bytes` in the file. -/
  | logWrite (fileName : String) (bytes : List Nat)
  /-- Calls `m_logfile->flush(); m_logfile->close()` on an open file. -/
  | logClose (fileName : String)
  /-- Signal `loggingChanged(enabled)`. -/
  | loggingChanged (enabled : Bool)
  /-- Signal `multiplexingChanged(enabled)`. -/
  | multiplexingChanged (enabled : Bool)
  /-- Signal `versionCheckChanged(enabled)`. -/
  | versionCheckChanged (enabled : Bool)
  /-- Signal `heartbeatChanged(enabled)`. -/
  | heartbeatChanged (enabled : Bool)
  deriving DecidableEq

/-- Member variables of `MAVLinkProtocol` used by the receive path. -/
structure Protocol where
  totalReceiveCounter : Nat
  totalLossCounter : Nat
  currReceiveCounter : Nat
  currLossCounter : Nat
  lastIndex : Nat → Nat → Int
  m_heartbeatsEnabled : Bool
  m_loggingEnabled : Bool
  m_logfile : Option QFile
  m_enable_version_check : Bool
  m_multiplexingEnabled : Bool
  versionMismatchIgnore : Bool
  systemId : Int
  heartbeatRate : Int
  heartbeatTimer : QTimer

/-! ## Loss accounting (lines 262–318) -/

/-- The wrapping increment of lines 273–280 and 286–293:
`if (lastIndex == 255) lastIndex = 0; else lastIndex++;`. -/
def advanceIndex (i : Int) : Int :=
  if i = 255 then 0 else i + 1

/-- The variables the `while` loop of lines 284–297 reads and writes. -/
structure GapLoop where
  last : Int
  totalLossCounter : Nat
  currLossCounter : Nat
  safeguard : Nat
  deriving DecidableEq, Repr

/-- The loop condition of line 284. -/
def GapLoop.continues (seq : Nat) (g : GapLoop) : Bool :=
  decide (g.last ≠ (seq : Int)) && decide (g.safeguard < 255)

/-- One execution of the loop body, lines 286–296. -/
def GapLoop.body (g : GapLoop) : GapLoop :=
  { last := advanceIndex g.last
    totalLossCounter := g.totalLossCounter + 1
    currLossCounter := g.currLossCounter + 1
    safeguard := g.safeguard + 1 }

/-- The `while` loop of lines 284–297, run for at most `fuel` iterations.
`safeguard` grows by one per iteration and the condition demands
`safeguard < 255`, so 255 iterations always suffice (`gapLoop_exits`). -/
def gapLoop (seq : Nat) : Nat → GapLoop → GapLoop
  | 0, g => g
  | fuel + 1, g => if g.continues seq then gapLoop seq fuel g.body else g

/-- Assignment `lastIndex[sysid][compid] = v`. -/
def setIndex (t : Nat → Nat → Int) (sysid compid : Nat) (v : Int) : Nat → Nat → Int :=
  fun i j => if i = sysid ∧ j = compid then v else t i j

/-- Lines 262–298: count the packet as received and account for the gap
between the last sequence number of its (sysid, compid) pair and `seq`. -/
def countPacket (sysid compid seq : Nat) (p : Protocol) : Protocol :=
  let p1 := { p with totalReceiveCounter := p.totalReceiveCounter + 1
                     currReceiveCounter := p.currReceiveCounter + 1 }
  if p1.lastIndex sysid compid = -1 then
    { p1 with lastIndex := setIndex p1.lastIndex sysid compid (seq : Int) }
  else
    let g := gapLoop seq 255
      { last := advanceIndex (p1.lastIndex sysid compid)
        totalLossCounter := p1.totalLossCounter
        currLossCounter := p1.currLossCounter
        safeguard := 0 }
    { p1 with lastIndex := setIndex p1.lastIndex sysid compid g.last
              totalLossCounter := g.totalLossCounter
              currLossCounter := g.currLossCounter }

/-- The value of `receiveLoss` after lines 312–313, over the rationals. -/
def receiveLoss (p : Protocol) : ℚ :=
  (p.currLossCounter : ℚ) / ((p.currReceiveCounter : ℚ) + (p.currLossCounter : ℚ)) * 100

/-- Lines 308–318: `lastLoss` is the value `totalLossCounter` had at line 264. -/
def reportLoss (lastLoss sysid : Nat) (p : Protocol) : Protocol × List Event :=
  if lastLoss ≠ p.totalLossCounter ∨ p.totalReceiveCounter % 64 = 0 then
    ({ p with currLossCounter := 0, currReceiveCounter := 0 },
     [Event.receiveLossChanged sysid (receiveLoss p)])
  else (p, [])

/-- Lines 262–318, the loss update for one dispatched packet. -/
def updateLoss (sysid compid seq : Nat) (p : Protocol) : Protocol × List Event :=
  reportLoss p.totalLossCounter sysid (countPacket sysid compid seq p)

/-! ## Collaborators outside this file -/

/-- Constants and MAVLink library functions that come from headers. -/
structure Env where
  MAVLINK_VERSION : Nat
  MAVLINK_MSG_ID_HEARTBEAT : Nat
  MAVLINK_MAX_PACKET_LEN : Nat
  /-- Constant `QGC::defaultComponentId`, returned by `getComponentId()`. -/
  defaultComponentId : Nat
  /-- Field `mavlink_version` left in `heartbeat` by lines 236–237. -/
  mavlink_msg_heartbeat_decode : Message → Nat
  /-- Wire bytes that `mavlink_msg_to_send_buffer` stores for a message. -/
  mavlink_msg_to_send_buffer : Message → List Nat
  /-- Message left by `mavlink_finalize_message_chan(&message, system_id,
  component_id, chan, length)`. -/
  mavlink_finalize_message_chan : Message → Int → Nat → Nat → Nat → Message
  /-- Message left in `beat` by `mavlink_msg_heartbeat_pack(system_id,
  component_id, &beat, OCU, MAV_AUTOPILOT_GENERIC)` (line 417). -/
  mavlink_msg_heartbeat_pack : Int → Nat → Message
  /-- The parsing state machine behind `mavlink_parse_char(chan, c, &message,
  &status)` (line 186): from the parsing state of the channel (encoded as a
  list of numbers) and the next byte to the new state and, when the byte
  completes a frame (`decodeState == 1`), the decoded message. -/
  mavlink_parse_char : List Nat → Nat → List Nat × Option Message

/-- What the environment answers while one decoded packet is processed. -/
structure Ext where
  /-- Result of `QGC::groundTimeUsecs()`. -/
  groundTimeUsecs : Nat
  /-- Content of the uninitialised stack array `buf` of line 194. -/
  stackBytes : Nat → Nat
  /-- Return value of `m_logfile->write(b)`. -/
  written : Int
  /-- Whether `createUAS` returns a non-null `UASInterface*`. -/
  created : Bool

/-- The protocol object together with the two singletons it consults. -/
structure World where
  protocol : Protocol
  /-- System ids for which `UASManager` holds a UAS. -/
  uas : List Nat
  /-- Result of `LinkManager::instance()->getLinksForProtocol(this)`. -/
  links : List Link

/-- Modelled from the spec: `UASManager::getUASForId` is not part of this
file; a Device is "uniquely identified by source-id", so the lookup succeeds
exactly for the registered system ids. -/
def getUASForId (uas : List Nat) (sysid : Nat) : Bool :=
  decide (sysid ∈ uas)

/-- Modelled from the spec: `QGCMAVLinkUASFactory::createUAS` is not part of
this file; it returns "Device handle or none", and a newly created Device is
"fully resolvable by lookup" once the call has returned. -/
def createUAS (uas : List Nat) (sysid : Nat) (created : Bool) : List Nat :=
  if created then sysid :: uas else uas

/-! ## Logging (lines 190–206, 483–534) -/

/-- The eight bytes `memcpy` takes from a `quint64`, least significant first. -/
def timeBytes (time : Nat) : List Nat :=
  (List.range 8).map (fun i => time / 256 ^ i % 256)

/-- Lines 193–199: the array `buf` as handed to `QByteArray`. -/
def logRecord (env : Env) (message : Message) (x : Ext) : List Nat :=
  let wire := env.mavlink_msg_to_send_buffer message
  (List.range (env.MAVLINK_MAX_PACKET_LEN + 8)).map (fun i =>
    if i < 8 then (timeBytes x.groundTimeUsecs).getD i 0
    else if i < 8 + wire.length then wire.getD (i - 8) 0
    else x.stackBytes i)

/-- Lines 483–519; `openOk` is the result of `m_logfile->open(...)`. -/
def enableLogging (enabled openOk : Bool) (p : Protocol) : Protocol × List Event :=
  let changed := enabled != p.m_loggingEnabled
  let r : Protocol × List Event :=
    if enabled then
      match p.m_logfile with
      | some f =>
        let evClose := if f.isOpen then [Event.logClose f.fileName] else []
        if openOk then
          ({ p with m_logfile := some { f with isOpen := true } }, evClose)
        else
          ({ p with m_logfile := some { f with isOpen := false }, m_loggingEnabled := false },
           evClose ++ [Event.protocolStatusMessage (Notice.logOpenFailed f.fileName)])
      | none => (p, [])
    else
      match p.m_logfile with
      | some f =>
        ({ p with m_logfile := none }, if f.isOpen then [Event.logClose f.fileName] else [])
      | none => (p, [])
  ({ r.1 with m_loggingEnabled := enabled },
   r.2 ++ if changed then [Event.loggingChanged enabled] else [])

/-- Lines 521–534. -/
def setLogfileName (filename : String) (openOk : Bool) (p : Protocol) :
    Protocol × List Event :=
  let evClose :=
    match p.m_logfile with
    | some f => if f.isOpen then [Event.logClose f.fileName] else []
    | none => []
  let r := enableLogging p.m_loggingEnabled openOk
    { p with m_logfile := some { fileName := filename, isOpen := false } }
  (r.1, evClose ++ r.2)

/-- Lines 191–206: append the packet to the log when logging is on. -/
def logPacket (env : Env) (message : Message) (x : Ext) (p : Protocol) :
    Protocol × List Event :=
  match p.m_logfile with
  | some f =>
    if p.m_loggingEnabled then
      let b := logRecord env message x
      let evWrite := [Event.logWrite f.fileName (b.take x.written.toNat)]
      if x.written < ((env.MAVLINK_MAX_PACKET_LEN + 8 : Nat) : Int) then
        let r := enableLogging false false p
        (r.1, evWrite ++ [Event.protocolStatusMessage (Notice.loggingFailed f.fileName)] ++ r.2)
      else (p, evWrite)
    else (p, [])
  | none => (p, [])

/-! ## Sending (lines 391–405) and the receive path (lines 188–340) -/

/-- Lines 391–405, `sendMessage(LinkInterface*, mavlink_message_t)`. -/
def sendMessage (env : Env) (p : Protocol) (link : Link) (message : Message) : List Event :=
  let message1 :=
    if link.id ≠ 0 then
      env.mavlink_finalize_message_chan message p.systemId env.defaultComponentId link.id
        message.len
    else message
  let buffer := env.mavlink_msg_to_send_buffer message1
  if link.connected then [Event.writeBytes link buffer] else []

/-- Lines 332–337: forward to every link except the one of origin. -/
def multiplex (env : Env) (p : Protocol) (link : Link) (message : Message) :
    List Link → List Event
  | [] => []
  | currLink :: rest =>
    (if currLink.handle ≠ link.handle then sendMessage env p currLink message else [])
      ++ multiplex env p link message rest

/-- Lines 259–339, the body of `if (uas != NULL)`. -/
def dispatch (env : Env) (link : Link) (message : Message) (w : World) :
    World × List Event :=
  let r := updateLoss message.sysid message.compid message.seq w.protocol
  let evRelay :=
    if r.1.m_multiplexingEnabled then multiplex env r.1 link message w.links else []
  ({ w with protocol := r.1 }, r.2 ++ [Event.messageReceived link message] ++ evRelay)

/-- Lines 223–226: the notice for a heartbeat that carries the own system id. -/
def conflictNotice (message : Message) (p : Protocol) : List Event :=
  if (message.sysid : Int) = p.systemId then
    [Event.protocolStatusMessage (Notice.systemIdConflict p.systemId)]
  else []

/-- Lines 188–340, the body of `if (decodeState == 1)` for one decoded packet. -/
def handleMessage (env : Env) (link : Link) (message : Message) (x : Ext) (w : World) :
    World × List Event :=
  let l := logPacket env message x w.protocol
  let p := l.1
  if getUASForId w.uas message.sysid = false ∧ message.msgid = env.MAVLINK_MSG_ID_HEARTBEAT then
    let evConflict := conflictNotice message p
    let version := env.mavlink_msg_heartbeat_decode message
    if p.m_enable_version_check = true ∧ version ≠ env.MAVLINK_VERSION then
      if p.versionMismatchIgnore = false then
        ({ w with protocol := { p with versionMismatchIgnore := true } },
         l.2 ++ evConflict ++
           [Event.protocolStatusMessage
             (Notice.versionMismatch message.sysid version env.MAVLINK_VERSION)])
      else ({ w with protocol := p }, l.2 ++ evConflict)
    else
      let evCreate := [Event.createUAS link message.sysid version x.created]
      let w1 : World :=
        { w with protocol := p, uas := createUAS w.uas message.sysid x.created }
      if x.created then
        let d := dispatch env link message w1
        (d.1, l.2 ++ evConflict ++ evCreate ++ d.2)
      else (w1, l.2 ++ evConflict ++ evCreate)
  else if getUASForId w.uas message.sysid then
    let d := dispatch env link message { w with protocol := p }
    (d.1, l.2 ++ d.2)
  else ({ w with protocol := p }, l.2)

/-! ## Sessions -/

/-- Lines 536–540. -/
def enableVersionCheck (enabled : Bool) (p : Protocol) : Protocol × List Event :=
  ({ p with m_enable_version_check := enabled }, [Event.versionCheckChanged enabled])

/-- Lines 429–436. -/
def enableMultiplexing (enabled : Bool) (p : Protocol) : Protocol × List Event :=
  ({ p with m_multiplexingEnabled := enabled },
   if enabled != p.m_multiplexingEnabled then [Event.multiplexingChanged enabled] else [])

/-- Lines 423–427. -/
def enableHeartbeats (enabled : Bool) (p : Protocol) : Protocol × List Event :=
  ({ p with m_heartbeatsEnabled := enabled }, [Event.heartbeatChanged enabled])

/-- Lines 359–362. -/
def setSystemId (id : Int) (p : Protocol) : Protocol :=
  { p with systemId := id }

/-- What can happen to the protocol object during a session: a decoded packet
inside `receiveBytes`, a call of one of its setters, or a change of the set
of links owned by `LinkManager`. -/
inductive Op where
  | receive (link : Link) (message : Message) (x : Ext)
  | enableVersionCheck (enabled : Bool)
  | enableMultiplexing (enabled : Bool)
  | enableHeartbeats (enabled : Bool)
  | enableLogging (enabled openOk : Bool)
  | setLogfileName (filename : String) (openOk : Bool)
  | setSystemId (id : Int)
  | setLinks (links : List Link)

/-- Lift an operation on the protocol object to the world. -/
def World.onProtocol (w : World) (r : Protocol × List Event) : World × List Event :=
  ({ w with protocol := r.1 }, r.2)

/-- Effect of one operation. -/
def step (env : Env) (w : World) : Op → World × List Event
  | Op.receive link message x => handleMessage env link message x w
  | Op.enableVersionCheck enabled => w.onProtocol (enableVersionCheck enabled w.protocol)
  | Op.enableMultiplexing enabled => w.onProtocol (enableMultiplexing enabled w.protocol)
  | Op.enableHeartbeats enabled => w.onProtocol (enableHeartbeats enabled w.protocol)
  | Op.enableLogging enabled openOk => w.onProtocol (enableLogging enabled openOk w.protocol)
  | Op.setLogfileName filename openOk => w.onProtocol (setLogfileName filename openOk w.protocol)
  | Op.setSystemId id => ({ w with protocol := setSystemId id w.protocol }, [])
  | Op.setLinks links => ({ w with links := links }, [])

/-- Effect of a sequence of operations, with the events in program order. -/
def run (env : Env) : List Op → World → World × List Event
  | [], w => (w, [])
  | op :: rest, w =>
    let r := step env w op
    let s := run env rest r.1
    (s.1, r.2 ++ s.2)

/-- Modelled from the spec: the constant `MAVLINK_HEARTBEAT_DEFAULT_RATE` comes
from a header; the heartbeat timer has a "configurable rate, default 1 per
second" (and line 543 says "The default rate is 1 Hertz"). -/
def MAVLINK_HEARTBEAT_DEFAULT_RATE : Int := 1

/-- State left by the constructor (lines 40–73) in the members used by the
receive path; the four flags come out of `loadSettings`. -/
def construct (heartbeats logging versionCheck multiplexing : Bool) (logfile : Option QFile)
    (systemId : Int) : Protocol :=
  { totalReceiveCounter := 0
    totalLossCounter := 0
    currReceiveCounter := 0
    currLossCounter := 0
    lastIndex := fun _ _ => -1
    m_heartbeatsEnabled := heartbeats
    m_loggingEnabled := logging
    m_logfile := logfile
    m_enable_version_check := versionCheck
    m_multiplexingEnabled := multiplexing
    versionMismatchIgnore := false
    systemId := systemId
    heartbeatRate := MAVLINK_HEARTBEAT_DEFAULT_RATE
    heartbeatTimer := { interval := Int.tdiv 1000 MAVLINK_HEARTBEAT_DEFAULT_RATE, active := true } }

/-! ## Heartbeats (lines 373–385, 412–427, 542–557) -/

/-- Lines 373–385, `sendMessage(mavlink_message_t)`: send on all links of the
protocol, in the order of the list. -/
def sendMessageAll (env : Env) (p : Protocol) (message : Message) : List Link → List Event
  | [] => []
  | link :: rest => sendMessage env p link message ++ sendMessageAll env p message rest

/-- Lines 412–420. -/
def sendHeartbeat (env : Env) (w : World) : List Event :=
  if w.protocol.m_heartbeatsEnabled then
    sendMessageAll env w.protocol
      (env.mavlink_msg_heartbeat_pack w.protocol.systemId env.defaultComponentId) w.links
  else []

/-- Lines 547–551.  The division of line 550 is the truncating division of C
on `int`; with `rate = 0` it has no result. -/
def setHeartbeatRate (rate : Int) (p : Protocol) : Option Protocol :=
  if rate = 0 then none
  else some { p with heartbeatRate := rate
                     heartbeatTimer := { p.heartbeatTimer with interval := Int.tdiv 1000 rate } }

/-- Lines 554–557. -/
def getHeartbeatRate (p : Protocol) : Int :=
  p.heartbeatRate

/-! ## Construction (lines 40–112) -/

/-- The values of the group `QGC_MAVLINK_PROTOCOL` in `QSettings` that
`loadSettings` reads; `none` stands for a key that is not stored. -/
structure Settings where
  HEARTBEATS_ENABLED : Option Bool
  VERSION_CHECK_ENABLED : Option Bool
  MULTIPLEXING_ENABLED : Option Bool
  LOGFILE_NAME : Option String
  LOGGING_ENABLED : Option Bool
  GCS_SYSTEM_ID : Option Int

/-- Lines 75–103 (the parameter timeouts of lines 104–110 are not members of
`Protocol`).  `home` is `QDesktopServices::storageLocation(HomeLocation)` and
`openOk` the result of `m_logfile->open(...)` inside `enableLogging`. -/
def loadSettings (s : Settings) (home : String) (openOk : Bool) (p : Protocol) :
    Protocol × List Event :=
  let h := enableHeartbeats (s.HEARTBEATS_ENABLED.getD p.m_heartbeatsEnabled) p
  let v := enableVersionCheck (s.VERSION_CHECK_ENABLED.getD h.1.m_enable_version_check) h.1
  let m := enableMultiplexing (s.MULTIPLEXING_ENABLED.getD v.1.m_multiplexingEnabled) v.1
  let file : QFile :=
    match m.1.m_logfile with
    | some f => f
    | none =>
      { fileName :=
          match s.LOGFILE_NAME with
          | some name => name
          | none => home ++ "/qgroundcontrol_packetlog.mavlink"
        isOpen := false }
  let l := enableLogging (s.LOGGING_ENABLED.getD m.1.m_loggingEnabled) openOk
    { m.1 with m_logfile := some file }
  let temp := s.GCS_SYSTEM_ID.getD l.1.systemId
  ({ l.1 with systemId := if 0 < temp ∧ temp < 256 then temp else l.1.systemId },
   h.2 ++ v.2 ++ m.2 ++ l.2)

/-- Lines 40–53, the member initialiser list.  `m_multiplexingEnabled` is not
in the list, so it holds whatever the memory of the new object held:
`uninitialised`.  The counters and `lastIndex` are shown with the values that
lines 60–70 assign; nothing reads them before.  `defaultSystemId` is the
constant `QGC::defaultSystemId`. -/
def initialMembers (uninitialised : Bool) (defaultSystemId : Int) : Protocol :=
  { totalReceiveCounter := 0
    totalLossCounter := 0
    currReceiveCounter := 0
    currLossCounter := 0
    lastIndex := fun _ _ => -1
    m_heartbeatsEnabled := false
    m_loggingEnabled := false
    m_logfile := none
    m_enable_version_check := true
    m_multiplexingEnabled := uninitialised
    versionMismatchIgnore := false
    systemId := defaultSystemId
    heartbeatRate := MAVLINK_HEARTBEAT_DEFAULT_RATE
    heartbeatTimer := { interval := 0, active := false } }

/-- Lines 40–73, `MAVLinkProtocol::MAVLinkProtocol()`. -/
def constructor (uninitialised : Bool) (defaultSystemId : Int) (s : Settings) (home : String)
    (openOk : Bool) : Protocol × List Event :=
  let l := loadSettings s home openOk (initialMembers uninitialised defaultSystemId)
  ({ l.1 with heartbeatTimer := { interval := Int.tdiv 1000 l.1.heartbeatRate, active := true } },
   l.2 ++ [Event.versionCheckChanged l.1.m_enable_version_check])

/-- A settings store in which nothing has been stored yet. -/
def noSettings : Settings :=
  { HEARTBEATS_ENABLED := none
    VERSION_CHECK_ENABLED := none
    MULTIPLEXING_ENABLED := none
    LOGFILE_NAME := none
    LOGGING_ENABLED := none
    GCS_SYSTEM_ID := none }

/-- The loss update of lines 262–318 applied to a sequence of dispatched
packets, each given by its (sysid, compid, seq). -/
def track : List (Nat × Nat × Nat) → Protocol → Protocol × List Event
  | [], p => (p, [])
  | m :: rest, p =>
    let r := updateLoss m.1 m.2.1 m.2.2 p
    let t := track rest r.1
    (t.1, r.2 ++ t.2)

/-- The packets of one pair with the sequence numbers `0, 1, ..., N-1`
taken mod 256. -/
def consecutive (sysid compid N : Nat) : List (Nat × Nat × Nat) :=
  (List.range N).map (fun i => (sysid, compid, i % 256))

/-- Recognises the signal `receiveLossChanged`. -/
def Event.isLossReport : Event → Bool
  | Event.receiveLossChanged _ _ => true
  | _ => false

/-- Recognises the signal `messageReceived`. -/
def Event.isMessageReceived : Event → Bool
  | Event.messageReceived _ _ => true
  | _ => false

/-- Recognises a call of the factory's `createUAS`. -/
def Event.isCreateUAS : Event → Bool
  | Event.createUAS _ _ _ _ => true
  | _ => false

/-- Recognises a call of `createUAS` for `sysid` that returned a UAS. -/
def Event.isCreated (sysid : Nat) : Event → Bool
  | Event.createUAS _ s _ created => decide (s = sysid) && created
  | _ => false

/-- Recognises a call of `writeBytes` on a link. -/
def Event.isWriteBytes : Event → Bool
  | Event.writeBytes _ _ => true
  | _ => false

/-- Recognises the protocol-version mismatch notice of line 245. -/
def Event.isVersionMismatch : Event → Bool
  | Event.protocolStatusMessage (Notice.versionMismatch _ _ _) => true
  | _ => false

/-- Recognises what the logging code of lines 191–206 and 483–519 can emit. -/
def Event.isLogging : Event → Bool
  | Event.logWrite _ _ => true
  | Event.logClose _ => true
  | Event.loggingChanged _ => true
  | Event.protocolStatusMessage (Notice.loggingFailed _) => true
  | Event.protocolStatusMessage (Notice.logOpenFailed _) => true
  | _ => false

/-- Events that touch neither the device registry nor the loss accounting
nor any link nor the subscribers of `messageReceived`. -/
def Event.isQuiet (e : Event) : Bool :=
  !(e.isCreateUAS || e.isMessageReceived || e.isWriteBytes || e.isLossReport)

/-- The spec's per-pair "total received" counter of `LossState`: how many of
the dispatched packets belong to the pair (sysid, compid).  The source keeps
no such counter; it is defined here to state the spec's wording. -/
def pairReceived (sysid compid : Nat) (history : List (Nat × Nat × Nat)) : Nat :=
  (history.filter (fun m => decide (m.1 = sysid) && decide (m.2.1 = compid))).length

/-- A frame decoder for the wire format of `sampleEnv`: start sign 85, then
length, sequence, system id, component id and message id, then as many
payload bytes as the length says.  The state is the bytes of the frame read
so far; bytes before a start sign are skipped. -/
def sampleParse (state : List Nat) (byte : Nat) : List Nat × Option Message :=
  if state = [] ∧ byte ≠ 85 then ([], none)
  else if 6 ≤ (state ++ [byte]).length ∧
      (state ++ [byte]).length = 6 + (state ++ [byte]).getD 1 0 then
    ([], some { len := (state ++ [byte]).getD 1 0
                seq := (state ++ [byte]).getD 2 0
                sysid := (state ++ [byte]).getD 3 0
                compid := (state ++ [byte]).getD 4 0
                msgid := (state ++ [byte]).getD 5 0
                payload := (state ++ [byte]).drop 6 })
  else (state ++ [byte], none)

/-- An environment on which the embedding can be evaluated: protocol version
2, HEARTBEAT is message 0, wire frames of at most 263 bytes; the heartbeat's
version is its first payload byte, and finalising stamps the sender ids. -/
def sampleEnv : Env :=
  { MAVLINK_VERSION := 2
    MAVLINK_MSG_ID_HEARTBEAT := 0
    MAVLINK_MAX_PACKET_LEN := 263
    defaultComponentId := 0
    mavlink_msg_heartbeat_decode := fun m => m.payload.headD 0
    mavlink_msg_to_send_buffer := fun m =>
      [85, m.len, m.seq, m.sysid, m.compid, m.msgid] ++ m.payload
    mavlink_finalize_message_chan := fun m sys comp _ len =>
      { m with sysid := sys.toNat, compid := comp, len := len }
    mavlink_msg_heartbeat_pack := fun sys comp =>
      { sysid := sys.toNat, compid := comp, seq := 0, msgid := 0, len := 1, payload := [2] }
    mavlink_parse_char := sampleParse }

/-- Environment answers for a packet: the log write succeeds in full and the
factory returns a UAS. -/
def sampleExt : Ext :=
  { groundTimeUsecs := 1000000
    stackBytes := fun _ => 0
    written := 271
    created := true }

/-- A connected link with id 0. -/
def linkA : Link := { handle := 1, id := 0, connected := true }

/-- A heartbeat of system `sysid`, component `compid`, advertising `version`. -/
def heartbeat (sysid compid seq version : Nat) : Message :=
  { sysid := sysid, compid := compid, seq := seq, msgid := 0, len := 1, payload := [version] }

/-- A protocol object right after construction with heartbeats, logging and
multiplexing off, the version check on and own system id 255. -/
def fresh : Protocol :=
  construct false false true false none 255

/-- The world right after construction: no UAS, no links. -/
def freshWorld : World :=
  { protocol := fresh, uas := [], links := [] }

/-- Number of iterations of the gap loop when the pair last saw `p` and the
packet carries `s`: the distance from `p + 1` to `s` going upwards mod 256. -/
def gap (p s : Nat) : Nat :=
  (s + 256 - (p + 1) % 256) % 256

/-- Number of times the body of the `while` loop of lines 284–297 runs when
it starts from `lastIndex = last` and `safeguard = k`. -/
def gapIterations (seq : Nat) : Nat → Int → Nat → Nat
  | 0, _, _ => 0
  | fuel + 1, last, k =>
    if last ≠ (seq : Int) ∧ k < 255 then gapIterations seq fuel (advanceIndex last) (k + 1) + 1
    else 0

/-- Losses that lines 266–298 register for a packet with sequence `seq` when
the entry of its pair in `lastIndex` is `last`. -/
def registeredLoss (last : Int) (seq : Nat) : Nat :=
  if last = -1 then 0 else gapIterations seq 255 (advanceIndex last) 0

/-- A message that is not a heartbeat (message id 254, no payload). -/
def statusText (sysid compid seq : Nat) : Message :=
  { sysid := sysid, compid := compid, seq := seq, msgid := 254, len := 0, payload := [] }

/-- Sixty-three heartbeats of system 1, component 1, with the sequence
numbers 0..62, all received on `linkA`. -/
def sixtyThree : List Op :=
  (List.range 63).map (fun i => Op.receive linkA (heartbeat 1 1 i 2) sampleExt)

/-- Whether processing `op` in world `w` is the drop of lines 240–252: an
identification packet from a system without a UAS whose protocol version
differs from the expected one, with the version check enabled. -/
def isMismatchDrop (env : Env) (w : World) : Op → Bool
  | Op.receive _ message _ =>
    decide (getUASForId w.uas message.sysid = false ∧
      message.msgid = env.MAVLINK_MSG_ID_HEARTBEAT ∧
      w.protocol.m_enable_version_check = true ∧
      env.mavlink_msg_heartbeat_decode message ≠ env.MAVLINK_VERSION)
  | _ => false

/-- Whether `handleMessage` reaches the call of `createUAS` in line 255: the
system has no UAS, the message is a heartbeat, and it is not dropped by the
version check of line 240. -/
def requestsUAS (env : Env) (w : World) (message : Message) : Bool :=
  decide (getUASForId w.uas message.sysid = false ∧
    message.msgid = env.MAVLINK_MSG_ID_HEARTBEAT ∧
    ¬ (w.protocol.m_enable_version_check = true ∧
      env.mavlink_msg_heartbeat_decode message ≠ env.MAVLINK_VERSION))

/-- Whether some operation of the sequence, run from `w`, is such a drop. -/
def anyMismatchDrop (env : Env) : List Op → World → Bool
  | [], _ => false
  | op :: rest, w => isMismatchDrop env w op || anyMismatchDrop env rest (step env w op).1

/-- Number of protocol-version mismatch notices among the events. -/
def mismatchNotices (events : List Event) : Nat :=
  (events.filter Event.isVersionMismatch).length

/-- Number of calls of `createUAS` for `sysid` that returned a UAS. -/
def createdCount (sysid : Nat) (events : List Event) : Nat :=
  (events.filter (Event.isCreated sysid)).length

/-- Whether `handleMessage` attributes the packet to a UAS, that is, whether
`uas != NULL` holds in line 259: the lookup of line 211 found one, or the
factory was asked in line 255 and returned one. -/
def attributed (env : Env) (w : World) (message : Message) (x : Ext) : Bool :=
  getUASForId w.uas message.sysid || (requestsUAS env w message && x.created)

/-- The device registry after the factory calls recorded in a trace. -/
def devicesAfter (uas : List Nat) : List Event → List Nat
  | [] => uas
  | Event.createUAS _ sysid _ created :: rest => devicesAfter (createUAS uas sysid created) rest
  | _ :: rest => devicesAfter uas rest

/-- Walks a trace that starts with the registry `uas` and tells whether every
`messageReceived` in it is for a system that has a UAS at that point of the
trace: one that was registered at the start or one that an earlier
`createUAS` of the trace returned. -/
def receivedAfterDevice (uas : List Nat) : List Event → Bool
  | [] => true
  | Event.createUAS _ sysid _ created :: rest =>
    receivedAfterDevice (createUAS uas sysid created) rest
  | Event.messageReceived _ message :: rest =>
    getUASForId uas message.sysid && receivedAfterDevice uas rest
  | _ :: rest => receivedAfterDevice uas rest

/-- Events other than factory calls and `messageReceived`. -/
def Event.isPlain (e : Event) : Bool :=
  !(e.isCreateUAS || e.isMessageReceived)

/-- Number of `messageReceived` signals among the events. -/
def receivedCount (events : List Event) : Nat :=
  (events.filter Event.isMessageReceived).length

/-- The message that `sendMessage(link, message)` encodes: lines 394–396. -/
def sentMessage (env : Env) (p : Protocol) (link : Link) (message : Message) : Message :=
  if link.id ≠ 0 then
    env.mavlink_finalize_message_chan message p.systemId env.defaultComponentId link.id
      message.len
  else message

/-- The bytes that `sendMessage(link, message)` hands to `writeBytes`. -/
def sentBytes (env : Env) (p : Protocol) (link : Link) (message : Message) : List Nat :=
  env.mavlink_msg_to_send_buffer (sentMessage env p link message)

/-- Recognises a call of `writeBytes` on the link `l`. -/
def Event.isWriteOn (l : Link) : Event → Bool
  | Event.writeBytes link _ => decide (link = l)
  | _ => false

/-- Recognises the "SYSTEM ID CONFLICT!" notice of line 225. -/
def Event.isConflict : Event → Bool
  | Event.protocolStatusMessage (Notice.systemIdConflict _) => true
  | _ => false

/-- Number of "SYSTEM ID CONFLICT!" notices among the events. -/
def conflictNotices (events : List Event) : Nat :=
  (events.filter Event.isConflict).length

/-- Whether the packet reaches line 223 with the own system id: no UAS, a
heartbeat, and `message.sysid == getSystemId()`. -/
def isConflicting (env : Env) (w : World) (message : Message) : Bool :=
  decide (getUASForId w.uas message.sysid = false ∧
    message.msgid = env.MAVLINK_MSG_ID_HEARTBEAT ∧
    (message.sysid : Int) = w.protocol.systemId)

/-- A sequence of decoded packets as operations of a session. -/
def packets (ps : List (Link × Message × Ext)) : List Op :=
  ps.map (fun t => Op.receive t.1 t.2.1 t.2.2)

/-- Recognises the "MAVLink Logging failed" notice of line 202. -/
def Event.isLoggingFailed : Event → Bool
  | Event.protocolStatusMessage (Notice.loggingFailed _) => true
  | _ => false

/-- Recognises a write to the log file. -/
def Event.isLogWrite : Event → Bool
  | Event.logWrite _ _ => true
  | _ => false

/-- Recognises the call `enableLogging(true)`. -/
def Op.enablesLogging : Op → Bool
  | Op.enableLogging true _ => true
  | _ => false

/-- The world in which `enableLogging(false)` has been called: logging off
and the log file object deleted, everything else as in `w`. -/
def loggingOff (w : World) : World :=
  { w with protocol := { w.protocol with m_loggingEnabled := false, m_logfile := none } }

/-- A second connected link, with id 1. -/
def linkB : Link := { handle := 2, id := 1, connected := true }

/-- A third connected link, with id 2. -/
def linkC : Link := { handle := 3, id := 2, connected := true }

/-- A link that is not connected, with id 3. -/
def linkD : Link := { handle := 4, id := 3, connected := false }

/-- Environment answers for a packet whose log write stores only 100 bytes
and finds the byte 170 everywhere in the stack array. -/
def shortWrite : Ext :=
  { groundTimeUsecs := 1000000
    stackBytes := fun _ => 170
    written := 100
    created := true }

/-- Environment answers for a packet whose log write succeeds in full and
finds the byte 170 everywhere in the stack array. -/
def dirtyStack : Ext :=
  { groundTimeUsecs := 1000000
    stackBytes := fun _ => 170
    written := 271
    created := true }

/-- Events that do not come from the logging code. -/
def Event.isRouting (e : Event) : Bool :=
  !e.isLogging

/-- A world with system 1 registered, four links of which one is not
connected, multiplexing and heartbeats on, and logging to an open file. -/
def busyWorld : World :=
  { protocol :=
      { fresh with m_multiplexingEnabled := true
                   m_heartbeatsEnabled := true
                   m_loggingEnabled := true
                   m_logfile := some { fileName := "packetlog.mavlink", isOpen := true } }
    uas := [1]
    links := [linkA, linkB, linkD, linkC] }

/-! ## The byte loop of `receiveBytes` (lines 179–343) -/

/-- The world together with the parsing state that the MAVLink library keeps
for every channel between calls of `mavlink_parse_char`. -/
structure Receiver where
  world : World
  channels : Nat → List Nat

/-- Assignment of the parsing state of one channel. -/
def setChannel (channels : Nat → List Nat) (chan : Nat) (state : List Nat) : Nat → List Nat :=
  fun c => if c = chan then state else channels c

/-- Lines 184–341, the loop of `receiveBytes(link, b)` over the bytes of `b`.
Every byte comes with the answers the environment gives should that byte
complete a packet.  (The mutex of lines 181 and 342 is not part of the
model.) -/
def receiveBytes (env : Env) (link : Link) : List (Nat × Ext) → Receiver → Receiver × List Event
  | [], r => (r, [])
  | (byte, x) :: rest, r =>
    let d := env.mavlink_parse_char (r.channels link.id) byte
    match d.2 with
    | some message =>
      let h := handleMessage env link message x r.world
      let t := receiveBytes env link rest
        { world := h.1, channels := setChannel r.channels link.id d.1 }
      (t.1, h.2 ++ t.2)
    | none =>
      receiveBytes env link rest
        { world := r.world, channels := setChannel r.channels link.id d.1 }

/-- The packets that the bytes of one call complete on the channel of
`link`, each with the environment's answers for it, in order. -/
def decoded (env : Env) (link : Link) :
    List (Nat × Ext) → (Nat → List Nat) → List (Link × Message × Ext)
  | [], _ => []
  | (byte, x) :: rest, channels =>
    let d := env.mavlink_parse_char (channels link.id) byte
    match d.2 with
    | some message => (link, message, x) :: decoded env link rest (setChannel channels link.id d.1)
    | none => decoded env link rest (setChannel channels link.id d.1)

/-- Lines 159–169; `home` is
`QDesktopServices::storageLocation(QDesktopServices::HomeLocation)`. -/
def getLogfileName (home : String) (p : Protocol) : String :=
  match p.m_logfile with
  | some f => f.fileName
  | none => home ++ "/qgroundcontrol_packetlog.mavlink"

/-- Number of writes to the log file among the events. -/
def logWrites (events : List Event) : Nat :=
  (events.filter Event.isLogWrite).length

/-- The bytes of a buffer, each paired with the same answers of the
environment. -/
def withExt (x : Ext) (bytes : List Nat) : List (Nat × Ext) :=
  bytes.map (fun b => (b, x))

/-- A receiver in the fresh world whose channels have read nothing yet. -/
def freshReceiver : Receiver :=
  { world := freshWorld, channels := fun _ => [] }

/-- The wire bytes of a heartbeat of system 7 that advertises version 3. -/
def mismatchedFrame : List Nat := [85, 1, 0, 7, 1, 0, 3]

/-- The wire bytes of a heartbeat of system 1 that advertises version 2. -/
def goodFrame : List Nat := [85, 1, 0, 1, 1, 0, 2]

/-- What the tracker looks like after `n` consecutive packets of one pair,
fed to a freshly constructed object. -/
structure Consecutive (sysid compid n : Nat) (p : Protocol) : Prop where
  total : p.totalReceiveCounter = n
  noLoss : p.totalLossCounter = 0
  noCurrLoss : p.currLossCounter = 0
  unseen : n = 0 → p.lastIndex sysid compid = -1
  seen : 0 < n → p.lastIndex sysid compid = (((n - 1) % 256 : Nat) : Int)

/-! ## The gap loop -/

theorem gapLoop_exits (seq : Nat) : ∀ (fuel : Nat) (g : GapLoop),
    255 ≤ g.safeguard + fuel → (gapLoop seq fuel g).continues seq = false := by
  intro fuel
  induction fuel with
  | zero =>
    intro g h
    simp only [gapLoop, GapLoop.continues]
    have : ¬ g.safeguard < 255 := by omega
    simp [this]
  | succ n ih =>
    intro g h
    simp only [gapLoop]
    by_cases hc : g.continues seq = true
    · rw [if_pos hc]
      apply ih
      simp only [GapLoop.body]
      omega
    · rw [if_neg hc]
      simpa using hc

theorem advanceIndex_natCast (l : Nat) (hl : l < 256) :
    advanceIndex (l : Int) = (((l + 1) % 256 : Nat) : Int) := by
  unfold advanceIndex
  by_cases h : l = 255
  · subst h; simp
  · have h1 : ¬ ((l : Int) = 255) := by omega
    rw [if_neg h1]
    have : (l + 1) % 256 = l + 1 := Nat.mod_eq_of_lt (by omega)
    rw [this]; push_cast; rfl

theorem gapLoop_reaches (s : Nat) (hs : s < 256) : ∀ (fuel l t c k : Nat),
    l < 256 → (s + 256 - l) % 256 ≤ fuel → (s + 256 - l) % 256 + k ≤ 255 →
    gapLoop s fuel { last := (l : Int), totalLossCounter := t, currLossCounter := c, safeguard := k }
      = { last := (s : Int), totalLossCounter := t + (s + 256 - l) % 256,
          currLossCounter := c + (s + 256 - l) % 256, safeguard := k + (s + 256 - l) % 256 } := by
  intro fuel
  induction fuel with
  | zero =>
    intro l t c k hl hf _
    have hls : l = s := by omega
    subst hls
    have : (l + 256 - l) % 256 = 0 := by omega
    simp [gapLoop, this]
  | succ n ih =>
    intro l t c k hl hf hk
    by_cases hls : l = s
    · subst hls
      have h0 : (l + 256 - l) % 256 = 0 := by omega
      simp [gapLoop, GapLoop.continues, h0]
    · have hc : GapLoop.continues s
          { last := (l : Int), totalLossCounter := t, currLossCounter := c, safeguard := k } = true := by
        have h1 : ¬ ((l : Int) = (s : Int)) := by omega
        have h2 : k < 255 := by omega
        simp [GapLoop.continues, h1, h2]
      simp only [gapLoop, hc, if_true, GapLoop.body]
      rw [advanceIndex_natCast l hl]
      have hl' : (l + 1) % 256 < 256 := Nat.mod_lt _ (by norm_num)
      have hd : (s + 256 - (l + 1) % 256) % 256 + 1 = (s + 256 - l) % 256 := by omega
      rw [ih ((l + 1) % 256) (t + 1) (c + 1) (k + 1) hl' (by omega) (by omega)]
      simp only [GapLoop.mk.injEq, true_and]
      refine ⟨?_, ?_, ?_⟩ <;> omega

theorem gap_eq_emod (p s : Nat) (hs : s < 256) :
    ((gap p s : Nat) : Int) = ((s : Int) - (p : Int) - 1) % 256 := by
  unfold gap
  omega

/-- Lines 262–269 on a pair that has no sequence number recorded. -/
theorem countPacket_unseen (pr : Protocol) (sysid compid s : Nat)
    (h : pr.lastIndex sysid compid = -1) :
    countPacket sysid compid s pr =
      { pr with totalReceiveCounter := pr.totalReceiveCounter + 1
                currReceiveCounter := pr.currReceiveCounter + 1
                lastIndex := setIndex pr.lastIndex sysid compid (s : Int) } := by
  simp [countPacket, h]

/-- Lines 262–298 on a pair whose last sequence number is `p`. -/
theorem countPacket_seen (pr : Protocol) (sysid compid s p : Nat) (hs : s < 256)
    (hp : p < 256) (h : pr.lastIndex sysid compid = (p : Int)) :
    countPacket sysid compid s pr =
      { pr with totalReceiveCounter := pr.totalReceiveCounter + 1
                currReceiveCounter := pr.currReceiveCounter + 1
                lastIndex := setIndex pr.lastIndex sysid compid (s : Int)
                totalLossCounter := pr.totalLossCounter + gap p s
                currLossCounter := pr.currLossCounter + gap p s } := by
  have hne : ¬ ((p : Int) = -1) := by omega
  have hlt : (p + 1) % 256 < 256 := Nat.mod_lt _ (by norm_num)
  have hd : (s + 256 - (p + 1) % 256) % 256 ≤ 255 := by omega
  simp only [countPacket, h, hne, if_false]
  rw [advanceIndex_natCast p hp,
    gapLoop_reaches s hs 255 ((p + 1) % 256) _ _ 0 hlt hd (by omega)]
  rfl

/-! ## Claims -/

/-- C1: when the pair (sysid, compid) has last-seen sequence `p` in 0..255
and a dispatched packet of that pair carries sequence `s` in 0..255, lines
262–298 add exactly `(s - p - 1) mod 256` to the cumulative and to the
windowed loss counter, and the cumulative counter keeps that value through
the report of lines 308–318.  In particular a jump from `p` to `p + 5`
(mod 256) adds 4 and the consecutive packet `p + 1` (mod 256) adds 0, for
every `p`, wrapping past 255 included. -/
theorem gap_losses_added (pr : Protocol) (sysid compid s p : Nat) (hs : s < 256)
    (hp : p < 256) (hlast : pr.lastIndex sysid compid = (p : Int)) :
    (((countPacket sysid compid s pr).totalLossCounter : Int)
        = (pr.totalLossCounter : Int) + ((s : Int) - (p : Int) - 1) % 256) ∧
    (((countPacket sysid compid s pr).currLossCounter : Int)
        = (pr.currLossCounter : Int) + ((s : Int) - (p : Int) - 1) % 256) ∧
    (((updateLoss sysid compid s pr).1.totalLossCounter : Int)
        = (pr.totalLossCounter : Int) + ((s : Int) - (p : Int) - 1) % 256) ∧
    (s = (p + 5) % 256 →
      (countPacket sysid compid s pr).totalLossCounter = pr.totalLossCounter + 4 ∧
      (countPacket sysid compid s pr).currLossCounter = pr.currLossCounter + 4) ∧
    (s = (p + 1) % 256 →
      (countPacket sysid compid s pr).totalLossCounter = pr.totalLossCounter ∧
      (countPacket sysid compid s pr).currLossCounter = pr.currLossCounter) := by
  have hc := countPacket_seen pr sysid compid s p hs hp hlast
  have hg := gap_eq_emod p s hs
  have ht : (countPacket sysid compid s pr).totalLossCounter = pr.totalLossCounter + gap p s := by
    rw [hc]
  have hw : (countPacket sysid compid s pr).currLossCounter = pr.currLossCounter + gap p s := by
    rw [hc]
  have hu : (updateLoss sysid compid s pr).1.totalLossCounter
      = (countPacket sysid compid s pr).totalLossCounter := by
    unfold updateLoss reportLoss
    split <;> rfl
  refine ⟨?_, ?_, ?_, ?_, ?_⟩
  · rw [ht, ← hg]; push_cast; rfl
  · rw [hw, ← hg]; push_cast; rfl
  · rw [hu, ht, ← hg]; push_cast; rfl
  · intro h5
    have : gap p s = 4 := by unfold gap; omega
    rw [ht, hw, this]; exact ⟨rfl, rfl⟩
  · intro h1
    have : gap p s = 0 := by unfold gap; omega
    rw [ht, hw, this]; exact ⟨rfl, rfl⟩

theorem gap_losses_added_witness :
    (2 < 256 ∧ 253 < 256 ∧ (countPacket 1 1 253 fresh).lastIndex 1 1 = ((253 : Nat) : Int)) ∧
    (((countPacket 1 1 2 (countPacket 1 1 253 fresh)).totalLossCounter : Int)
      = ((countPacket 1 1 253 fresh).totalLossCounter : Int)
        + (((2 : Nat) : Int) - ((253 : Nat) : Int) - 1) % 256) :=
  ⟨⟨by decide, by decide, by decide⟩,
   (gap_losses_added (countPacket 1 1 253 fresh) 1 1 2 253 (by decide) (by decide)
      (by decide)).1⟩

/-! ### Consecutive packets -/

theorem receiveLoss_of_no_loss (p : Protocol) (h : p.currLossCounter = 0) :
    receiveLoss p = 0 := by
  simp [receiveLoss, h]

theorem setIndex_same (t : Nat → Nat → Int) (i j : Nat) (v : Int) :
    setIndex t i j v i j = v := by
  simp [setIndex]

theorem consecutive_step (sysid compid n : Nat) (p : Protocol)
    (h : Consecutive sysid compid n p) :
    Consecutive sysid compid (n + 1) (updateLoss sysid compid (n % 256) p).1 ∧
    (updateLoss sysid compid (n % 256) p).2 =
      if (n + 1) % 64 = 0 then [Event.receiveLossChanged sysid 0] else [] := by
  have hs : n % 256 < 256 := Nat.mod_lt _ (by norm_num)
  have hcp : countPacket sysid compid (n % 256) p =
      { p with totalReceiveCounter := p.totalReceiveCounter + 1
               currReceiveCounter := p.currReceiveCounter + 1
               lastIndex := setIndex p.lastIndex sysid compid ((n % 256 : Nat) : Int) } := by
    rcases Nat.eq_zero_or_pos n with h0 | hpos
    · exact countPacket_unseen p sysid compid _ (h.unseen h0)
    · have hl := h.seen hpos
      have hlt : (n - 1) % 256 < 256 := Nat.mod_lt _ (by norm_num)
      rw [countPacket_seen p sysid compid (n % 256) ((n - 1) % 256) hs hlt hl]
      have hg : gap ((n - 1) % 256) (n % 256) = 0 := by unfold gap; omega
      rw [hg]
      rfl
  have hT : (countPacket sysid compid (n % 256) p).totalReceiveCounter = n + 1 := by
    rw [hcp]; simp [h.total]
  have hL : (countPacket sysid compid (n % 256) p).totalLossCounter = 0 := by
    rw [hcp]; exact h.noLoss
  have hC : (countPacket sysid compid (n % 256) p).currLossCounter = 0 := by
    rw [hcp]; exact h.noCurrLoss
  have hI : (countPacket sysid compid (n % 256) p).lastIndex sysid compid
      = ((n % 256 : Nat) : Int) := by
    rw [hcp]; exact setIndex_same _ _ _ _
  have hR := receiveLoss_of_no_loss _ hC
  by_cases h64 : (n + 1) % 64 = 0
  · have hcond : p.totalLossCounter ≠ (countPacket sysid compid (n % 256) p).totalLossCounter ∨
        (countPacket sysid compid (n % 256) p).totalReceiveCounter % 64 = 0 :=
      Or.inr (by rw [hT]; exact h64)
    simp only [updateLoss, reportLoss, if_pos hcond, if_pos h64]
    refine ⟨⟨hT, hL, rfl, fun h0 => by omega, fun _ => by simpa using hI⟩, ?_⟩
    rw [hR]
  · have hcond : ¬ (p.totalLossCounter ≠ (countPacket sysid compid (n % 256) p).totalLossCounter ∨
        (countPacket sysid compid (n % 256) p).totalReceiveCounter % 64 = 0) := by
      rw [hT, hL, h.noLoss]
      simp [h64]
    simp only [updateLoss, reportLoss, if_neg hcond, if_neg h64]
    exact ⟨⟨hT, hL, hC, fun h0 => by omega, fun _ => by simpa using hI⟩, trivial⟩

theorem track_append : ∀ (xs ys : List (Nat × Nat × Nat)) (p : Protocol),
    track (xs ++ ys) p =
      ((track ys (track xs p).1).1, (track xs p).2 ++ (track ys (track xs p).1).2) := by
  intro xs
  induction xs with
  | nil => intro ys p; simp [track]
  | cons x xs ih => intro ys p; simp [track, ih, List.append_assoc]

theorem track_consecutive (sysid compid : Nat) (p : Protocol)
    (h : Consecutive sysid compid 0 p) : ∀ N : Nat,
    Consecutive sysid compid N (track (consecutive sysid compid N) p).1 ∧
    (track (consecutive sysid compid N) p).2
      = List.replicate (N / 64) (Event.receiveLossChanged sysid 0) := by
  intro N
  induction N with
  | zero => exact ⟨by simpa [track, consecutive] using h, by simp [track, consecutive]⟩
  | succ n ih =>
    obtain ⟨hinv, hev⟩ := ih
    have hstep := consecutive_step sysid compid n _ hinv
    unfold consecutive at hinv hev hstep ⊢
    rw [List.range_succ, List.map_append, track_append]
    simp only [List.map_cons, List.map_nil, track, List.append_nil]
    refine ⟨hstep.1, ?_⟩
    rw [hev, hstep.2]
    by_cases h64 : (n + 1) % 64 = 0
    · have : (n + 1) / 64 = n / 64 + 1 := by omega
      rw [if_pos h64, this, List.replicate_succ']
    · have : (n + 1) / 64 = n / 64 := by omega
      rw [if_neg h64, this, List.append_nil]

/-- C2: on a freshly constructed protocol object, feeding the sequence
numbers `0, 1, ..., N-1` (mod 256) of one (sysid, compid) pair produces
exactly `N / 64` loss reports, one at every 64th packet, and every loss
ratio that is reported has the value 0. -/
theorem consecutive_reports_zero (sysid compid N : Nat)
    (heartbeats logging versionCheck multiplexing : Bool) (logfile : Option QFile)
    (systemId : Int) :
    (track (consecutive sysid compid N)
        (construct heartbeats logging versionCheck multiplexing logfile systemId)).2
      = List.replicate (N / 64) (Event.receiveLossChanged sysid 0) ∧
    ∀ e ∈ (track (consecutive sysid compid N)
        (construct heartbeats logging versionCheck multiplexing logfile systemId)).2,
      ∀ (id : Nat) (ratio : ℚ), e = Event.receiveLossChanged id ratio → ratio = 0 := by
  have h0 : Consecutive sysid compid 0
      (construct heartbeats logging versionCheck multiplexing logfile systemId) :=
    ⟨rfl, rfl, rfl, fun _ => rfl, fun h => absurd h (by decide)⟩
  have h := (track_consecutive sysid compid _ h0 N).2
  refine ⟨h, ?_⟩
  intro e he id ratio heq
  rw [h] at he
  have := List.eq_of_mem_replicate he
  rw [heq] at this
  injection this with _ hr

/-! ### The first packet of a pair and the report trigger -/

theorem gapLoop_counters (seq : Nat) : ∀ (fuel : Nat) (g : GapLoop),
    (gapLoop seq fuel g).totalLossCounter
        = g.totalLossCounter + gapIterations seq fuel g.last g.safeguard ∧
    (gapLoop seq fuel g).currLossCounter
        = g.currLossCounter + gapIterations seq fuel g.last g.safeguard := by
  intro fuel
  induction fuel with
  | zero => intro g; simp [gapLoop, gapIterations]
  | succ n ih =>
    intro g
    by_cases hc : g.last ≠ (seq : Int) ∧ g.safeguard < 255
    · have hc' : g.continues seq = true := by
        simp only [GapLoop.continues, Bool.and_eq_true, decide_eq_true_eq]
        exact hc
      simp only [gapLoop, hc', if_true, gapIterations, if_pos hc]
      have := ih g.body
      simp only [GapLoop.body] at this ⊢
      omega
    · have hc' : ¬ (g.continues seq = true) := by
        simp only [GapLoop.continues, Bool.and_eq_true, decide_eq_true_eq]
        exact hc
      simp only [gapLoop, if_neg hc', gapIterations, if_neg hc]
      omega

theorem countPacket_received (sysid compid seq : Nat) (p : Protocol) :
    (countPacket sysid compid seq p).totalReceiveCounter = p.totalReceiveCounter + 1 ∧
    (countPacket sysid compid seq p).currReceiveCounter = p.currReceiveCounter + 1 := by
  by_cases h : p.lastIndex sysid compid = -1 <;> simp [countPacket, h]

theorem countPacket_lost (sysid compid seq : Nat) (p : Protocol) :
    (countPacket sysid compid seq p).totalLossCounter
        = p.totalLossCounter + registeredLoss (p.lastIndex sysid compid) seq ∧
    (countPacket sysid compid seq p).currLossCounter
        = p.currLossCounter + registeredLoss (p.lastIndex sysid compid) seq := by
  unfold countPacket registeredLoss
  by_cases h : p.lastIndex sysid compid = -1
  · simp [h]
  · simp only [h, if_false]
    exact gapLoop_counters seq 255 _

theorem countPacket_lastIndex_other (sysid compid seq i j : Nat) (p : Protocol)
    (h : ¬ (i = sysid ∧ j = compid)) :
    (countPacket sysid compid seq p).lastIndex i j = p.lastIndex i j := by
  by_cases hl : p.lastIndex sysid compid = -1 <;> simp [countPacket, hl, setIndex, h]

theorem reportLoss_frame (lastLoss sysid : Nat) (p : Protocol) :
    (reportLoss lastLoss sysid p).1.lastIndex = p.lastIndex ∧
    (reportLoss lastLoss sysid p).1.totalReceiveCounter = p.totalReceiveCounter ∧
    (reportLoss lastLoss sysid p).1.totalLossCounter = p.totalLossCounter := by
  unfold reportLoss
  split <;> exact ⟨rfl, rfl, rfl⟩

set_option maxRecDepth 200000 in
/-- Against C3 as stated: after sixty-three packets of pair (1, 1) the pair
(1, 2) is still unseen and system 1 has a UAS, yet the first packet of
(1, 2) is the 64th packet overall and emits one `receiveLossChanged`. -/
theorem first_packet_report_counterexample :
    (run sampleEnv sixtyThree freshWorld).1.protocol.lastIndex 1 2 = -1 ∧
    getUASForId (run sampleEnv sixtyThree freshWorld).1.uas 1 = true ∧
    ((handleMessage sampleEnv linkA (heartbeat 1 2 0 2) sampleExt
        (run sampleEnv sixtyThree freshWorld).1).2.filter Event.isLossReport).length = 1 := by
  decide

/-- C3 (amended): the first dispatched packet of a pair that has no sequence
number recorded stores its sequence as the baseline, is counted as received
and registers no loss; a loss ratio is reported while processing it exactly
when the total-received counter, which all pairs share, thereby reaches a
multiple of 64, and the ratio is then taken from the current window. -/
theorem first_packet_baseline (p : Protocol) (sysid compid seq : Nat)
    (h : p.lastIndex sysid compid = -1) :
    (updateLoss sysid compid seq p).1.lastIndex sysid compid = (seq : Int) ∧
    (updateLoss sysid compid seq p).1.totalReceiveCounter = p.totalReceiveCounter + 1 ∧
    (updateLoss sysid compid seq p).1.totalLossCounter = p.totalLossCounter ∧
    (updateLoss sysid compid seq p).2 =
      (if (p.totalReceiveCounter + 1) % 64 = 0 then
        [Event.receiveLossChanged sysid
          ((p.currLossCounter : ℚ) /
            (((p.currReceiveCounter + 1 : Nat) : ℚ) + (p.currLossCounter : ℚ)) * 100)]
      else []) ∧
    (updateLoss sysid compid seq p).1.currReceiveCounter =
      (if (p.totalReceiveCounter + 1) % 64 = 0 then 0 else p.currReceiveCounter + 1) := by
  have hc := countPacket_unseen p sysid compid seq h
  unfold updateLoss reportLoss
  rw [hc]
  by_cases h64 : (p.totalReceiveCounter + 1) % 64 = 0
  · simp [h64, setIndex, receiveLoss]
  · simp [h64, setIndex]

theorem first_packet_baseline_witness :
    fresh.lastIndex 1 2 = -1 ∧
    (updateLoss 1 2 7 fresh).1.lastIndex 1 2 = ((7 : Nat) : Int) ∧
    (updateLoss 1 2 7 fresh).2 = [] :=
  ⟨by decide, (first_packet_baseline fresh 1 2 7 (by decide)).1,
   (first_packet_baseline fresh 1 2 7 (by decide)).2.2.2.1⟩

set_option maxRecDepth 200000 in
/-- Against C4 as stated: after sixty-three packets of pair (1, 1), the first
packet of pair (1, 2) is reported although it registers no loss and is the
first packet of its pair; the following packet of (1, 1) is the 64th of its
pair and is not reported. -/
theorem pair_counter_counterexample :
    ((updateLoss 1 2 0 (track (consecutive 1 1 63) fresh).1).2 ≠ [] ∧
      (updateLoss 1 2 0 (track (consecutive 1 1 63) fresh).1).1.totalLossCounter
        = (track (consecutive 1 1 63) fresh).1.totalLossCounter ∧
      pairReceived 1 2 (consecutive 1 1 63 ++ [(1, 2, 0)]) % 64 ≠ 0) ∧
    ((updateLoss 1 1 63 (track (consecutive 1 1 63 ++ [(1, 2, 0)]) fresh).1).2 = [] ∧
      pairReceived 1 1 (consecutive 1 1 63 ++ [(1, 2, 0)] ++ [(1, 1, 63)]) % 64 = 0) := by
  decide

/-- C4 (amended): for every dispatched packet the loss update reports a ratio
if and only if (a) at least one loss was registered in this update, or (b)
the total-received counter of the protocol object, which counts the packets
of all pairs together, has just reached a multiple of 64; a report is a
single `receiveLossChanged` carrying the packet's system id. -/
theorem report_iff_loss_or_64th (p : Protocol) (sysid compid seq : Nat) :
    ((updateLoss sysid compid seq p).2 ≠ [] ↔
      ((updateLoss sysid compid seq p).1.totalLossCounter ≠ p.totalLossCounter ∨
        (p.totalReceiveCounter + 1) % 64 = 0)) ∧
    ((updateLoss sysid compid seq p).2 = [] ∨
      ∃ ratio, (updateLoss sysid compid seq p).2 = [Event.receiveLossChanged sysid ratio]) := by
  have hr := (countPacket_received sysid compid seq p).1
  have hf := (reportLoss_frame p.totalLossCounter sysid (countPacket sysid compid seq p)).2.2
  have hf' : (updateLoss sysid compid seq p).1.totalLossCounter
      = (countPacket sysid compid seq p).totalLossCounter := hf
  rw [hf']
  unfold updateLoss reportLoss
  rw [hr]
  by_cases hc : p.totalLossCounter ≠ (countPacket sysid compid seq p).totalLossCounter ∨
      (p.totalReceiveCounter + 1) % 64 = 0
  · rw [if_pos hc]
    refine ⟨⟨fun _ => ?_, fun _ => by simp⟩, Or.inr ⟨_, rfl⟩⟩
    rcases hc with h | h
    · exact Or.inl (fun e => h e.symm)
    · exact Or.inr h
  · rw [if_neg hc]
    refine ⟨⟨fun h => absurd rfl h, fun h => ?_⟩, Or.inl rfl⟩
    exfalso
    apply hc
    rcases h with h | h
    · exact Or.inl (fun e => h e.symm)
    · exact Or.inr h

/-! ### The reported ratio -/

/-- C5: whenever the loss update reports a ratio, the value is
`windowLost / (windowLost + windowReceived) * 100` over the rationals, taken
from the windowed counters as they stand once this packet has been counted
(the received window grown by one, the lost window grown by the losses this
update registered); the denominator is not zero, the report carries the
packet's system id, and after the report both windowed counters are zero. -/
theorem reported_ratio (p : Protocol) (sysid compid seq id : Nat) (ratio : ℚ)
    (h : Event.receiveLossChanged id ratio ∈ (updateLoss sysid compid seq p).2) :
    id = sysid ∧
    ratio = ((countPacket sysid compid seq p).currLossCounter : ℚ) /
        (((countPacket sysid compid seq p).currLossCounter : ℚ)
          + ((countPacket sysid compid seq p).currReceiveCounter : ℚ)) * 100 ∧
    (countPacket sysid compid seq p).currReceiveCounter = p.currReceiveCounter + 1 ∧
    (countPacket sysid compid seq p).currLossCounter
      = p.currLossCounter
        + ((updateLoss sysid compid seq p).1.totalLossCounter - p.totalLossCounter) ∧
    (((countPacket sysid compid seq p).currLossCounter : ℚ)
        + ((countPacket sysid compid seq p).currReceiveCounter : ℚ)) ≠ 0 ∧
    (updateLoss sysid compid seq p).1.currLossCounter = 0 ∧
    (updateLoss sysid compid seq p).1.currReceiveCounter = 0 := by
  have hrecv := (countPacket_received sysid compid seq p).2
  have hlost := countPacket_lost sysid compid seq p
  have hf : (updateLoss sysid compid seq p).1.totalLossCounter
      = (countPacket sysid compid seq p).totalLossCounter :=
    (reportLoss_frame p.totalLossCounter sysid (countPacket sysid compid seq p)).2.2
  have hden : (((countPacket sysid compid seq p).currLossCounter : ℚ)
        + ((countPacket sysid compid seq p).currReceiveCounter : ℚ)) ≠ 0 := by
    rw [hrecv]
    have : (0 : ℚ) ≤ ((countPacket sysid compid seq p).currLossCounter : ℚ) := Nat.cast_nonneg _
    have h1 : (0 : ℚ) ≤ (p.currReceiveCounter : ℚ) := Nat.cast_nonneg _
    push_cast
    linarith
  have hwin : (countPacket sysid compid seq p).currLossCounter
      = p.currLossCounter
        + ((updateLoss sysid compid seq p).1.totalLossCounter - p.totalLossCounter) := by
    rw [hf, hlost.1, hlost.2]; omega
  have hc : (p.totalLossCounter ≠ (countPacket sysid compid seq p).totalLossCounter ∨
        (countPacket sysid compid seq p).totalReceiveCounter % 64 = 0) ∧
      id = sysid ∧ ratio = receiveLoss (countPacket sysid compid seq p) := by
    unfold updateLoss reportLoss at h
    by_cases hc : p.totalLossCounter ≠ (countPacket sysid compid seq p).totalLossCounter ∨
        (countPacket sysid compid seq p).totalReceiveCounter % 64 = 0
    · rw [if_pos hc] at h
      simp only [List.mem_singleton, Event.receiveLossChanged.injEq] at h
      exact ⟨hc, h.1, h.2⟩
    · rw [if_neg hc] at h
      simp at h
  have hst : (updateLoss sysid compid seq p).1 =
      { countPacket sysid compid seq p with currLossCounter := 0, currReceiveCounter := 0 } := by
    unfold updateLoss reportLoss
    rw [if_pos hc.1]
  refine ⟨hc.2.1, ?_, hrecv, hwin, hden, ?_, ?_⟩
  · rw [hc.2.2, receiveLoss, add_comm]
  · rw [hst]
  · rw [hst]

theorem reported_ratio_witness :
    Event.receiveLossChanged 1 50
        ∈ (updateLoss 1 1 4 (track [(1, 1, 0), (1, 1, 2)] fresh).1).2 ∧
    (50 : ℚ) =
      ((countPacket 1 1 4 (track [(1, 1, 0), (1, 1, 2)] fresh).1).currLossCounter : ℚ) /
        (((countPacket 1 1 4 (track [(1, 1, 0), (1, 1, 2)] fresh).1).currLossCounter : ℚ)
          + ((countPacket 1 1 4
              (track [(1, 1, 0), (1, 1, 2)] fresh).1).currReceiveCounter : ℚ)) * 100 ∧
    (updateLoss 1 1 4 (track [(1, 1, 0), (1, 1, 2)] fresh).1).1.currLossCounter = 0 :=
  have hmem : Event.receiveLossChanged 1 50
      ∈ (updateLoss 1 1 4 (track [(1, 1, 0), (1, 1, 2)] fresh).1).2 := by
    simp [track, updateLoss, reportLoss, countPacket, fresh, construct, setIndex, gapLoop,
      GapLoop.continues, GapLoop.body, advanceIndex, receiveLoss]
    norm_num
  ⟨hmem, (reported_ratio _ 1 1 4 1 50 hmem).2.1, (reported_ratio _ 1 1 4 1 50 hmem).2.2.2.2.2.1⟩

/-! ### Pairs and the shared counters -/

set_option maxRecDepth 200000 in
/-- Against C6 as stated: a packet of pair (1, 1) with a gap changes the
cumulative lost and received counters, the only ones there are for pair
(1, 2) as well; and the ratio reported for the same two packets of (1, 2)
is 100/3 without, and 50 with, traffic of (1, 1) in between. -/
theorem shared_counters_counterexample :
    ((1 : Nat) ≠ 2 ∧
      (updateLoss 1 1 5 (updateLoss 1 1 0 fresh).1).1.totalLossCounter
        ≠ (updateLoss 1 1 0 fresh).1.totalLossCounter ∧
      (updateLoss 1 1 5 (updateLoss 1 1 0 fresh).1).1.totalReceiveCounter
        ≠ (updateLoss 1 1 0 fresh).1.totalReceiveCounter) ∧
    ((track [(1, 2, 0), (1, 2, 2)] fresh).2
        = [Event.receiveLossChanged 1 (100 / 3)] ∧
      (track [(1, 2, 0), (1, 1, 0), (1, 1, 5), (1, 2, 2)] fresh).2
        = [Event.receiveLossChanged 1 (400 / 7), Event.receiveLossChanged 1 50]) := by
  refine ⟨by decide, ?_, ?_⟩
  · simp [track, updateLoss, reportLoss, countPacket, fresh, construct, setIndex, gapLoop,
      GapLoop.continues, GapLoop.body, advanceIndex, receiveLoss]
    norm_num
  · simp [track, updateLoss, reportLoss, countPacket, fresh, construct, setIndex, gapLoop,
      GapLoop.continues, GapLoop.body, advanceIndex, receiveLoss]
    norm_num

/-- C6 (amended): the last-seen sequence numbers are kept per pair.
Processing any packet of (sysid, compid), with or without a gap, leaves the
last-seen sequence of every other pair unchanged, so the number of losses
that a later packet of another pair registers is the same as if the first
packet had not been processed.  (The four received/lost counters are shared
by all pairs and are not covered by this statement.) -/
theorem other_pair_untouched (p : Protocol) (sysid compid seq sysid2 compid2 seq2 : Nat)
    (h : ¬ (sysid2 = sysid ∧ compid2 = compid)) :
    (updateLoss sysid compid seq p).1.lastIndex sysid2 compid2 = p.lastIndex sysid2 compid2 ∧
    (countPacket sysid2 compid2 seq2 (updateLoss sysid compid seq p).1).totalLossCounter
        - (updateLoss sysid compid seq p).1.totalLossCounter
      = (countPacket sysid2 compid2 seq2 p).totalLossCounter - p.totalLossCounter := by
  have hi : (updateLoss sysid compid seq p).1.lastIndex sysid2 compid2
      = p.lastIndex sysid2 compid2 := by
    have hf := (reportLoss_frame p.totalLossCounter sysid (countPacket sysid compid seq p)).1
    have : (updateLoss sysid compid seq p).1.lastIndex
        = (countPacket sysid compid seq p).lastIndex := hf
    rw [this]
    exact countPacket_lastIndex_other sysid compid seq sysid2 compid2 p h
  refine ⟨hi, ?_⟩
  rw [(countPacket_lost sysid2 compid2 seq2 _).1, (countPacket_lost sysid2 compid2 seq2 p).1, hi]
  omega

theorem other_pair_untouched_witness :
    ¬ ((1 : Nat) = 1 ∧ (2 : Nat) = 1) ∧
    (updateLoss 1 1 5 (track [(1, 1, 0), (1, 2, 0)] fresh).1).1.lastIndex 1 2
      = (track [(1, 1, 0), (1, 2, 0)] fresh).1.lastIndex 1 2 :=
  ⟨by decide,
   (other_pair_untouched (track [(1, 1, 0), (1, 2, 0)] fresh).1 1 1 5 1 2 1 (by decide)).1⟩

/-! ### Frame lemmas for the logging code and the loss update -/

theorem enableLogging_eq (enabled openOk : Bool) (p : Protocol) :
    (enableLogging enabled openOk p).1 =
      { p with m_loggingEnabled := enabled
               m_logfile := (enableLogging enabled openOk p).1.m_logfile } := by
  unfold enableLogging
  cases enabled <;> cases openOk <;> cases h : p.m_logfile <;> simp [h]

theorem enableLogging_events (enabled openOk : Bool) (p : Protocol) :
    (enableLogging enabled openOk p).2.all Event.isLogging = true := by
  unfold enableLogging
  cases enabled <;> cases openOk <;> cases h : p.m_logfile <;>
    cases p.m_loggingEnabled <;> simp [h, Event.isLogging]

theorem logPacket_eq (env : Env) (message : Message) (x : Ext) (p : Protocol) :
    (logPacket env message x p).1 =
      { p with m_loggingEnabled := (logPacket env message x p).1.m_loggingEnabled
               m_logfile := (logPacket env message x p).1.m_logfile } := by
  unfold logPacket
  cases h : p.m_logfile with
  | none => rfl
  | some f =>
    simp only
    split
    · split
      · exact enableLogging_eq false false p
      · rfl
    · rfl

theorem logPacket_events (env : Env) (message : Message) (x : Ext) (p : Protocol) :
    (logPacket env message x p).2.all Event.isLogging = true := by
  unfold logPacket
  cases h : p.m_logfile with
  | none => rfl
  | some f =>
    simp only
    split
    · split
      · have := enableLogging_events false false p
        simp only [List.all_append, List.all_cons, List.all_nil, Event.isLogging, this,
          Bool.and_self]
      · rfl
    · rfl

theorem updateLoss_eq (sysid compid seq : Nat) (p : Protocol) :
    (updateLoss sysid compid seq p).1 =
      { p with totalReceiveCounter := (updateLoss sysid compid seq p).1.totalReceiveCounter
               totalLossCounter := (updateLoss sysid compid seq p).1.totalLossCounter
               currReceiveCounter := (updateLoss sysid compid seq p).1.currReceiveCounter
               currLossCounter := (updateLoss sysid compid seq p).1.currLossCounter
               lastIndex := (updateLoss sysid compid seq p).1.lastIndex } := by
  unfold updateLoss reportLoss
  by_cases h : p.lastIndex sysid compid = -1 <;> simp only [countPacket, h, if_true, if_false] <;>
    split <;> rfl

theorem updateLoss_events (sysid compid seq : Nat) (p : Protocol) :
    (updateLoss sysid compid seq p).2.all Event.isLossReport = true := by
  unfold updateLoss reportLoss
  split <;> rfl

theorem sendMessage_events (env : Env) (p : Protocol) (link : Link) (message : Message) :
    (sendMessage env p link message).all Event.isWriteBytes = true := by
  unfold sendMessage
  cases link.connected <;> simp [Event.isWriteBytes]

theorem multiplex_events (env : Env) (p : Protocol) (link : Link) (message : Message) :
    ∀ links : List Link, (multiplex env p link message links).all Event.isWriteBytes = true := by
  intro links
  induction links with
  | nil => rfl
  | cons l rest ih =>
    simp only [multiplex, List.all_append, ih, Bool.and_true]
    split
    · exact sendMessage_events env p l message
    · rfl

/-- The events of `dispatch`: loss reports, one `messageReceived`, link writes. -/
theorem dispatch_events (env : Env) (link : Link) (message : Message) (w : World) :
    ∃ relay : List Event, relay.all Event.isWriteBytes = true ∧
      (dispatch env link message w).2 =
        (updateLoss message.sysid message.compid message.seq w.protocol).2
          ++ [Event.messageReceived link message] ++ relay := by
  unfold dispatch
  by_cases h : (updateLoss message.sysid message.compid message.seq
      w.protocol).1.m_multiplexingEnabled = true
  · exact ⟨multiplex env (updateLoss message.sysid message.compid message.seq w.protocol).1
      link message w.links, multiplex_events env _ link message w.links, by simp [h]⟩
  · exact ⟨[], rfl, by simp [h]⟩

theorem dispatch_world (env : Env) (link : Link) (message : Message) (w : World) :
    (dispatch env link message w).1 =
      { w with protocol := (updateLoss message.sysid message.compid message.seq w.protocol).1 } := by
  rfl

/-! ### The four ways through the device gate -/

theorem Protocol.versionMismatchIgnore_set (q : Protocol)
    (h : q.versionMismatchIgnore = true) : { q with versionMismatchIgnore := true } = q := by
  cases q
  simp only at h
  subst h
  rfl

/-- Lines 211–214 and 259: no UAS and not a heartbeat; nothing but logging. -/
theorem handleMessage_unknown (env : Env) (link : Link) (message : Message) (x : Ext)
    (w : World) (hu : getUASForId w.uas message.sysid = false)
    (hk : message.msgid ≠ env.MAVLINK_MSG_ID_HEARTBEAT) :
    handleMessage env link message x w =
      ({ w with protocol := (logPacket env message x w.protocol).1 },
       (logPacket env message x w.protocol).2) := by
  simp [handleMessage, hu, hk]

/-- Lines 259–339: the UAS exists. -/
theorem handleMessage_known (env : Env) (link : Link) (message : Message) (x : Ext)
    (w : World) (hu : getUASForId w.uas message.sysid = true) :
    handleMessage env link message x w =
      ((dispatch env link message
          { w with protocol := (logPacket env message x w.protocol).1 }).1,
       (logPacket env message x w.protocol).2 ++
         (dispatch env link message
          { w with protocol := (logPacket env message x w.protocol).1 }).2) := by
  simp [handleMessage, hu]

/-- Lines 240–252: the mismatched heartbeat of a system without a UAS. -/
theorem handleMessage_mismatch (env : Env) (link : Link) (message : Message) (x : Ext)
    (w : World) (hu : getUASForId w.uas message.sysid = false)
    (hk : message.msgid = env.MAVLINK_MSG_ID_HEARTBEAT)
    (hc : w.protocol.m_enable_version_check = true)
    (hv : env.mavlink_msg_heartbeat_decode message ≠ env.MAVLINK_VERSION) :
    handleMessage env link message x w =
      ({ w with protocol :=
          { (logPacket env message x w.protocol).1 with versionMismatchIgnore := true } },
       (logPacket env message x w.protocol).2
         ++ conflictNotice message (logPacket env message x w.protocol).1
         ++ (if w.protocol.versionMismatchIgnore = false then
              [Event.protocolStatusMessage (Notice.versionMismatch message.sysid
                (env.mavlink_msg_heartbeat_decode message) env.MAVLINK_VERSION)]
            else [])) := by
  have hc' : (logPacket env message x w.protocol).1.m_enable_version_check = true := by
    rw [logPacket_eq]; exact hc
  have hf : (logPacket env message x w.protocol).1.versionMismatchIgnore
      = w.protocol.versionMismatchIgnore := by
    rw [logPacket_eq]
  cases hi : w.protocol.versionMismatchIgnore
  · simp [handleMessage, hu, hk, hc', hv, hf, hi, conflictNotice]
  · rw [hi] at hf
    rw [Protocol.versionMismatchIgnore_set _ hf]
    simp [handleMessage, hu, hk, hc', hv, hf, conflictNotice]

/-- Lines 254–256: the heartbeat of a system without a UAS passes the version
check (or the check is off) and the factory is asked for a UAS. -/
theorem handleMessage_create (env : Env) (link : Link) (message : Message) (x : Ext)
    (w : World) (hu : getUASForId w.uas message.sysid = false)
    (hk : message.msgid = env.MAVLINK_MSG_ID_HEARTBEAT)
    (hok : ¬ (w.protocol.m_enable_version_check = true ∧
      env.mavlink_msg_heartbeat_decode message ≠ env.MAVLINK_VERSION)) :
    handleMessage env link message x w =
      if x.created = true then
        ((dispatch env link message
            { w with protocol := (logPacket env message x w.protocol).1
                     uas := message.sysid :: w.uas }).1,
         (logPacket env message x w.protocol).2
           ++ conflictNotice message (logPacket env message x w.protocol).1
           ++ [Event.createUAS link message.sysid
                (env.mavlink_msg_heartbeat_decode message) true]
           ++ (dispatch env link message
            { w with protocol := (logPacket env message x w.protocol).1
                     uas := message.sysid :: w.uas }).2)
      else
        ({ w with protocol := (logPacket env message x w.protocol).1 },
         (logPacket env message x w.protocol).2
           ++ conflictNotice message (logPacket env message x w.protocol).1
           ++ [Event.createUAS link message.sysid
                (env.mavlink_msg_heartbeat_decode message) false]) := by
  have hc' : (logPacket env message x w.protocol).1.m_enable_version_check
      = w.protocol.m_enable_version_check := by
    rw [logPacket_eq]
  have hok' : ¬ ((logPacket env message x w.protocol).1.m_enable_version_check = true ∧
      env.mavlink_msg_heartbeat_decode message ≠ env.MAVLINK_VERSION) := by
    rw [hc']; exact hok
  cases hcr : x.created
  · simp [handleMessage, hu, hk, hok', hcr, createUAS]
  · simp [handleMessage, hu, hk, hok', hcr, createUAS]

/-! ### Events that leave devices, counters and links alone -/

theorem all_of_all {f g : Event → Bool} (h : ∀ e, f e = true → g e = true) :
    ∀ l : List Event, l.all f = true → l.all g = true := by
  intro l hl
  rw [List.all_eq_true] at hl ⊢
  exact fun e he => h e (hl e he)

theorem quiet_of_logging (e : Event) (h : e.isLogging = true) : e.isQuiet = true := by
  cases e <;> simp_all [Event.isLogging, Event.isQuiet, Event.isCreateUAS,
    Event.isMessageReceived, Event.isWriteBytes, Event.isLossReport]

theorem conflictNotice_quiet (message : Message) (p : Protocol) :
    (conflictNotice message p).all Event.isQuiet = true := by
  unfold conflictNotice
  split <;> rfl

theorem quiet_spec (e : Event) (h : e.isQuiet = true) :
    e.isCreateUAS = false ∧ e.isMessageReceived = false ∧ e.isWriteBytes = false ∧
      e.isLossReport = false := by
  cases e <;> simp_all [Event.isQuiet, Event.isCreateUAS,
    Event.isMessageReceived, Event.isWriteBytes, Event.isLossReport]

/-- C7: with version checking enabled, an identification packet from a
source that has no Device and whose advertised protocol version differs
from the expected one requests no Device creation, emits no 'packet
received' notification and no loss report, relays nothing, and leaves the
device registry, the four receive/loss counters and the last-seen sequence
table unchanged. -/
theorem mismatched_heartbeat_dropped (env : Env) (link : Link) (message : Message) (x : Ext)
    (w : World) (hu : getUASForId w.uas message.sysid = false)
    (hk : message.msgid = env.MAVLINK_MSG_ID_HEARTBEAT)
    (hc : w.protocol.m_enable_version_check = true)
    (hv : env.mavlink_msg_heartbeat_decode message ≠ env.MAVLINK_VERSION) :
    (∀ e ∈ (handleMessage env link message x w).2,
      e.isCreateUAS = false ∧ e.isMessageReceived = false ∧ e.isWriteBytes = false ∧
        e.isLossReport = false) ∧
    (handleMessage env link message x w).1.uas = w.uas ∧
    (handleMessage env link message x w).1.protocol.totalReceiveCounter
      = w.protocol.totalReceiveCounter ∧
    (handleMessage env link message x w).1.protocol.totalLossCounter
      = w.protocol.totalLossCounter ∧
    (handleMessage env link message x w).1.protocol.currReceiveCounter
      = w.protocol.currReceiveCounter ∧
    (handleMessage env link message x w).1.protocol.currLossCounter
      = w.protocol.currLossCounter ∧
    (handleMessage env link message x w).1.protocol.lastIndex = w.protocol.lastIndex := by
  rw [handleMessage_mismatch env link message x w hu hk hc hv]
  refine ⟨?_, rfl, ?_, ?_, ?_, ?_, ?_⟩
  · have hq : ((logPacket env message x w.protocol).2
         ++ conflictNotice message (logPacket env message x w.protocol).1
         ++ (if w.protocol.versionMismatchIgnore = false then
              [Event.protocolStatusMessage (Notice.versionMismatch message.sysid
                (env.mavlink_msg_heartbeat_decode message) env.MAVLINK_VERSION)]
            else [])).all Event.isQuiet = true := by
      simp only [List.all_append, Bool.and_eq_true]
      refine ⟨⟨all_of_all quiet_of_logging _ (logPacket_events env message x w.protocol),
        conflictNotice_quiet _ _⟩, ?_⟩
      split <;> rfl
    intro e he
    exact quiet_spec e (List.all_eq_true.mp hq e he)
  all_goals
    simp only
    rw [logPacket_eq]

theorem mismatched_heartbeat_dropped_witness :
    (getUASForId freshWorld.uas (heartbeat 7 1 0 3).sysid = false ∧
      (heartbeat 7 1 0 3).msgid = sampleEnv.MAVLINK_MSG_ID_HEARTBEAT ∧
      freshWorld.protocol.m_enable_version_check = true ∧
      sampleEnv.mavlink_msg_heartbeat_decode (heartbeat 7 1 0 3) ≠ sampleEnv.MAVLINK_VERSION) ∧
    (handleMessage sampleEnv linkA (heartbeat 7 1 0 3) sampleExt freshWorld).1.uas
      = freshWorld.uas ∧
    (handleMessage sampleEnv linkA (heartbeat 7 1 0 3) sampleExt
      freshWorld).1.protocol.totalReceiveCounter = freshWorld.protocol.totalReceiveCounter :=
  ⟨⟨by decide, by decide, by decide, by decide⟩,
   (mismatched_heartbeat_dropped sampleEnv linkA (heartbeat 7 1 0 3) sampleExt freshWorld
      (by decide) (by decide) (by decide) (by decide)).2.1,
   (mismatched_heartbeat_dropped sampleEnv linkA (heartbeat 7 1 0 3) sampleExt freshWorld
      (by decide) (by decide) (by decide) (by decide)).2.2.1⟩


/-- C10: a decoded packet whose source has no Device and whose message kind
is not identification is dropped from device and loss accounting: no Device
creation is requested, no 'loss ratio changed' and no 'packet received'
notification is emitted, nothing is relayed, and the device registry, the
four receive/loss counters and the last-seen sequence table are unchanged. -/
theorem unknown_source_dropped (env : Env) (link : Link) (message : Message) (x : Ext)
    (w : World) (hu : getUASForId w.uas message.sysid = false)
    (hk : message.msgid ≠ env.MAVLINK_MSG_ID_HEARTBEAT) :
    (∀ e ∈ (handleMessage env link message x w).2,
      e.isCreateUAS = false ∧ e.isMessageReceived = false ∧ e.isWriteBytes = false ∧
        e.isLossReport = false) ∧
    (handleMessage env link message x w).1.uas = w.uas ∧
    (handleMessage env link message x w).1.protocol.totalReceiveCounter
      = w.protocol.totalReceiveCounter ∧
    (handleMessage env link message x w).1.protocol.totalLossCounter
      = w.protocol.totalLossCounter ∧
    (handleMessage env link message x w).1.protocol.currReceiveCounter
      = w.protocol.currReceiveCounter ∧
    (handleMessage env link message x w).1.protocol.currLossCounter
      = w.protocol.currLossCounter ∧
    (handleMessage env link message x w).1.protocol.lastIndex = w.protocol.lastIndex := by
  rw [handleMessage_unknown env link message x w hu hk]
  refine ⟨?_, rfl, ?_, ?_, ?_, ?_, ?_⟩
  · intro e he
    have hq := all_of_all quiet_of_logging _ (logPacket_events env message x w.protocol)
    exact quiet_spec e (List.all_eq_true.mp hq e he)
  all_goals
    simp only
    rw [logPacket_eq]

theorem unknown_source_dropped_witness :
    (getUASForId freshWorld.uas (statusText 9 1 4).sysid = false ∧
      (statusText 9 1 4).msgid ≠ sampleEnv.MAVLINK_MSG_ID_HEARTBEAT) ∧
    (handleMessage sampleEnv linkA (statusText 9 1 4) sampleExt freshWorld).2 = [] ∧
    (handleMessage sampleEnv linkA (statusText 9 1 4) sampleExt
      freshWorld).1.protocol.lastIndex = freshWorld.protocol.lastIndex :=
  ⟨⟨by decide, by decide⟩, by decide,
   (unknown_source_dropped sampleEnv linkA (statusText 9 1 4) sampleExt freshWorld
      (by decide) (by decide)).2.2.2.2.2.2⟩

/-! ### The mismatch notice over a session -/

theorem mismatchNotices_append (xs ys : List Event) :
    mismatchNotices (xs ++ ys) = mismatchNotices xs + mismatchNotices ys := by
  simp [mismatchNotices]

theorem mismatchNotices_of_all {f : Event → Bool}
    (h : ∀ e, f e = true → e.isVersionMismatch = false) :
    ∀ l : List Event, l.all f = true → mismatchNotices l = 0 := by
  intro l hl
  rw [List.all_eq_true] at hl
  simp only [mismatchNotices, List.length_eq_zero, List.filter_eq_nil_iff]
  intro e he
  rw [h e (hl e he)]
  simp

theorem notMismatch_of_logging (e : Event) (h : e.isLogging = true) :
    e.isVersionMismatch = false := by
  cases e with
  | protocolStatusMessage n => cases n <;> simp_all [Event.isLogging, Event.isVersionMismatch]
  | _ => simp_all [Event.isLogging, Event.isVersionMismatch]

theorem notMismatch_of_lossReport (e : Event) (h : e.isLossReport = true) :
    e.isVersionMismatch = false := by
  cases e <;> simp_all [Event.isLossReport, Event.isVersionMismatch]

theorem notMismatch_of_writeBytes (e : Event) (h : e.isWriteBytes = true) :
    e.isVersionMismatch = false := by
  cases e <;> simp_all [Event.isWriteBytes, Event.isVersionMismatch]

theorem mismatchNotices_logPacket (env : Env) (message : Message) (x : Ext) (p : Protocol) :
    mismatchNotices (logPacket env message x p).2 = 0 :=
  mismatchNotices_of_all notMismatch_of_logging _ (logPacket_events env message x p)

theorem mismatchNotices_enableLogging (enabled openOk : Bool) (p : Protocol) :
    mismatchNotices (enableLogging enabled openOk p).2 = 0 :=
  mismatchNotices_of_all notMismatch_of_logging _ (enableLogging_events enabled openOk p)

theorem mismatchNotices_conflict (message : Message) (p : Protocol) :
    mismatchNotices (conflictNotice message p) = 0 := by
  unfold conflictNotice
  split <;> rfl

theorem mismatchNotices_dispatch (env : Env) (link : Link) (message : Message) (w : World) :
    mismatchNotices (dispatch env link message w).2 = 0 := by
  obtain ⟨relay, hr, he⟩ := dispatch_events env link message w
  rw [he, mismatchNotices_append, mismatchNotices_append,
    mismatchNotices_of_all notMismatch_of_lossReport _ (updateLoss_events _ _ _ _),
    mismatchNotices_of_all notMismatch_of_writeBytes _ hr]
  rfl

theorem dispatch_flag (env : Env) (link : Link) (message : Message) (w : World) :
    (dispatch env link message w).1.protocol.versionMismatchIgnore
      = w.protocol.versionMismatchIgnore := by
  rw [dispatch_world]
  simp only
  rw [updateLoss_eq]

theorem logPacket_flag (env : Env) (message : Message) (x : Ext) (p : Protocol) :
    (logPacket env message x p).1.versionMismatchIgnore = p.versionMismatchIgnore := by
  rw [logPacket_eq]

theorem setLogfileName_flag (filename : String) (openOk : Bool) (p : Protocol) :
    (setLogfileName filename openOk p).1.versionMismatchIgnore = p.versionMismatchIgnore := by
  unfold setLogfileName
  simp only
  rw [enableLogging_eq]

theorem mismatchNotices_setLogfileName (filename : String) (openOk : Bool) (p : Protocol) :
    mismatchNotices (setLogfileName filename openOk p).2 = 0 := by
  unfold setLogfileName
  simp only
  rw [mismatchNotices_append, mismatchNotices_enableLogging]
  cases p.m_logfile with
  | none => rfl
  | some f => cases hf : f.isOpen <;> simp [hf, mismatchNotices, Event.isVersionMismatch]

/-- What one packet does to the suppression flag and how many mismatch
notices it emits. -/
theorem handleMessage_mismatch_count (env : Env) (link : Link) (message : Message) (x : Ext)
    (w : World) :
    (handleMessage env link message x w).1.protocol.versionMismatchIgnore
      = (w.protocol.versionMismatchIgnore
          || isMismatchDrop env w (Op.receive link message x)) ∧
    mismatchNotices (handleMessage env link message x w).2
      = if w.protocol.versionMismatchIgnore = false ∧
          isMismatchDrop env w (Op.receive link message x) = true then 1 else 0 := by
  by_cases hu : getUASForId w.uas message.sysid = true
  · have hd : isMismatchDrop env w (Op.receive link message x) = false := by
      simp [isMismatchDrop, hu]
    rw [handleMessage_known env link message x w hu, hd]
    simp only [mismatchNotices_append, mismatchNotices_logPacket, mismatchNotices_dispatch,
      dispatch_flag, logPacket_flag, Bool.or_false, Bool.false_eq_true, and_false, if_false,
      and_self]
  · have hu' : getUASForId w.uas message.sysid = false := by simpa using hu
    by_cases hk : message.msgid = env.MAVLINK_MSG_ID_HEARTBEAT
    · by_cases hm : w.protocol.m_enable_version_check = true ∧
          env.mavlink_msg_heartbeat_decode message ≠ env.MAVLINK_VERSION
      · have hd : isMismatchDrop env w (Op.receive link message x) = true := by
          simp [isMismatchDrop, hu', hk, hm.1, hm.2]
        rw [handleMessage_mismatch env link message x w hu' hk hm.1 hm.2, hd]
        simp only [mismatchNotices_append, mismatchNotices_logPacket, mismatchNotices_conflict,
          Bool.or_true, and_true, zero_add, true_and]
        cases w.protocol.versionMismatchIgnore <;> rfl
      · have hd : isMismatchDrop env w (Op.receive link message x) = false := by
          simp only [isMismatchDrop, decide_eq_false_iff_not]
          exact fun h => hm ⟨h.2.2.1, h.2.2.2⟩
        rw [handleMessage_create env link message x w hu' hk hm, hd]
        cases x.created
        · simp only [Bool.false_eq_true, if_false, mismatchNotices_append,
            mismatchNotices_logPacket, mismatchNotices_conflict, logPacket_flag, Bool.or_false,
            and_false, true_and]
          rfl
        · simp only [if_true, mismatchNotices_append, mismatchNotices_logPacket,
            mismatchNotices_conflict, mismatchNotices_dispatch, dispatch_flag, logPacket_flag,
            Bool.or_false, Bool.false_eq_true, and_false, if_false, true_and]
          rfl
    · have hd : isMismatchDrop env w (Op.receive link message x) = false := by
        simp [isMismatchDrop, hk]
      rw [handleMessage_unknown env link message x w hu' hk, hd]
      simp only [mismatchNotices_logPacket, logPacket_flag, Bool.or_false, Bool.false_eq_true,
        and_false, if_false, and_self]

theorem step_mismatch_count (env : Env) (w : World) (op : Op) :
    (step env w op).1.protocol.versionMismatchIgnore
      = (w.protocol.versionMismatchIgnore || isMismatchDrop env w op) ∧
    mismatchNotices (step env w op).2
      = if w.protocol.versionMismatchIgnore = false ∧ isMismatchDrop env w op = true
        then 1 else 0 := by
  cases op with
  | receive link message x => exact handleMessage_mismatch_count env link message x w
  | enableVersionCheck enabled =>
    simp [step, World.onProtocol, enableVersionCheck, isMismatchDrop, mismatchNotices,
      Event.isVersionMismatch]
  | enableMultiplexing enabled =>
    simp only [step, World.onProtocol, enableMultiplexing, isMismatchDrop, Bool.or_false,
      Bool.false_eq_true, and_false, if_false, true_and]
    split <;> rfl
  | enableHeartbeats enabled =>
    simp [step, World.onProtocol, enableHeartbeats, isMismatchDrop, mismatchNotices,
      Event.isVersionMismatch]
  | enableLogging enabled openOk =>
    simp only [step, World.onProtocol, isMismatchDrop, Bool.or_false, Bool.false_eq_true,
      and_false, if_false, mismatchNotices_enableLogging, and_true]
    rw [enableLogging_eq]
  | setLogfileName filename openOk =>
    simp only [step, World.onProtocol, isMismatchDrop, Bool.or_false, Bool.false_eq_true,
      and_false, if_false, mismatchNotices_setLogfileName, and_true, setLogfileName_flag]
  | setSystemId id =>
    simp [step, setSystemId, isMismatchDrop, mismatchNotices]
  | setLinks links =>
    simp [step, isMismatchDrop, mismatchNotices]

theorem once_combine (a b c : Bool) :
    (a || b || c) = (a || (b || c)) ∧
    ((if a = false ∧ b = true then 1 else 0)
        + (if (a || b) = false ∧ c = true then 1 else 0)
      = if a = false ∧ (b || c) = true then (1 : Nat) else 0) := by
  cases a <;> cases b <;> cases c <;> simp

theorem run_mismatch_count (env : Env) : ∀ (ops : List Op) (w : World),
    (run env ops w).1.protocol.versionMismatchIgnore
      = (w.protocol.versionMismatchIgnore || anyMismatchDrop env ops w) ∧
    mismatchNotices (run env ops w).2
      = if w.protocol.versionMismatchIgnore = false ∧ anyMismatchDrop env ops w = true
        then 1 else 0 := by
  intro ops
  induction ops with
  | nil => intro w; simp [run, anyMismatchDrop, mismatchNotices]
  | cons op rest ih =>
    intro w
    have hs := step_mismatch_count env w op
    have hr := ih (step env w op).1
    simp only [run, anyMismatchDrop, mismatchNotices_append]
    rw [hr.1, hr.2, hs.1, hs.2]
    exact once_combine _ _ _

/-- C8: in a session that starts with the suppression flag clear (as the
constructor leaves it) and in which some received packet is a
version-mismatched identification packet from a source without a Device
while version checking is enabled, the mismatch notice is emitted exactly
once.  It is emitted while the first such packet is processed: nothing
before it and nothing after it emits the notice, whatever packets and
setter calls follow; and once the flag is set no operation clears it. -/
theorem mismatch_notice_once (env : Env) (ops : List Op) (w : World)
    (h0 : w.protocol.versionMismatchIgnore = false)
    (hany : anyMismatchDrop env ops w = true) :
    mismatchNotices (run env ops w).2 = 1 ∧
    (run env ops w).1.protocol.versionMismatchIgnore = true ∧
    (∀ (pre post : List Op) (op : Op), ops = pre ++ op :: post →
      anyMismatchDrop env pre w = false →
      isMismatchDrop env (run env pre w).1 op = true →
        mismatchNotices (run env pre w).2 = 0 ∧
        mismatchNotices (step env (run env pre w).1 op).2 = 1 ∧
        mismatchNotices (run env post (step env (run env pre w).1 op).1).2 = 0) ∧
    (∀ (later : List Op) (v : World), v.protocol.versionMismatchIgnore = true →
      (run env later v).1.protocol.versionMismatchIgnore = true ∧
      mismatchNotices (run env later v).2 = 0) := by
  have hrun := run_mismatch_count env ops w
  refine ⟨?_, ?_, ?_, ?_⟩
  · rw [hrun.2, if_pos ⟨h0, hany⟩]
  · rw [hrun.1, hany, Bool.or_true]
  · intro pre post op _ hpre hop
    have h1 := run_mismatch_count env pre w
    have hflag : (run env pre w).1.protocol.versionMismatchIgnore = false := by
      rw [h1.1, h0, hpre]; rfl
    have h2 := step_mismatch_count env (run env pre w).1 op
    have hflag2 : (step env (run env pre w).1 op).1.protocol.versionMismatchIgnore = true := by
      rw [h2.1, hop, Bool.or_true]
    have h3 := run_mismatch_count env post (step env (run env pre w).1 op).1
    refine ⟨?_, ?_, ?_⟩
    · rw [h1.2, hpre]; simp
    · rw [h2.2, if_pos ⟨hflag, hop⟩]
    · rw [h3.2, hflag2]; simp
  · intro later v hv
    have h := run_mismatch_count env later v
    refine ⟨?_, ?_⟩
    · rw [h.1, hv, Bool.true_or]
    · rw [h.2, hv]; simp

theorem mismatch_notice_once_witness :
    (freshWorld.protocol.versionMismatchIgnore = false ∧
      anyMismatchDrop sampleEnv
        [Op.receive linkA (heartbeat 7 1 0 3) sampleExt,
         Op.receive linkA (heartbeat 8 1 0 3) sampleExt] freshWorld = true) ∧
    mismatchNotices (run sampleEnv
        [Op.receive linkA (heartbeat 7 1 0 3) sampleExt,
         Op.receive linkA (heartbeat 8 1 0 3) sampleExt] freshWorld).2 = 1 :=
  ⟨⟨by decide, by decide⟩,
   (mismatch_notice_once sampleEnv
      [Op.receive linkA (heartbeat 7 1 0 3) sampleExt,
       Op.receive linkA (heartbeat 8 1 0 3) sampleExt] freshWorld (by decide) (by decide)).1⟩


/-! ### Device creation -/

theorem noCreate_of_logging (e : Event) (h : e.isLogging = true) : e.isCreateUAS = false := by
  cases e <;> simp_all [Event.isLogging, Event.isCreateUAS]

theorem noCreate_of_lossReport (e : Event) (h : e.isLossReport = true) :
    e.isCreateUAS = false := by
  cases e <;> simp_all [Event.isLossReport, Event.isCreateUAS]

theorem noCreate_of_writeBytes (e : Event) (h : e.isWriteBytes = true) :
    e.isCreateUAS = false := by
  cases e <;> simp_all [Event.isWriteBytes, Event.isCreateUAS]

theorem filter_create_of_all {f : Event → Bool} (h : ∀ e, f e = true → e.isCreateUAS = false) :
    ∀ l : List Event, l.all f = true → l.filter Event.isCreateUAS = [] := by
  intro l hl
  rw [List.all_eq_true] at hl
  rw [List.filter_eq_nil_iff]
  intro e he
  rw [h e (hl e he)]
  simp

theorem filter_create_logPacket (env : Env) (message : Message) (x : Ext) (p : Protocol) :
    (logPacket env message x p).2.filter Event.isCreateUAS = [] :=
  filter_create_of_all noCreate_of_logging _ (logPacket_events env message x p)

theorem filter_create_conflict (message : Message) (p : Protocol) :
    (conflictNotice message p).filter Event.isCreateUAS = [] := by
  unfold conflictNotice
  split <;> rfl

theorem filter_create_dispatch (env : Env) (link : Link) (message : Message) (w : World) :
    (dispatch env link message w).2.filter Event.isCreateUAS = [] := by
  obtain ⟨relay, hr, he⟩ := dispatch_events env link message w
  rw [he, List.filter_append, List.filter_append,
    filter_create_of_all noCreate_of_lossReport _ (updateLoss_events _ _ _ _),
    filter_create_of_all noCreate_of_writeBytes _ hr]
  rfl

/-- The condition under which lines 254–255 are reached. -/
theorem handleMessage_creates (env : Env) (link : Link) (message : Message) (x : Ext)
    (w : World) :
    (handleMessage env link message x w).2.filter Event.isCreateUAS
      = (if requestsUAS env w message = true then
          [Event.createUAS link message.sysid (env.mavlink_msg_heartbeat_decode message)
            x.created]
        else []) ∧
    (handleMessage env link message x w).1.uas
      = (if requestsUAS env w message = true ∧ x.created = true then message.sysid :: w.uas
        else w.uas) := by
  by_cases hu : getUASForId w.uas message.sysid = true
  · have hd : requestsUAS env w message = false := by simp [requestsUAS, hu]
    rw [handleMessage_known env link message x w hu, hd]
    simp only [List.filter_append, filter_create_logPacket, filter_create_dispatch,
      dispatch_world, List.append_nil, Bool.false_eq_true, if_false, false_and, and_self]
  · have hu' : getUASForId w.uas message.sysid = false := by simpa using hu
    by_cases hk : message.msgid = env.MAVLINK_MSG_ID_HEARTBEAT
    · by_cases hm : w.protocol.m_enable_version_check = true ∧
          env.mavlink_msg_heartbeat_decode message ≠ env.MAVLINK_VERSION
      · have hd : requestsUAS env w message = false := by
          simp only [requestsUAS, decide_eq_false_iff_not]
          exact fun h => h.2.2 hm
        rw [handleMessage_mismatch env link message x w hu' hk hm.1 hm.2, hd]
        simp only [List.filter_append, filter_create_logPacket, filter_create_conflict,
          List.append_nil, Bool.false_eq_true, if_false, false_and, and_true, List.nil_append]
        split <;> rfl
      · have hd : requestsUAS env w message = true := by
          simp only [requestsUAS, decide_eq_true_eq]
          exact ⟨hu', hk, hm⟩
        rw [handleMessage_create env link message x w hu' hk hm, hd]
        cases x.created
        · simp [List.filter_append, filter_create_logPacket, filter_create_conflict,
            Event.isCreateUAS]
        · simp [List.filter_append, filter_create_logPacket, filter_create_conflict,
            filter_create_dispatch, dispatch_world, Event.isCreateUAS]
    · have hd : requestsUAS env w message = false := by simp [requestsUAS, hk]
      rw [handleMessage_unknown env link message x w hu' hk, hd]
      simp only [filter_create_logPacket, Bool.false_eq_true, if_false, false_and, and_self]

theorem setLogfileName_events (filename : String) (openOk : Bool) (p : Protocol) :
    (setLogfileName filename openOk p).2.all Event.isLogging = true := by
  unfold setLogfileName
  simp only [List.all_append, enableLogging_events, Bool.and_true]
  cases p.m_logfile with
  | none => rfl
  | some f => cases hf : f.isOpen <;> simp [hf, Event.isLogging]

/-- Operations other than a received packet never call the factory and
leave the device registry alone. -/
theorem step_setter_creates (env : Env) (w : World) (op : Op)
    (h : ∀ link message x, op ≠ Op.receive link message x) :
    (step env w op).2.filter Event.isCreateUAS = [] ∧ (step env w op).1.uas = w.uas := by
  cases op with
  | receive link message x => exact absurd rfl (h link message x)
  | enableVersionCheck enabled =>
    simp [step, World.onProtocol, enableVersionCheck, Event.isCreateUAS]
  | enableMultiplexing enabled =>
    simp only [step, World.onProtocol, enableMultiplexing, and_true]
    split <;> rfl
  | enableHeartbeats enabled =>
    simp [step, World.onProtocol, enableHeartbeats, Event.isCreateUAS]
  | enableLogging enabled openOk =>
    exact ⟨filter_create_of_all noCreate_of_logging _ (enableLogging_events enabled openOk _),
      rfl⟩
  | setLogfileName filename openOk =>
    exact ⟨filter_create_of_all noCreate_of_logging _ (setLogfileName_events filename openOk _),
      rfl⟩
  | setSystemId id => simp [step]
  | setLinks links => simp [step]

theorem createdCount_append (sysid : Nat) (xs ys : List Event) :
    createdCount sysid (xs ++ ys) = createdCount sysid xs + createdCount sysid ys := by
  simp [createdCount]

theorem createdCount_eq (sysid : Nat) (l : List Event) :
    createdCount sysid l = createdCount sysid (l.filter Event.isCreateUAS) := by
  unfold createdCount
  rw [List.filter_filter]
  congr 2
  funext e
  cases e <;> simp [Event.isCreated, Event.isCreateUAS]

theorem getUASForId_cons (uas : List Nat) (s sysid : Nat) :
    getUASForId (s :: uas) sysid = (decide (sysid = s) || getUASForId uas sysid) := by
  simp [getUASForId]

theorem Op.receive_or_setter (op : Op) :
    (∃ link message x, op = Op.receive link message x) ∨
      (∀ link message x, op ≠ Op.receive link message x) := by
  cases op <;> simp

theorem step_created (env : Env) (w : World) (op : Op) (sysid : Nat) :
    createdCount sysid (step env w op).2 ≤ 1 ∧
    (getUASForId w.uas sysid = true →
      createdCount sysid (step env w op).2 = 0 ∧
      getUASForId (step env w op).1.uas sysid = true) ∧
    (createdCount sysid (step env w op).2 = 1 →
      getUASForId (step env w op).1.uas sysid = true) := by
  rcases Op.receive_or_setter op with ⟨link, message, x, rfl⟩ | hne
  · have hc := handleMessage_creates env link message x w
    simp only [step]
    rw [createdCount_eq, hc.1, hc.2]
    by_cases hr : requestsUAS env w message = true
    · have hunk : getUASForId w.uas message.sysid = false := by
        simp only [requestsUAS, decide_eq_true_eq] at hr
        exact hr.1
      cases hx : x.created
      · simp [hr, createdCount, Event.isCreated]
      · by_cases hs : message.sysid = sysid
        · subst hs
          simp [hr, createdCount, Event.isCreated, hunk, getUASForId_cons]
        · have hs' : ¬ (sysid = message.sysid) := fun h => hs h.symm
          simp [hr, createdCount, Event.isCreated, hs, hs', getUASForId_cons]
    · simp [hr, createdCount]
  · have h := step_setter_creates env w op hne
    rw [createdCount_eq, h.1, h.2]
    simp [createdCount]

theorem run_created (env : Env) (sysid : Nat) : ∀ (ops : List Op) (w : World),
    createdCount sysid (run env ops w).2 ≤ 1 ∧
    (getUASForId w.uas sysid = true → createdCount sysid (run env ops w).2 = 0) := by
  intro ops
  induction ops with
  | nil => intro w; simp [run, createdCount]
  | cons op rest ih =>
    intro w
    have hs := step_created env w op sysid
    have hr := ih (step env w op).1
    simp only [run, createdCount_append]
    refine ⟨?_, ?_⟩
    · rcases Nat.lt_or_ge (createdCount sysid (step env w op).2) 1 with h0 | h1
      · have := hr.1
        omega
      · have h1' : createdCount sysid (step env w op).2 = 1 := Nat.le_antisymm hs.1 h1
        have := hr.2 (hs.2.2 h1')
        omega
    · intro hk
      have h1 := hs.2.1 hk
      have h2 := hr.2 h1.2
      omega

/-- C9: a call of the factory's `createUAS` is made only while a received
identification packet is processed whose source-id has no Device at lookup
time (and then exactly for that source-id); no other packet and no setter
call requests a creation.  Over any sequence of packets and setter calls,
from any state, at most one Device is created per source-id, and none for a
source-id that already has a Device. -/
theorem device_created_once (env : Env) :
    (∀ (w : World) (op : Op) (e : Event), e ∈ (step env w op).2 → e.isCreateUAS = true →
      ∃ link message x, op = Op.receive link message x ∧
        message.msgid = env.MAVLINK_MSG_ID_HEARTBEAT ∧
        getUASForId w.uas message.sysid = false ∧
        e = Event.createUAS link message.sysid (env.mavlink_msg_heartbeat_decode message)
          x.created) ∧
    (∀ (ops : List Op) (w : World) (sysid : Nat),
      createdCount sysid (run env ops w).2 ≤ 1 ∧
      (getUASForId w.uas sysid = true → createdCount sysid (run env ops w).2 = 0)) := by
  refine ⟨?_, fun ops w sysid => run_created env sysid ops w⟩
  intro w op e he hc
  have hmem : e ∈ (step env w op).2.filter Event.isCreateUAS :=
    List.mem_filter.mpr ⟨he, hc⟩
  rcases Op.receive_or_setter op with ⟨link, message, x, rfl⟩ | hne
  · simp only [step] at hmem
    rw [(handleMessage_creates env link message x w).1] at hmem
    by_cases hr : requestsUAS env w message = true
    · rw [if_pos hr, List.mem_singleton] at hmem
      simp only [requestsUAS, decide_eq_true_eq] at hr
      exact ⟨link, message, x, rfl, hr.2.1, hr.1, hmem⟩
    · rw [if_neg hr] at hmem
      exact absurd hmem (List.not_mem_nil _)
  · rw [(step_setter_creates env w op hne).1] at hmem
    exact absurd hmem (List.not_mem_nil _)

theorem device_created_once_witness :
    createdCount 1 (run sampleEnv
        [Op.receive linkA (heartbeat 1 1 0 2) sampleExt,
         Op.receive linkA (statusText 1 1 1) sampleExt,
         Op.receive linkA (heartbeat 1 1 2 2) sampleExt] freshWorld).2 ≤ 1 ∧
    createdCount 1 (run sampleEnv
        [Op.receive linkA (heartbeat 1 1 0 2) sampleExt,
         Op.receive linkA (statusText 1 1 1) sampleExt,
         Op.receive linkA (heartbeat 1 1 2 2) sampleExt] freshWorld).2 = 1 :=
  ⟨((device_created_once sampleEnv).2
      [Op.receive linkA (heartbeat 1 1 0 2) sampleExt,
       Op.receive linkA (statusText 1 1 1) sampleExt,
       Op.receive linkA (heartbeat 1 1 2 2) sampleExt] freshWorld 1).1, by decide⟩


/-! ### A UAS exists before its packets are announced -/

theorem devicesAfter_append : ∀ (xs ys : List Event) (uas : List Nat),
    devicesAfter uas (xs ++ ys) = devicesAfter (devicesAfter uas xs) ys := by
  intro xs
  induction xs with
  | nil => intro ys uas; rfl
  | cons e xs ih => intro ys uas; cases e <;> simp [devicesAfter, ih]

theorem receivedAfterDevice_append : ∀ (xs ys : List Event) (uas : List Nat),
    receivedAfterDevice uas (xs ++ ys)
      = (receivedAfterDevice uas xs && receivedAfterDevice (devicesAfter uas xs) ys) := by
  intro xs
  induction xs with
  | nil => intro ys uas; simp [receivedAfterDevice, devicesAfter]
  | cons e xs ih =>
    intro ys uas
    cases e <;> simp [receivedAfterDevice, devicesAfter, ih, Bool.and_assoc]

theorem plain_trace : ∀ (l : List Event) (uas : List Nat), l.all Event.isPlain = true →
    receivedAfterDevice uas l = true ∧ devicesAfter uas l = uas := by
  intro l
  induction l with
  | nil => intro uas _; exact ⟨rfl, rfl⟩
  | cons e l ih =>
    intro uas h
    simp only [List.all_cons, Bool.and_eq_true] at h
    have := ih uas h.2
    cases e <;>
      simp_all [receivedAfterDevice, devicesAfter, Event.isPlain, Event.isCreateUAS,
        Event.isMessageReceived]

theorem plain_of_logging (e : Event) (h : e.isLogging = true) : e.isPlain = true := by
  cases e <;> simp_all [Event.isLogging, Event.isPlain, Event.isCreateUAS,
    Event.isMessageReceived]

theorem plain_of_lossReport (e : Event) (h : e.isLossReport = true) : e.isPlain = true := by
  cases e <;> simp_all [Event.isLossReport, Event.isPlain, Event.isCreateUAS,
    Event.isMessageReceived]

theorem plain_of_writeBytes (e : Event) (h : e.isWriteBytes = true) : e.isPlain = true := by
  cases e <;> simp_all [Event.isWriteBytes, Event.isPlain, Event.isCreateUAS,
    Event.isMessageReceived]

theorem conflictNotice_plain (message : Message) (p : Protocol) :
    (conflictNotice message p).all Event.isPlain = true := by
  unfold conflictNotice
  split <;> rfl

theorem logPacket_plain (env : Env) (message : Message) (x : Ext) (p : Protocol) :
    (logPacket env message x p).2.all Event.isPlain = true :=
  all_of_all plain_of_logging _ (logPacket_events env message x p)

theorem dispatch_trace (env : Env) (link : Link) (message : Message) (w : World)
    (uas : List Nat) :
    receivedAfterDevice uas (dispatch env link message w).2 = getUASForId uas message.sysid ∧
    devicesAfter uas (dispatch env link message w).2 = uas := by
  obtain ⟨relay, hr, he⟩ := dispatch_events env link message w
  have h1 := plain_trace _ uas
    (all_of_all plain_of_lossReport _ (updateLoss_events message.sysid message.compid
      message.seq w.protocol))
  have h2 := plain_trace _ uas (all_of_all plain_of_writeBytes _ hr)
  rw [he]
  simp only [receivedAfterDevice_append, devicesAfter_append, h1.1, h1.2, h2.1, h2.2,
    receivedAfterDevice, devicesAfter, Bool.true_and, Bool.and_true]
  trivial

theorem handleMessage_trace (env : Env) (link : Link) (message : Message) (x : Ext)
    (w : World) :
    receivedAfterDevice w.uas (handleMessage env link message x w).2 = true ∧
    devicesAfter w.uas (handleMessage env link message x w).2
      = (handleMessage env link message x w).1.uas := by
  have hl := plain_trace _ w.uas (logPacket_plain env message x w.protocol)
  have hc := plain_trace _ w.uas
    (conflictNotice_plain message (logPacket env message x w.protocol).1)
  by_cases hu : getUASForId w.uas message.sysid = true
  · rw [handleMessage_known env link message x w hu]
    simp only [receivedAfterDevice_append, devicesAfter_append, hl.1, hl.2, dispatch_trace,
      hu, dispatch_world, Bool.and_self, and_self]
  · have hu' : getUASForId w.uas message.sysid = false := by simpa using hu
    by_cases hk : message.msgid = env.MAVLINK_MSG_ID_HEARTBEAT
    · by_cases hm : w.protocol.m_enable_version_check = true ∧
          env.mavlink_msg_heartbeat_decode message ≠ env.MAVLINK_VERSION
      · rw [handleMessage_mismatch env link message x w hu' hk hm.1 hm.2]
        simp only [receivedAfterDevice_append, devicesAfter_append, hl.1, hl.2, hc.1, hc.2,
          Bool.true_and]
        split <;> exact ⟨rfl, rfl⟩
      · rw [handleMessage_create env link message x w hu' hk hm]
        cases x.created
        · simp [receivedAfterDevice_append, devicesAfter_append, hl.1, hl.2, hc.1, hc.2,
            receivedAfterDevice, devicesAfter, createUAS]
        · simp [receivedAfterDevice_append, devicesAfter_append, hl.1, hl.2, hc.1, hc.2,
            receivedAfterDevice, devicesAfter, createUAS, dispatch_trace, dispatch_world,
            getUASForId_cons]
    · rw [handleMessage_unknown env link message x w hu' hk]
      exact ⟨hl.1, hl.2⟩

theorem step_setter_plain (env : Env) (w : World) (op : Op)
    (h : ∀ link message x, op ≠ Op.receive link message x) :
    (step env w op).2.all Event.isPlain = true := by
  cases op with
  | receive link message x => exact absurd rfl (h link message x)
  | enableVersionCheck enabled => rfl
  | enableMultiplexing enabled =>
    simp only [step, World.onProtocol, enableMultiplexing]
    split <;> rfl
  | enableHeartbeats enabled => rfl
  | enableLogging enabled openOk =>
    exact all_of_all plain_of_logging _ (enableLogging_events enabled openOk _)
  | setLogfileName filename openOk =>
    exact all_of_all plain_of_logging _ (setLogfileName_events filename openOk _)
  | setSystemId id => rfl
  | setLinks links => rfl

theorem step_trace (env : Env) (w : World) (op : Op) :
    receivedAfterDevice w.uas (step env w op).2 = true ∧
    devicesAfter w.uas (step env w op).2 = (step env w op).1.uas := by
  rcases Op.receive_or_setter op with ⟨link, message, x, rfl⟩ | hne
  · exact handleMessage_trace env link message x w
  · have h := plain_trace _ w.uas (step_setter_plain env w op hne)
    rw [(step_setter_creates env w op hne).2]
    exact h

theorem run_trace (env : Env) : ∀ (ops : List Op) (w : World),
    receivedAfterDevice w.uas (run env ops w).2 = true ∧
    devicesAfter w.uas (run env ops w).2 = (run env ops w).1.uas := by
  intro ops
  induction ops with
  | nil => intro w; exact ⟨rfl, rfl⟩
  | cons op rest ih =>
    intro w
    have hs := step_trace env w op
    have hr := ih (step env w op).1
    simp only [run, receivedAfterDevice_append, devicesAfter_append, hs.1, hs.2, hr.1, hr.2,
      Bool.and_self, and_self]

theorem filter_nil_of_all {f g : Event → Bool} (h : ∀ e, f e = true → g e = false) :
    ∀ l : List Event, l.all f = true → l.filter g = [] := by
  intro l hl
  rw [List.all_eq_true] at hl
  rw [List.filter_eq_nil_iff]
  intro e he
  rw [h e (hl e he)]
  simp

theorem any_false_of_all {f g : Event → Bool} (h : ∀ e, f e = true → g e = false) :
    ∀ l : List Event, l.all f = true → l.any g = false := by
  intro l hl
  rw [List.all_eq_true] at hl
  rw [List.any_eq_false]
  intro e he
  rw [h e (hl e he)]
  simp

theorem notReceived_of_plain (e : Event) (h : e.isPlain = true) :
    e.isMessageReceived = false := by
  cases e <;> simp_all [Event.isPlain, Event.isMessageReceived, Event.isCreateUAS]

theorem notLossReport_of_logging (e : Event) (h : e.isLogging = true) :
    e.isLossReport = false := by
  cases e <;> simp_all [Event.isLogging, Event.isLossReport]

theorem notLossReport_of_writeBytes (e : Event) (h : e.isWriteBytes = true) :
    e.isLossReport = false := by
  cases e <;> simp_all [Event.isWriteBytes, Event.isLossReport]

theorem conflictNotice_noLossReport (message : Message) (p : Protocol) :
    (conflictNotice message p).any Event.isLossReport = false := by
  unfold conflictNotice
  split <;> rfl

theorem conflictNotice_noReceived (message : Message) (p : Protocol) :
    (conflictNotice message p).filter Event.isMessageReceived = [] :=
  filter_nil_of_all notReceived_of_plain _ (conflictNotice_plain message p)

theorem logPacket_noReceived (env : Env) (message : Message) (x : Ext) (p : Protocol) :
    (logPacket env message x p).2.filter Event.isMessageReceived = [] :=
  filter_nil_of_all notReceived_of_plain _ (logPacket_plain env message x p)

theorem logPacket_noLossReport (env : Env) (message : Message) (x : Ext) (p : Protocol) :
    (logPacket env message x p).2.any Event.isLossReport = false :=
  any_false_of_all notLossReport_of_logging _ (logPacket_events env message x p)

/-- The window of received packets after the loss update. -/
theorem updateLoss_window (sysid compid seq : Nat) (p : Protocol) :
    (updateLoss sysid compid seq p).1.totalReceiveCounter = p.totalReceiveCounter + 1 ∧
    (updateLoss sysid compid seq p).1.currReceiveCounter
      = (if (updateLoss sysid compid seq p).2.any Event.isLossReport = true then 0
        else p.currReceiveCounter + 1) := by
  have hr := countPacket_received sysid compid seq p
  unfold updateLoss reportLoss
  split
  · exact ⟨hr.1, by simp [Event.isLossReport]⟩
  · exact ⟨hr.1, by simpa using hr.2⟩

theorem dispatch_received (env : Env) (link : Link) (message : Message) (w : World) :
    (dispatch env link message w).2.filter Event.isMessageReceived
      = [Event.messageReceived link message] ∧
    (dispatch env link message w).2.any Event.isLossReport
      = (updateLoss message.sysid message.compid message.seq w.protocol).2.any
          Event.isLossReport := by
  obtain ⟨relay, hr, he⟩ := dispatch_events env link message w
  rw [he]
  simp only [List.filter_append, List.any_append,
    filter_nil_of_all notReceived_of_plain _
      (all_of_all plain_of_lossReport _ (updateLoss_events _ _ _ _)),
    filter_nil_of_all notReceived_of_plain _ (all_of_all plain_of_writeBytes _ hr),
    any_false_of_all notLossReport_of_writeBytes _ hr, List.nil_append, List.append_nil,
    Bool.or_false]
  exact ⟨rfl, by simp [Event.isLossReport]⟩

theorem logPacket_counters (env : Env) (message : Message) (x : Ext) (p : Protocol) :
    (logPacket env message x p).1.totalReceiveCounter = p.totalReceiveCounter ∧
    (logPacket env message x p).1.currReceiveCounter = p.currReceiveCounter ∧
    (logPacket env message x p).1.m_multiplexingEnabled = p.m_multiplexingEnabled ∧
    (logPacket env message x p).1.systemId = p.systemId := by
  refine ⟨?_, ?_, ?_, ?_⟩ <;> rw [logPacket_eq]

/-- What a packet does to the received counters and to `messageReceived`,
according to whether it is attributed to a UAS. -/
theorem handleMessage_received (env : Env) (link : Link) (message : Message) (x : Ext)
    (w : World) :
    (handleMessage env link message x w).2.filter Event.isMessageReceived
      = (if attributed env w message x = true then [Event.messageReceived link message]
        else []) ∧
    (handleMessage env link message x w).1.protocol.totalReceiveCounter
      = w.protocol.totalReceiveCounter + (if attributed env w message x = true then 1 else 0) ∧
    (attributed env w message x = true →
      (handleMessage env link message x w).1.protocol.currReceiveCounter
        = (if (handleMessage env link message x w).2.any Event.isLossReport = true then 0
          else w.protocol.currReceiveCounter + 1)) := by
  have hlc := logPacket_counters env message x w.protocol
  by_cases hu : getUASForId w.uas message.sysid = true
  · have ha : attributed env w message x = true := by simp [attributed, hu]
    rw [handleMessage_known env link message x w hu, ha]
    have hd := dispatch_received env link message
      { w with protocol := (logPacket env message x w.protocol).1 }
    have hw := updateLoss_window message.sysid message.compid message.seq
      (logPacket env message x w.protocol).1
    simp only [List.filter_append, List.any_append, logPacket_noReceived,
      logPacket_noLossReport, hd.1, hd.2, dispatch_world, hw.1, hw.2, hlc.1, hlc.2.1,
      List.nil_append, Bool.false_or, if_true, true_and, implies_true]
  · have hu' : getUASForId w.uas message.sysid = false := by simpa using hu
    by_cases hk : message.msgid = env.MAVLINK_MSG_ID_HEARTBEAT
    · by_cases hm : w.protocol.m_enable_version_check = true ∧
          env.mavlink_msg_heartbeat_decode message ≠ env.MAVLINK_VERSION
      · have ha : attributed env w message x = false := by
          have : requestsUAS env w message = false := by
            simp only [requestsUAS, decide_eq_false_iff_not]
            exact fun h => h.2.2 hm
          simp [attributed, hu', this]
        rw [handleMessage_mismatch env link message x w hu' hk hm.1 hm.2, ha]
        simp only [List.filter_append, logPacket_noReceived, conflictNotice_noReceived,
          hlc.1, List.nil_append, Bool.false_eq_true, if_false, Nat.add_zero, false_implies,
          and_true]
        split <;> rfl
      · have hr : requestsUAS env w message = true := by
          simp only [requestsUAS, decide_eq_true_eq]
          exact ⟨hu', hk, hm⟩
        rw [handleMessage_create env link message x w hu' hk hm]
        cases hx : x.created
        · have ha : attributed env w message x = false := by simp [attributed, hu', hx]
          rw [ha]
          simp [List.filter_append, logPacket_noReceived, conflictNotice_noReceived, hlc.1,
            Event.isMessageReceived]
        · have ha : attributed env w message x = true := by simp [attributed, hr, hx]
          rw [ha]
          have hd := dispatch_received env link message
            { w with protocol := (logPacket env message x w.protocol).1
                     uas := message.sysid :: w.uas }
          have hw := updateLoss_window message.sysid message.compid message.seq
            (logPacket env message x w.protocol).1
          simp only [if_true, List.filter_append, List.any_append, logPacket_noReceived,
            logPacket_noLossReport, conflictNotice_noReceived, conflictNotice_noLossReport,
            hd.1, hd.2, dispatch_world, hw.1, hw.2, hlc.1, hlc.2.1, List.nil_append,
            Bool.false_or, true_and, implies_true, List.filter_cons, List.filter_nil,
            Event.isMessageReceived, List.any_cons, List.any_nil, Event.isLossReport,
            Bool.or_false, Bool.false_eq_true, if_false]
    · have ha : attributed env w message x = false := by
        simp [attributed, hu', requestsUAS, hk]
      rw [handleMessage_unknown env link message x w hu' hk, ha]
      simp only [logPacket_noReceived, hlc.1, Bool.false_eq_true, if_false, Nat.add_zero,
        false_implies, and_self]

theorem attributed_registered (env : Env) (link : Link) (message : Message) (x : Ext)
    (w : World) (h : attributed env w message x = true) :
    getUASForId (handleMessage env link message x w).1.uas message.sysid = true := by
  rw [(handleMessage_creates env link message x w).2]
  by_cases hc : requestsUAS env w message = true ∧ x.created = true
  · rw [if_pos hc, getUASForId_cons]
    simp
  · rw [if_neg hc]
    simp only [attributed, Bool.or_eq_true, Bool.and_eq_true] at h
    rcases h with h | h
    · exact h
    · exact absurd h hc

/-- C11: in the event trace of any run (received packets and setter calls,
from any state), every `messageReceived` for a packet of system `s` comes at
a point of the trace where a UAS for `s` exists: one that the registry held
when the run started or one that an earlier `createUAS` of the trace
returned.  While one packet is processed, `messageReceived` is emitted only
for that packet and only when its UAS handle is not null (the lookup found
it, or the factory returned it earlier in the same processing), and the UAS
is then resolvable by lookup; with a null handle nothing is announced. -/
theorem device_before_received (env : Env) :
    (∀ (ops : List Op) (w : World), receivedAfterDevice w.uas (run env ops w).2 = true) ∧
    (∀ (link : Link) (message : Message) (x : Ext) (w : World),
      receivedAfterDevice w.uas (handleMessage env link message x w).2 = true ∧
      (handleMessage env link message x w).2.filter Event.isMessageReceived
        = (if attributed env w message x = true then [Event.messageReceived link message]
          else []) ∧
      (attributed env w message x = true →
        getUASForId (handleMessage env link message x w).1.uas message.sysid = true) ∧
      (attributed env w message x = false →
        ∀ e ∈ (handleMessage env link message x w).2, e.isMessageReceived = false)) := by
  refine ⟨fun ops w => (run_trace env ops w).1, ?_⟩
  intro link message x w
  have hr := (handleMessage_received env link message x w).1
  refine ⟨(handleMessage_trace env link message x w).1, hr,
    attributed_registered env link message x w, ?_⟩
  intro ha e he
  rw [ha] at hr
  simp only [Bool.false_eq_true, if_false, List.filter_eq_nil_iff] at hr
  simpa using hr e he

theorem device_before_received_witness :
    (run sampleEnv [Op.receive linkA (heartbeat 1 1 0 2) sampleExt] freshWorld).2
      = [Event.createUAS linkA 1 2 true, Event.messageReceived linkA (heartbeat 1 1 0 2)] ∧
    receivedAfterDevice freshWorld.uas
      (run sampleEnv [Op.receive linkA (heartbeat 1 1 0 2) sampleExt] freshWorld).2 = true :=
  ⟨by decide,
   (device_before_received sampleEnv).1 [Op.receive linkA (heartbeat 1 1 0 2) sampleExt]
     freshWorld⟩

/-! ### Received packets and the total counter -/

theorem receivedCount_append (xs ys : List Event) :
    receivedCount (xs ++ ys) = receivedCount xs + receivedCount ys := by
  simp [receivedCount]

theorem step_setter_total (env : Env) (w : World) (op : Op)
    (h : ∀ link message x, op ≠ Op.receive link message x) :
    (step env w op).1.protocol.totalReceiveCounter = w.protocol.totalReceiveCounter := by
  cases op with
  | receive link message x => exact absurd rfl (h link message x)
  | enableVersionCheck enabled => rfl
  | enableMultiplexing enabled => rfl
  | enableHeartbeats enabled => rfl
  | enableLogging enabled openOk =>
    simp only [step, World.onProtocol]
    rw [enableLogging_eq]
  | setLogfileName filename openOk =>
    simp only [step, World.onProtocol, setLogfileName]
    rw [enableLogging_eq]
  | setSystemId id => rfl
  | setLinks links => rfl

theorem step_total (env : Env) (w : World) (op : Op) :
    (step env w op).1.protocol.totalReceiveCounter
      = w.protocol.totalReceiveCounter + receivedCount (step env w op).2 := by
  rcases Op.receive_or_setter op with ⟨link, message, x, rfl⟩ | hne
  · have h := handleMessage_received env link message x w
    simp only [step, receivedCount]
    rw [h.1, h.2.1]
    split <;> rfl
  · rw [step_setter_total env w op hne, receivedCount,
      filter_nil_of_all notReceived_of_plain _ (step_setter_plain env w op hne)]
    rfl

theorem run_total (env : Env) : ∀ (ops : List Op) (w : World),
    (run env ops w).1.protocol.totalReceiveCounter
      = w.protocol.totalReceiveCounter + receivedCount (run env ops w).2 := by
  intro ops
  induction ops with
  | nil => intro w; rfl
  | cons op rest ih =>
    intro w
    simp only [run, receivedCount_append]
    rw [ih, step_total env w op, Nat.add_assoc]

/-- C12: a decoded packet that is attributed to a UAS (found by the lookup
or just returned by the factory) raises the total-received counter by exactly
one, raises the windowed received counter by exactly one in line 263 (the
loss report of lines 308–318, when this packet triggers one, then resets the
window to zero), and emits exactly one `messageReceived` carrying the origin
link and that packet.  Hence over any run the total-received counter grows by
the number of `messageReceived` signals emitted, and from the constructor's
zero it equals that number. -/
theorem received_counted (env : Env) :
    (∀ (link : Link) (message : Message) (x : Ext) (w : World),
      attributed env w message x = true →
        (handleMessage env link message x w).1.protocol.totalReceiveCounter
          = w.protocol.totalReceiveCounter + 1 ∧
        (countPacket message.sysid message.compid message.seq
            (logPacket env message x w.protocol).1).currReceiveCounter
          = w.protocol.currReceiveCounter + 1 ∧
        (handleMessage env link message x w).1.protocol.currReceiveCounter
          = (if (handleMessage env link message x w).2.any Event.isLossReport = true then 0
            else w.protocol.currReceiveCounter + 1) ∧
        (handleMessage env link message x w).2.filter Event.isMessageReceived
          = [Event.messageReceived link message]) ∧
    (∀ (ops : List Op) (w : World),
      (run env ops w).1.protocol.totalReceiveCounter
        = w.protocol.totalReceiveCounter + receivedCount (run env ops w).2) ∧
    (∀ (ops : List Op) (w : World), w.protocol.totalReceiveCounter = 0 →
      (run env ops w).1.protocol.totalReceiveCounter = receivedCount (run env ops w).2) := by
  refine ⟨?_, run_total env, ?_⟩
  · intro link message x w ha
    have h := handleMessage_received env link message x w
    rw [ha] at h
    refine ⟨h.2.1, ?_, h.2.2 rfl, h.1⟩
    rw [(countPacket_received _ _ _ _).2, (logPacket_counters env message x w.protocol).2.1]
  · intro ops w h0
    rw [run_total env ops w, h0, Nat.zero_add]

set_option maxRecDepth 200000 in
theorem received_counted_witness :
    attributed sampleEnv busyWorld (statusText 1 1 0) sampleExt = true ∧
    (handleMessage sampleEnv linkA (statusText 1 1 0) sampleExt
        busyWorld).1.protocol.totalReceiveCounter
      = busyWorld.protocol.totalReceiveCounter + 1 ∧
    (run sampleEnv sixtyThree freshWorld).1.protocol.totalReceiveCounter
      = receivedCount (run sampleEnv sixtyThree freshWorld).2 ∧
    receivedCount (run sampleEnv sixtyThree freshWorld).2 = 63 :=
  ⟨by decide,
   ((received_counted sampleEnv).1 linkA (statusText 1 1 0) sampleExt busyWorld
      (by decide)).1,
   (received_counted sampleEnv).2.2 sixtyThree freshWorld (by decide), by decide⟩


/-! ### Sending: one link, all links, all links but one -/

theorem sendMessage_eq (env : Env) (p : Protocol) (link : Link) (message : Message) :
    sendMessage env p link message
      = (if link.connected = true then
          [Event.writeBytes link (sentBytes env p link message)]
        else []) := by
  rfl

theorem sendMessageAll_eq (env : Env) (p : Protocol) (message : Message) :
    ∀ links : List Link, sendMessageAll env p message links
      = (links.filter (fun l => l.connected)).map
          (fun l => Event.writeBytes l (sentBytes env p l message)) := by
  intro links
  induction links with
  | nil => rfl
  | cons l rest ih =>
    rw [sendMessageAll, ih, sendMessage_eq]
    cases hl : l.connected <;> simp [hl]

theorem multiplex_eq (env : Env) (p : Protocol) (link : Link) (message : Message) :
    ∀ links : List Link, multiplex env p link message links
      = (links.filter (fun l => decide (l.handle ≠ link.handle) && l.connected)).map
          (fun l => Event.writeBytes l (sentBytes env p l message)) := by
  intro links
  induction links with
  | nil => rfl
  | cons l rest ih =>
    rw [multiplex, ih, sendMessage_eq]
    by_cases hh : l.handle = link.handle <;> cases hl : l.connected <;> simp [hh, hl]

theorem sentBytes_systemId (env : Env) (p q : Protocol) (link : Link) (message : Message)
    (h : q.systemId = p.systemId) :
    sentBytes env q link message = sentBytes env p link message := by
  simp [sentBytes, sentMessage, h]

theorem multiplex_systemId (env : Env) (p q : Protocol) (link : Link) (message : Message)
    (h : q.systemId = p.systemId) (links : List Link) :
    multiplex env q link message links = multiplex env p link message links := by
  rw [multiplex_eq, multiplex_eq]
  apply List.map_congr_left
  intro l _
  rw [sentBytes_systemId env p q l message h]

theorem writes_count (l : Link) (g : Link → List Nat) (q : Link → Bool) :
    ∀ links : List Link,
      (((links.filter q).map (fun k => Event.writeBytes k (g k))).filter
          (Event.isWriteOn l)).length
        = (if q l = true then links.count l else 0) := by
  intro links
  induction links with
  | nil => simp
  | cons k rest ih =>
    by_cases hk : k = l
    · subst hk
      cases hq : q k
      · simpa [List.filter_cons, hq] using ih
      · simp [List.filter_cons, hq, Event.isWriteOn] at ih ⊢
        exact ih
    · have hk' : (k == l) = false := by simpa using hk
      cases hq : q k
      · rw [List.filter_cons, hq, List.count_cons, hk']
        simpa using ih
      · rw [List.filter_cons, hq, List.count_cons, hk']
        simp only [if_true, List.map_cons, List.filter_cons, Event.isWriteOn, hk,
          decide_False, Bool.false_eq_true, if_false, Nat.add_zero]
        exact ih

theorem notWrite_of_logging (e : Event) (h : e.isLogging = true) : e.isWriteBytes = false := by
  cases e <;> simp_all [Event.isLogging, Event.isWriteBytes]

theorem notWrite_of_lossReport (e : Event) (h : e.isLossReport = true) :
    e.isWriteBytes = false := by
  cases e <;> simp_all [Event.isLossReport, Event.isWriteBytes]

theorem conflictNotice_noWrite (message : Message) (p : Protocol) :
    (conflictNotice message p).filter Event.isWriteBytes = [] := by
  unfold conflictNotice
  split <;> rfl

theorem logPacket_noWrite (env : Env) (message : Message) (x : Ext) (p : Protocol) :
    (logPacket env message x p).2.filter Event.isWriteBytes = [] :=
  filter_nil_of_all notWrite_of_logging _ (logPacket_events env message x p)

theorem filter_writes_map (g : Link → List Nat) : ∀ links : List Link,
    (links.map (fun l => Event.writeBytes l (g l))).filter Event.isWriteBytes
      = links.map (fun l => Event.writeBytes l (g l)) := by
  intro links
  induction links with
  | nil => rfl
  | cons l rest ih => simp [List.filter_cons, Event.isWriteBytes, ih]

theorem updateLoss_flags (sysid compid seq : Nat) (p : Protocol) :
    (updateLoss sysid compid seq p).1.m_multiplexingEnabled = p.m_multiplexingEnabled ∧
    (updateLoss sysid compid seq p).1.systemId = p.systemId := by
  constructor <;> rw [updateLoss_eq]

/-- The link writes of `dispatch`. -/
theorem dispatch_writes (env : Env) (link : Link) (message : Message) (w : World) :
    (dispatch env link message w).2.filter Event.isWriteBytes
      = (if w.protocol.m_multiplexingEnabled = true then
          (w.links.filter (fun l => decide (l.handle ≠ link.handle) && l.connected)).map
            (fun l => Event.writeBytes l (sentBytes env w.protocol l message))
        else []) := by
  have hf := updateLoss_flags message.sysid message.compid message.seq w.protocol
  unfold dispatch
  simp only [List.filter_append,
    filter_nil_of_all notWrite_of_lossReport _ (updateLoss_events _ _ _ _), hf.1,
    List.nil_append]
  cases hm : w.protocol.m_multiplexingEnabled
  · simp [Event.isWriteBytes]
  · simp only [if_true, List.filter_cons, Event.isWriteBytes, Bool.false_eq_true, if_false,
      List.filter_nil, List.nil_append]
    rw [multiplex_systemId env w.protocol _ link message hf.2, multiplex_eq, filter_writes_map]

/-- The link writes of one packet. -/
theorem handleMessage_writes (env : Env) (link : Link) (message : Message) (x : Ext)
    (w : World) :
    (handleMessage env link message x w).2.filter Event.isWriteBytes
      = (if attributed env w message x = true ∧ w.protocol.m_multiplexingEnabled = true then
          (w.links.filter (fun l => decide (l.handle ≠ link.handle) && l.connected)).map
            (fun l => Event.writeBytes l (sentBytes env w.protocol l message))
        else []) := by
  have hlc := logPacket_counters env message x w.protocol
  have hsb : ∀ l, sentBytes env (logPacket env message x w.protocol).1 l message
      = sentBytes env w.protocol l message :=
    fun l => sentBytes_systemId env w.protocol _ l message hlc.2.2.2
  by_cases hu : getUASForId w.uas message.sysid = true
  · have ha : attributed env w message x = true := by simp [attributed, hu]
    rw [handleMessage_known env link message x w hu, ha]
    simp only [List.filter_append, logPacket_noWrite, dispatch_writes, hlc.2.2.1, hsb,
      List.nil_append, true_and]
  · have hu' : getUASForId w.uas message.sysid = false := by simpa using hu
    by_cases hk : message.msgid = env.MAVLINK_MSG_ID_HEARTBEAT
    · by_cases hm : w.protocol.m_enable_version_check = true ∧
          env.mavlink_msg_heartbeat_decode message ≠ env.MAVLINK_VERSION
      · have ha : attributed env w message x = false := by
          have : requestsUAS env w message = false := by
            simp only [requestsUAS, decide_eq_false_iff_not]
            exact fun h => h.2.2 hm
          simp [attributed, hu', this]
        rw [handleMessage_mismatch env link message x w hu' hk hm.1 hm.2, ha]
        simp only [List.filter_append, logPacket_noWrite, conflictNotice_noWrite,
          List.nil_append, Bool.false_eq_true, false_and, if_false]
        split <;> rfl
      · have hr : requestsUAS env w message = true := by
          simp only [requestsUAS, decide_eq_true_eq]
          exact ⟨hu', hk, hm⟩
        rw [handleMessage_create env link message x w hu' hk hm]
        cases hx : x.created
        · have ha : attributed env w message x = false := by simp [attributed, hu', hx]
          rw [ha]
          simp [List.filter_append, logPacket_noWrite, conflictNotice_noWrite,
            Event.isWriteBytes]
        · have ha : attributed env w message x = true := by simp [attributed, hr, hx]
          rw [ha]
          simp only [if_true, List.filter_append, logPacket_noWrite, conflictNotice_noWrite,
            dispatch_writes, hlc.2.2.1, hsb, List.nil_append, true_and, List.filter_cons,
            Event.isWriteBytes, Bool.false_eq_true, if_false, List.filter_nil]
    · have ha : attributed env w message x = false := by
        simp [attributed, hu', requestsUAS, hk]
      rw [handleMessage_unknown env link message x w hu' hk, ha]
      simp only [logPacket_noWrite, Bool.false_eq_true, false_and, if_false]


theorem filter_writeOn (l : Link) (events : List Event) :
    events.filter (Event.isWriteOn l)
      = (events.filter Event.isWriteBytes).filter (Event.isWriteOn l) := by
  rw [List.filter_filter]
  congr 1
  funext e
  cases e <;> simp [Event.isWriteOn, Event.isWriteBytes]

/-- C13: for a packet received on link `link` and attributed to a UAS.  With
multiplexing enabled the link writes of its processing are exactly one
`writeBytes` for every entry of the protocol's link list that is connected
and is not `link`, in list order, each carrying the bytes `sendMessage`
encodes for that link; so a connected link other than `link` that is
registered once is written exactly once, and no write goes to `link` or to
a link that is not connected or not registered.  With multiplexing disabled
nothing is written. -/
theorem relayed_to_other_links (env : Env) (link : Link) (message : Message) (x : Ext)
    (w : World) (ha : attributed env w message x = true) :
    (w.protocol.m_multiplexingEnabled = true →
      (handleMessage env link message x w).2.filter Event.isWriteBytes
        = (w.links.filter (fun l => decide (l.handle ≠ link.handle) && l.connected)).map
            (fun l => Event.writeBytes l (sentBytes env w.protocol l message)) ∧
      (∀ l ∈ w.links, l.connected = true → l.handle ≠ link.handle → w.links.Nodup →
        ((handleMessage env link message x w).2.filter (Event.isWriteOn l)).length = 1) ∧
      (∀ (l : Link) (bytes : List Nat),
        Event.writeBytes l bytes ∈ (handleMessage env link message x w).2 →
          l.handle ≠ link.handle ∧ l.connected = true ∧ l ∈ w.links)) ∧
    (w.protocol.m_multiplexingEnabled = false →
      (handleMessage env link message x w).2.filter Event.isWriteBytes = []) := by
  have hw := handleMessage_writes env link message x w
  rw [ha] at hw
  constructor
  · intro hm
    simp only [hm, and_self, if_true] at hw
    refine ⟨hw, ?_, ?_⟩
    · intro l hl hc hh hnd
      rw [filter_writeOn, hw,
        writes_count l (fun k => sentBytes env w.protocol k message)
          (fun k => decide (k.handle ≠ link.handle) && k.connected) w.links]
      have hq : (decide (l.handle ≠ link.handle) && l.connected) = true := by simp [hh, hc]
      rw [if_pos hq]
      exact List.count_eq_one_of_mem hnd hl
    · intro l bytes hmem
      have h1 : Event.writeBytes l bytes
          ∈ (handleMessage env link message x w).2.filter Event.isWriteBytes :=
        List.mem_filter.mpr ⟨hmem, rfl⟩
      rw [hw, List.mem_map] at h1
      obtain ⟨k, hk, hke⟩ := h1
      injection hke with hkl _
      subst hkl
      rw [List.mem_filter] at hk
      simp only [Bool.and_eq_true, decide_eq_true_eq] at hk
      exact ⟨hk.2.1, hk.2.2, hk.1⟩
  · intro hm
    simpa [hm] using hw

set_option maxRecDepth 200000 in
theorem relayed_to_other_links_witness :
    (attributed sampleEnv busyWorld (statusText 1 1 0) sampleExt = true ∧
      busyWorld.protocol.m_multiplexingEnabled = true) ∧
    (handleMessage sampleEnv linkA (statusText 1 1 0) sampleExt busyWorld).2.filter
        Event.isWriteBytes
      = (busyWorld.links.filter (fun l => decide (l.handle ≠ linkA.handle) && l.connected)).map
          (fun l => Event.writeBytes l
            (sentBytes sampleEnv busyWorld.protocol l (statusText 1 1 0))) ∧
    (busyWorld.links.filter (fun l => decide (l.handle ≠ linkA.handle) && l.connected)).map
          (fun l => Event.writeBytes l
            (sentBytes sampleEnv busyWorld.protocol l (statusText 1 1 0)))
      = [Event.writeBytes linkB [85, 0, 0, 255, 0, 254],
         Event.writeBytes linkC [85, 0, 0, 255, 0, 254]] :=
  ⟨⟨by decide, by decide⟩,
   ((relayed_to_other_links sampleEnv linkA (statusText 1 1 0) sampleExt busyWorld
      (by decide)).1 (by decide)).1,
   by decide⟩

theorem sendMessageAll_append (env : Env) (p : Protocol) (message : Message) :
    ∀ xs ys : List Link, sendMessageAll env p message (xs ++ ys)
      = sendMessageAll env p message xs ++ sendMessageAll env p message ys := by
  intro xs ys
  induction xs with
  | nil => rfl
  | cons l rest ih => simp [sendMessageAll, ih, List.append_assoc]

theorem multiplex_append (env : Env) (p : Protocol) (link : Link) (message : Message) :
    ∀ xs ys : List Link, multiplex env p link message (xs ++ ys)
      = multiplex env p link message xs ++ multiplex env p link message ys := by
  intro xs ys
  induction xs with
  | nil => rfl
  | cons l rest ih => simp [multiplex, ih, List.append_assoc]

/-- C14: `sendMessage(link, message)` writes to the link if and only if the
link reports connected: one `writeBytes` with the encoded bytes when it is,
and nothing at all, neither a write nor a notification, when it is not.  In
a broadcast (`sendMessage(message)`) and in a relay the links before and
after a link are served regardless of it, so a disconnected link is skipped
and every connected link of the list still gets its write. -/
theorem disconnected_skipped (env : Env) (p : Protocol) (link : Link) (message : Message) :
    ((∃ bytes, Event.writeBytes link bytes ∈ sendMessage env p link message)
      ↔ link.connected = true) ∧
    (link.connected = true →
      sendMessage env p link message
        = [Event.writeBytes link (sentBytes env p link message)]) ∧
    (link.connected = false → sendMessage env p link message = []) ∧
    (∀ pre post : List Link,
      sendMessageAll env p message (pre ++ link :: post)
        = sendMessageAll env p message pre ++ sendMessage env p link message
            ++ sendMessageAll env p message post) ∧
    (∀ (origin : Link) (pre post : List Link), link.handle ≠ origin.handle →
      multiplex env p origin message (pre ++ link :: post)
        = multiplex env p origin message pre ++ sendMessage env p link message
            ++ multiplex env p origin message post) ∧
    (∀ links : List Link,
      sendMessageAll env p message links
        = (links.filter (fun l => l.connected)).map
            (fun l => Event.writeBytes l (sentBytes env p l message))) ∧
    (∀ (origin : Link) (links : List Link),
      multiplex env p origin message links
        = (links.filter (fun l => decide (l.handle ≠ origin.handle) && l.connected)).map
            (fun l => Event.writeBytes l (sentBytes env p l message))) := by
  refine ⟨?_, ?_, ?_, ?_, ?_, sendMessageAll_eq env p message,
    fun origin links => multiplex_eq env p origin message links⟩
  · rw [sendMessage_eq]
    cases hc : link.connected <;> simp
  · intro hc
    rw [sendMessage_eq, if_pos hc]
  · intro hc
    rw [sendMessage_eq, hc]
    rfl
  · intro pre post
    rw [sendMessageAll_append, sendMessageAll, List.append_assoc]
  · intro origin pre post hh
    rw [multiplex_append, multiplex, if_pos hh, List.append_assoc]

theorem disconnected_skipped_witness :
    linkD.connected = false ∧
    sendMessage sampleEnv fresh linkD (statusText 1 1 0) = [] ∧
    sendMessageAll sampleEnv fresh (statusText 1 1 0) ([linkA] ++ linkD :: [linkC])
      = sendMessageAll sampleEnv fresh (statusText 1 1 0) [linkA]
          ++ sendMessage sampleEnv fresh linkD (statusText 1 1 0)
          ++ sendMessageAll sampleEnv fresh (statusText 1 1 0) [linkC] ∧
    sendMessageAll sampleEnv fresh (statusText 1 1 0) [linkA, linkD, linkC]
      = [Event.writeBytes linkA [85, 0, 0, 1, 1, 254],
         Event.writeBytes linkC [85, 0, 0, 255, 0, 254]] :=
  ⟨by decide,
   (disconnected_skipped sampleEnv fresh linkD (statusText 1 1 0)).2.2.1 (by decide),
   (disconnected_skipped sampleEnv fresh linkD (statusText 1 1 0)).2.2.2.1 [linkA] [linkC],
   by decide⟩


/-! ### Construction and the multiplexing flag -/

/-- With no stored `MULTIPLEXING_ENABLED`, the constructor leaves in
`m_multiplexingEnabled` the value the uninitialised member happened to hold. -/
theorem constructor_multiplexing (uninitialised : Bool) (defaultSystemId : Int)
    (home : String) (openOk : Bool) :
    (constructor uninitialised defaultSystemId noSettings home openOk).1.m_multiplexingEnabled
      = uninitialised := by
  simp only [constructor, loadSettings, noSettings, Option.getD_none]
  rw [enableLogging_eq]
  rfl

set_option maxRecDepth 200000 in
/-- C15, the code at the failing input: a protocol object constructed with
nothing stored under `MULTIPLEXING_ENABLED` and a set byte in the
uninitialised member has multiplexing on, and a packet received on `linkA`
is relayed to `linkB` although `enableMultiplexing(true)` was never called. -/
theorem multiplexing_default_uninitialised :
    (constructor true 255 noSettings "/home/user" true).1.m_multiplexingEnabled = true ∧
    (handleMessage sampleEnv linkA (statusText 1 1 0) sampleExt
        { protocol := (constructor true 255 noSettings "/home/user" true).1
          uas := [1]
          links := [linkA, linkB] }).2.filter Event.isWriteBytes
      = [Event.writeBytes linkB [85, 0, 0, 255, 0, 254]] := by
  decide

/-! ### Heartbeats -/

/-- C16: on a heartbeat tick with emission enabled, one identification
packet is built from the own system id and component id and one `writeBytes`
of it goes to every connected link of the protocol's link list, in list
order (exactly one to a connected link that is registered once); on a link
with a non-zero id the packet is finalised once more with the same own ids.
Provided the MAVLink library stamps the ids it is given, every packet sent
is a heartbeat carrying the own system id.  With emission disabled nothing
is sent, and enabling or disabling emission leaves the timer, its period and
the rate unchanged. -/
theorem heartbeat_tick (env : Env) (w : World)
    (hid : 0 ≤ w.protocol.systemId ∧ w.protocol.systemId < 256)
    (hpack : ∀ (sys : Int) (comp : Nat), 0 ≤ sys → sys < 256 →
      ((env.mavlink_msg_heartbeat_pack sys comp).sysid : Int) = sys ∧
      (env.mavlink_msg_heartbeat_pack sys comp).msgid = env.MAVLINK_MSG_ID_HEARTBEAT)
    (hfin : ∀ (m : Message) (sys : Int) (comp chan len : Nat), 0 ≤ sys → sys < 256 →
      ((env.mavlink_finalize_message_chan m sys comp chan len).sysid : Int) = sys ∧
      (env.mavlink_finalize_message_chan m sys comp chan len).msgid = m.msgid) :
    (w.protocol.m_heartbeatsEnabled = true →
      sendHeartbeat env w
        = (w.links.filter (fun l => l.connected)).map
            (fun l => Event.writeBytes l
              (env.mavlink_msg_to_send_buffer
                (sentMessage env w.protocol l
                  (env.mavlink_msg_heartbeat_pack w.protocol.systemId
                    env.defaultComponentId)))) ∧
      (∀ l ∈ w.links, l.connected = true → w.links.Nodup →
        ((sendHeartbeat env w).filter (Event.isWriteOn l)).length = 1)) ∧
    (∀ l : Link,
      ((sentMessage env w.protocol l
          (env.mavlink_msg_heartbeat_pack w.protocol.systemId
            env.defaultComponentId)).sysid : Int) = w.protocol.systemId ∧
      (sentMessage env w.protocol l
          (env.mavlink_msg_heartbeat_pack w.protocol.systemId
            env.defaultComponentId)).msgid = env.MAVLINK_MSG_ID_HEARTBEAT) ∧
    (w.protocol.m_heartbeatsEnabled = false → sendHeartbeat env w = []) ∧
    (∀ enabled : Bool,
      (enableHeartbeats enabled w.protocol).1.heartbeatTimer = w.protocol.heartbeatTimer ∧
      (enableHeartbeats enabled w.protocol).1.heartbeatRate = w.protocol.heartbeatRate) := by
  refine ⟨?_, ?_, ?_, fun enabled => ⟨rfl, rfl⟩⟩
  · intro hen
    have he : sendHeartbeat env w
        = (w.links.filter (fun l => l.connected)).map
            (fun l => Event.writeBytes l
              (sentBytes env w.protocol l
                (env.mavlink_msg_heartbeat_pack w.protocol.systemId
                  env.defaultComponentId))) := by
      unfold sendHeartbeat
      rw [if_pos hen, sendMessageAll_eq]
    refine ⟨he, ?_⟩
    intro l hl hc hnd
    rw [he, writes_count l
      (fun k => sentBytes env w.protocol k
        (env.mavlink_msg_heartbeat_pack w.protocol.systemId env.defaultComponentId))
      (fun k => k.connected) w.links, if_pos hc]
    exact List.count_eq_one_of_mem hnd hl
  · intro l
    have hp := hpack w.protocol.systemId env.defaultComponentId hid.1 hid.2
    unfold sentMessage
    split
    · have hf := hfin
        (env.mavlink_msg_heartbeat_pack w.protocol.systemId env.defaultComponentId)
        w.protocol.systemId env.defaultComponentId l.id
        (env.mavlink_msg_heartbeat_pack w.protocol.systemId env.defaultComponentId).len
        hid.1 hid.2
      exact ⟨hf.1, hf.2.trans hp.2⟩
    · exact hp
  · intro hen
    unfold sendHeartbeat
    rw [hen]
    rfl

theorem heartbeat_tick_witness :
    ((0 : Int) ≤ busyWorld.protocol.systemId ∧ busyWorld.protocol.systemId < 256) ∧
    busyWorld.protocol.m_heartbeatsEnabled = true ∧
    sendHeartbeat sampleEnv busyWorld
      = (busyWorld.links.filter (fun l => l.connected)).map
          (fun l => Event.writeBytes l
            (sampleEnv.mavlink_msg_to_send_buffer
              (sentMessage sampleEnv busyWorld.protocol l
                (sampleEnv.mavlink_msg_heartbeat_pack busyWorld.protocol.systemId
                  sampleEnv.defaultComponentId)))) ∧
    sendHeartbeat sampleEnv busyWorld
      = [Event.writeBytes linkA [85, 1, 0, 255, 0, 0, 2],
         Event.writeBytes linkB [85, 1, 0, 255, 0, 0, 2],
         Event.writeBytes linkC [85, 1, 0, 255, 0, 0, 2]] :=
  ⟨by decide, by decide,
   ((heartbeat_tick sampleEnv busyWorld (by decide)
      (fun sys comp h0 _ => ⟨Int.toNat_of_nonneg h0, rfl⟩)
      (fun m sys comp chan len h0 _ => ⟨Int.toNat_of_nonneg h0, rfl⟩)).1 (by decide)).1,
   by decide⟩

theorem heartbeat_period_counterexample :
    (setHeartbeatRate 3 fresh).map (fun p => p.heartbeatTimer.interval) = some 333 ∧
    (333 : ℚ) ≠ 1000 / 3 ∧
    (setHeartbeatRate 2000 fresh).map (fun p => p.heartbeatTimer.interval) = some 0 := by
  refine ⟨by decide, by norm_num, by decide⟩

theorem constructor_period (uninitialised : Bool) (defaultSystemId : Int) (s : Settings)
    (home : String) (openOk : Bool) :
    (constructor uninitialised defaultSystemId s home openOk).1.heartbeatTimer
      = { interval := 1000, active := true } := by
  simp only [constructor, loadSettings]
  rw [enableLogging_eq]
  rfl

/-- C17 (amended): for every heartbeat rate `r ≥ 1`, `setHeartbeatRate(r)`
succeeds, stores `r` (so `getHeartbeatRate()` returns `r`) and sets the
timer period to the integer quotient `1000 / r` milliseconds: the largest
whole number of milliseconds not above `1/r` seconds, equal to `1/r` seconds
exactly when `r` divides 1000.  The running state of the timer is left as it
was, and the constructor starts the timer with the default rate at 1000
milliseconds. -/
theorem heartbeat_period (r : Int) (p : Protocol) (h : 1 ≤ r) :
    (∃ q, setHeartbeatRate r p = some q ∧
      getHeartbeatRate q = r ∧
      q.heartbeatTimer.interval = 1000 / r ∧
      q.heartbeatTimer.interval * r ≤ 1000 ∧
      1000 < (q.heartbeatTimer.interval + 1) * r ∧
      (r ∣ 1000 → q.heartbeatTimer.interval * r = 1000) ∧
      q.heartbeatTimer.active = p.heartbeatTimer.active) ∧
    (∀ (uninitialised : Bool) (defaultSystemId : Int) (s : Settings) (home : String)
        (openOk : Bool),
      (constructor uninitialised defaultSystemId s home openOk).1.heartbeatTimer.interval
        = 1000) := by
  have hr0 : r ≠ 0 := by omega
  have hpos : 0 < r := by omega
  have hdiv : Int.tdiv 1000 r = 1000 / r := Int.tdiv_eq_ediv (by norm_num) (by omega)
  have h1 := Int.ediv_add_emod 1000 r
  have h2 := Int.emod_nonneg 1000 hr0
  have h3 := Int.emod_lt_of_pos 1000 hpos
  refine ⟨⟨{ p with heartbeatRate := r
                    heartbeatTimer := { p.heartbeatTimer with interval := Int.tdiv 1000 r } },
    ?_, rfl, hdiv, ?_, ?_, ?_, rfl⟩, ?_⟩
  · simp [setHeartbeatRate, hr0]
  · simp only [hdiv]
    nlinarith
  · simp only [hdiv]
    nlinarith
  · intro hd
    simp only [hdiv]
    have h4 : (1000 : Int) % r = 0 := Int.emod_eq_zero_of_dvd hd
    rw [h4] at h1
    linarith
  · intro u d s home openOk
    rw [constructor_period]

theorem heartbeat_period_witness :
    (1 : Int) ≤ 4 ∧
    (∃ q, setHeartbeatRate 4 fresh = some q ∧
      getHeartbeatRate q = 4 ∧
      q.heartbeatTimer.interval = 1000 / 4 ∧
      q.heartbeatTimer.interval * 4 ≤ 1000 ∧
      1000 < (q.heartbeatTimer.interval + 1) * 4 ∧
      ((4 : Int) ∣ 1000 → q.heartbeatTimer.interval * 4 = 1000) ∧
      q.heartbeatTimer.active = fresh.heartbeatTimer.active) :=
  ⟨by decide, (heartbeat_period 4 fresh (by decide)).1⟩


/-! ### The conflict notice -/

theorem conflictNotices_append (xs ys : List Event) :
    conflictNotices (xs ++ ys) = conflictNotices xs + conflictNotices ys := by
  simp [conflictNotices]

theorem conflictNotices_of_all {f : Event → Bool}
    (h : ∀ e, f e = true → e.isConflict = false) :
    ∀ l : List Event, l.all f = true → conflictNotices l = 0 := by
  intro l hl
  rw [conflictNotices, filter_nil_of_all h l hl]
  rfl

theorem notConflict_of_logging (e : Event) (h : e.isLogging = true) :
    e.isConflict = false := by
  cases e with
  | protocolStatusMessage n => cases n <;> simp_all [Event.isLogging, Event.isConflict]
  | _ => simp_all [Event.isLogging, Event.isConflict]

theorem notConflict_of_lossReport (e : Event) (h : e.isLossReport = true) :
    e.isConflict = false := by
  cases e <;> simp_all [Event.isLossReport, Event.isConflict]

theorem notConflict_of_writeBytes (e : Event) (h : e.isWriteBytes = true) :
    e.isConflict = false := by
  cases e <;> simp_all [Event.isWriteBytes, Event.isConflict]

theorem conflictNotices_logPacket (env : Env) (message : Message) (x : Ext) (p : Protocol) :
    conflictNotices (logPacket env message x p).2 = 0 :=
  conflictNotices_of_all notConflict_of_logging _ (logPacket_events env message x p)

theorem conflictNotices_dispatch (env : Env) (link : Link) (message : Message) (w : World) :
    conflictNotices (dispatch env link message w).2 = 0 := by
  obtain ⟨relay, hr, he⟩ := dispatch_events env link message w
  rw [he, conflictNotices_append, conflictNotices_append,
    conflictNotices_of_all notConflict_of_lossReport _ (updateLoss_events _ _ _ _),
    conflictNotices_of_all notConflict_of_writeBytes _ hr]
  rfl

theorem conflictNotices_conflictNotice (message : Message) (p : Protocol) :
    conflictNotices (conflictNotice message p)
      = (if (message.sysid : Int) = p.systemId then 1 else 0) := by
  unfold conflictNotice
  split <;> rfl

/-- How many conflict notices one packet emits. -/
theorem handleMessage_conflicts (env : Env) (link : Link) (message : Message) (x : Ext)
    (w : World) :
    conflictNotices (handleMessage env link message x w).2
      = (if isConflicting env w message = true then 1 else 0) := by
  have hs := (logPacket_counters env message x w.protocol).2.2.2
  by_cases hu : getUASForId w.uas message.sysid = true
  · have hc : isConflicting env w message = false := by simp [isConflicting, hu]
    rw [handleMessage_known env link message x w hu, hc]
    simp only [conflictNotices_append, conflictNotices_logPacket, conflictNotices_dispatch,
      Bool.false_eq_true, if_false]
  · have hu' : getUASForId w.uas message.sysid = false := by simpa using hu
    by_cases hk : message.msgid = env.MAVLINK_MSG_ID_HEARTBEAT
    · have hc : (if isConflicting env w message = true then 1 else 0)
          = (if (message.sysid : Int) = w.protocol.systemId then 1 else 0) := by
        by_cases hid : (message.sysid : Int) = w.protocol.systemId <;>
          simp [isConflicting, hu', hk, hid]
      rw [hc]
      by_cases hm : w.protocol.m_enable_version_check = true ∧
          env.mavlink_msg_heartbeat_decode message ≠ env.MAVLINK_VERSION
      · rw [handleMessage_mismatch env link message x w hu' hk hm.1 hm.2]
        have hn : conflictNotices
            (if w.protocol.versionMismatchIgnore = false then
              [Event.protocolStatusMessage (Notice.versionMismatch message.sysid
                (env.mavlink_msg_heartbeat_decode message) env.MAVLINK_VERSION)]
            else []) = 0 := by
          split <;> rfl
        simp only [conflictNotices_append, conflictNotices_logPacket,
          conflictNotices_conflictNotice, hs, hn, Nat.zero_add, Nat.add_zero]
      · rw [handleMessage_create env link message x w hu' hk hm]
        cases x.created
        · simp only [Bool.false_eq_true, if_false, conflictNotices_append,
            conflictNotices_logPacket, conflictNotices_conflictNotice, hs, Nat.zero_add]
          rfl
        · simp only [if_true, conflictNotices_append, conflictNotices_logPacket,
            conflictNotices_conflictNotice, conflictNotices_dispatch, hs, Nat.zero_add,
            Nat.add_zero]
          rfl
    · have hc : isConflicting env w message = false := by simp [isConflicting, hk]
      rw [handleMessage_unknown env link message x w hu' hk, hc]
      simp only [conflictNotices_logPacket, Bool.false_eq_true, if_false]

theorem handleMessage_systemId (env : Env) (link : Link) (message : Message) (x : Ext)
    (w : World) :
    (handleMessage env link message x w).1.protocol.systemId = w.protocol.systemId := by
  have hs := (logPacket_counters env message x w.protocol).2.2.2
  have hd : ∀ v : World, (dispatch env link message v).1.protocol.systemId
      = v.protocol.systemId := by
    intro v
    rw [dispatch_world]
    exact (updateLoss_flags _ _ _ _).2
  by_cases hu : getUASForId w.uas message.sysid = true
  · rw [handleMessage_known env link message x w hu]
    simp only [hd, hs]
  · have hu' : getUASForId w.uas message.sysid = false := by simpa using hu
    by_cases hk : message.msgid = env.MAVLINK_MSG_ID_HEARTBEAT
    · by_cases hm : w.protocol.m_enable_version_check = true ∧
          env.mavlink_msg_heartbeat_decode message ≠ env.MAVLINK_VERSION
      · rw [handleMessage_mismatch env link message x w hu' hk hm.1 hm.2]
        exact hs
      · rw [handleMessage_create env link message x w hu' hk hm]
        cases x.created
        · exact hs
        · simp only [if_true, hd, hs]
    · rw [handleMessage_unknown env link message x w hu' hk]
      exact hs

theorem handleMessage_keeps_devices (env : Env) (link : Link) (message : Message) (x : Ext)
    (w : World) (sysid : Nat) (h : getUASForId w.uas sysid = true) :
    getUASForId (handleMessage env link message x w).1.uas sysid = true := by
  rw [(handleMessage_creates env link message x w).2]
  split
  · rw [getUASForId_cons, h, Bool.or_true]
  · exact h

/-- Once the own system id has a UAS, received packets raise no conflict. -/
theorem packets_no_conflict (env : Env) (sysid : Nat) :
    ∀ (ps : List (Link × Message × Ext)) (w : World),
      (sysid : Int) = w.protocol.systemId → getUASForId w.uas sysid = true →
        conflictNotices (run env (packets ps) w).2 = 0 := by
  intro ps
  induction ps with
  | nil => intro w _ _; rfl
  | cons t rest ih =>
    intro w hid hu
    have hc : isConflicting env w t.2.1 = false := by
      simp only [isConflicting, decide_eq_false_iff_not]
      rintro ⟨h1, _, h3⟩
      have : t.2.1.sysid = sysid := by omega
      rw [this, hu] at h1
      exact absurd h1 (by decide)
    have hrest := ih (handleMessage env t.1 t.2.1 t.2.2 w).1
      (by rw [handleMessage_systemId]; exact hid)
      (handleMessage_keeps_devices env t.1 t.2.1 t.2.2 w sysid hu)
    simp only [packets, List.map_cons, run, step, conflictNotices_append,
      handleMessage_conflicts, hc, Bool.false_eq_true, if_false, Nat.zero_add]
    exact hrest

set_option maxRecDepth 200000 in
/-- Against C18 as stated: two heartbeats that carry the own system id 255
and a protocol version other than the expected one are both dropped by the
version check, and each of them raises the conflict notice. -/
theorem conflict_notice_counterexample :
    conflictNotices (run sampleEnv
        (packets [(linkA, heartbeat 255 1 0 3, sampleExt),
                  (linkA, heartbeat 255 1 1 3, sampleExt)]) freshWorld).2 = 2 ∧
    mismatchNotices (run sampleEnv
        (packets [(linkA, heartbeat 255 1 0 3, sampleExt),
                  (linkA, heartbeat 255 1 1 3, sampleExt)]) freshWorld).2 = 1 := by
  decide

/-- C18 (amended): the "SYSTEM ID CONFLICT!" status message is emitted once
for every received identification packet whose source-id equals the own
system id and has no UAS at lookup time, and for no other packet.  Over a
sequence of received packets it is therefore emitted exactly once when the
first such packet leads to the creation of the UAS, and never while the own
system id has a UAS; it is repeated at every such packet that is dropped by
the version check or for which the factory returns none. -/
theorem conflict_notice_per_packet (env : Env) (link : Link) (message : Message) (x : Ext)
    (w : World) (rest : List (Link × Message × Ext)) :
    conflictNotices (handleMessage env link message x w).2
      = (if isConflicting env w message = true then 1 else 0) ∧
    (isConflicting env w message = true → attributed env w message x = true →
      conflictNotices (run env (packets ((link, message, x) :: rest)) w).2 = 1) ∧
    (∀ sysid : Nat, (sysid : Int) = w.protocol.systemId → getUASForId w.uas sysid = true →
      conflictNotices (run env (packets ((link, message, x) :: rest)) w).2 = 0) := by
  refine ⟨handleMessage_conflicts env link message x w, ?_, ?_⟩
  · intro hc ha
    have hid : (message.sysid : Int) = w.protocol.systemId := by
      simp only [isConflicting, decide_eq_true_eq] at hc
      exact hc.2.2
    have hrest := packets_no_conflict env message.sysid rest
      (handleMessage env link message x w).1
      (by rw [handleMessage_systemId]; exact hid)
      (attributed_registered env link message x w ha)
    simp only [packets, List.map_cons, run, step, conflictNotices_append,
      handleMessage_conflicts, hc, if_true]
    have hrest' : conflictNotices
        (run env (List.map (fun t => Op.receive t.1 t.2.1 t.2.2) rest)
          (handleMessage env link message x w).1).2 = 0 := hrest
    rw [hrest']
  · intro sysid hid hu
    exact packets_no_conflict env sysid ((link, message, x) :: rest) w hid hu

set_option maxRecDepth 200000 in
theorem conflict_notice_per_packet_witness :
    (isConflicting sampleEnv freshWorld (heartbeat 255 1 0 2) = true ∧
      attributed sampleEnv freshWorld (heartbeat 255 1 0 2) sampleExt = true) ∧
    conflictNotices (run sampleEnv
        (packets ((linkA, heartbeat 255 1 0 2, sampleExt)
          :: [(linkA, heartbeat 255 1 1 2, sampleExt)])) freshWorld).2 = 1 :=
  ⟨⟨by decide, by decide⟩,
   (conflict_notice_per_packet sampleEnv linkA (heartbeat 255 1 0 2) sampleExt freshWorld
      [(linkA, heartbeat 255 1 1 2, sampleExt)]).2.1 (by decide) (by decide)⟩


/-! ### The log record -/

/-- The layout of the array handed to `QFile::write`: fixed length, the time
stamp, the wire bytes, and then whatever the stack array held. -/
theorem logRecord_layout (env : Env) (message : Message) (x : Ext) :
    (logRecord env message x).length = env.MAVLINK_MAX_PACKET_LEN + 8 ∧
    (∀ i, i < 8 →
      (logRecord env message x).getD i 0 = (timeBytes x.groundTimeUsecs).getD i 0) ∧
    (∀ i, i < (env.mavlink_msg_to_send_buffer message).length →
      8 + i < env.MAVLINK_MAX_PACKET_LEN + 8 →
      (logRecord env message x).getD (8 + i) 0
        = (env.mavlink_msg_to_send_buffer message).getD i 0) ∧
    (∀ i, 8 + (env.mavlink_msg_to_send_buffer message).length ≤ i →
      i < env.MAVLINK_MAX_PACKET_LEN + 8 →
      (logRecord env message x).getD i 0 = x.stackBytes i) := by
  refine ⟨by simp [logRecord], ?_, ?_, ?_⟩
  · intro i hi
    have hlt : i < env.MAVLINK_MAX_PACKET_LEN + 8 := by omega
    simp [logRecord, List.getD_eq_getElem?_getD, List.getElem?_map, List.getElem?_range hlt, hi]
  · intro i hi hlt
    have h8 : ¬ (8 + i < 8) := by omega
    simp [logRecord, List.getD_eq_getElem?_getD, List.getElem?_map, List.getElem?_range hlt, hi]
  · intro i hi hlt
    have h8 : ¬ (i < 8) := by omega
    have hw : ¬ (i < 8 + (env.mavlink_msg_to_send_buffer message).length) := by omega
    simp [logRecord, List.getD_eq_getElem?_getD, List.getElem?_map, List.getElem?_range hlt,
      h8, hw]

set_option maxRecDepth 1000000 in
/-- C19, the code at the failing input: with logging on, a six-byte packet
and a stack array that holds the byte 170, the record written to the log
has the fixed length 271 and starts with the time stamp and the wire bytes,
but its remaining 257 bytes are 170, not zero. -/
theorem log_padding_uninitialised :
    (handleMessage sampleEnv linkA (statusText 1 1 0) dirtyStack busyWorld).2.filter
        Event.isLogWrite
      = [Event.logWrite "packetlog.mavlink"
          ([64, 66, 15, 0, 0, 0, 0, 0] ++ [85, 0, 0, 1, 1, 254] ++ List.replicate 257 170)] := by
  decide


/-! ### A short write to the log -/

theorem logPacket_off (env : Env) (message : Message) (x : Ext) (p : Protocol)
    (h : p.m_loggingEnabled = false) : logPacket env message x p = (p, []) := by
  unfold logPacket
  cases hf : p.m_logfile <;> simp [h]

theorem logPacket_short (env : Env) (message : Message) (x : Ext) (p : Protocol) (f : QFile)
    (hen : p.m_loggingEnabled = true) (hf : p.m_logfile = some f)
    (hshort : x.written < ((env.MAVLINK_MAX_PACKET_LEN + 8 : Nat) : Int)) :
    logPacket env message x p =
      ({ p with m_loggingEnabled := false, m_logfile := none },
       [Event.logWrite f.fileName ((logRecord env message x).take x.written.toNat),
        Event.protocolStatusMessage (Notice.loggingFailed f.fileName)]
         ++ (if f.isOpen = true then [Event.logClose f.fileName] else [])
         ++ [Event.loggingChanged false]) := by
  unfold logPacket
  simp only [hf, hen, if_true, hshort, enableLogging, Bool.false_eq_true, if_false, bne_iff_ne,
    ne_eq, not_false_eq_true, Prod.mk.injEq]
  exact ⟨trivial, by simp [List.append_assoc]⟩

/-- The part of `handleMessage` after the logging block does not look at the
logging members: if the logging block leaves the protocol object in a state
in which it is idle, the rest is what `handleMessage` does from that state. -/
theorem handleMessage_after_logging (env : Env) (link : Link) (message : Message) (x : Ext)
    (w : World) (q : Protocol) (hq : (logPacket env message x w.protocol).1 = q)
    (hidle : logPacket env message x q = (q, [])) :
    handleMessage env link message x w =
      ((handleMessage env link message x { w with protocol := q }).1,
       (logPacket env message x w.protocol).2
         ++ (handleMessage env link message x { w with protocol := q }).2) := by
  simp only [handleMessage, hq, hidle, List.nil_append]
  split
  · split
    · split <;> simp [List.append_assoc]
    · split <;> simp [List.append_assoc]
  · split <;> simp

theorem routing_of_lossReport (e : Event) (h : e.isLossReport = true) :
    e.isRouting = true := by
  cases e <;> simp_all [Event.isLossReport, Event.isRouting, Event.isLogging]

theorem routing_of_writeBytes (e : Event) (h : e.isWriteBytes = true) :
    e.isRouting = true := by
  cases e <;> simp_all [Event.isWriteBytes, Event.isRouting, Event.isLogging]

theorem conflictNotice_routing (message : Message) (p : Protocol) :
    (conflictNotice message p).all Event.isRouting = true := by
  unfold conflictNotice
  split <;> rfl

theorem dispatch_routing (env : Env) (link : Link) (message : Message) (w : World) :
    (dispatch env link message w).2.all Event.isRouting = true := by
  obtain ⟨relay, hr, he⟩ := dispatch_events env link message w
  rw [he]
  simp only [List.all_append, all_of_all routing_of_lossReport _ (updateLoss_events _ _ _ _),
    all_of_all routing_of_writeBytes _ hr, Bool.and_true, Bool.true_and]
  rfl

/-- With logging off, a packet produces no event of the logging code. -/
theorem handleMessage_off_routing (env : Env) (link : Link) (message : Message) (x : Ext)
    (w : World) (h : w.protocol.m_loggingEnabled = false) :
    (handleMessage env link message x w).2.all Event.isRouting = true := by
  have hl := logPacket_off env message x w.protocol h
  by_cases hu : getUASForId w.uas message.sysid = true
  · rw [handleMessage_known env link message x w hu, hl]
    simp only [List.nil_append, dispatch_routing]
  · have hu' : getUASForId w.uas message.sysid = false := by simpa using hu
    by_cases hk : message.msgid = env.MAVLINK_MSG_ID_HEARTBEAT
    · by_cases hm : w.protocol.m_enable_version_check = true ∧
          env.mavlink_msg_heartbeat_decode message ≠ env.MAVLINK_VERSION
      · rw [handleMessage_mismatch env link message x w hu' hk hm.1 hm.2, hl]
        simp only [List.nil_append, List.all_append, conflictNotice_routing, Bool.true_and]
        split <;> rfl
      · rw [handleMessage_create env link message x w hu' hk hm, hl]
        cases x.created
        · simp only [Bool.false_eq_true, if_false, List.nil_append, List.all_append,
            conflictNotice_routing, Bool.true_and]
          rfl
        · simp only [if_true, List.nil_append, List.all_append, conflictNotice_routing,
            dispatch_routing, Bool.true_and, Bool.and_true]
          rfl
    · rw [handleMessage_unknown env link message x w hu' hk, hl]
      rfl

/-- The logging members after a packet are those the logging block left. -/
theorem handleMessage_logging_members (env : Env) (link : Link) (message : Message) (x : Ext)
    (w : World) :
    (handleMessage env link message x w).1.protocol.m_loggingEnabled
      = (logPacket env message x w.protocol).1.m_loggingEnabled ∧
    (handleMessage env link message x w).1.protocol.m_logfile
      = (logPacket env message x w.protocol).1.m_logfile := by
  have hd : ∀ v : World,
      (dispatch env link message v).1.protocol.m_loggingEnabled = v.protocol.m_loggingEnabled ∧
      (dispatch env link message v).1.protocol.m_logfile = v.protocol.m_logfile := by
    intro v
    rw [dispatch_world]
    constructor <;> (simp only; rw [updateLoss_eq])
  by_cases hu : getUASForId w.uas message.sysid = true
  · rw [handleMessage_known env link message x w hu]
    exact hd _
  · have hu' : getUASForId w.uas message.sysid = false := by simpa using hu
    by_cases hk : message.msgid = env.MAVLINK_MSG_ID_HEARTBEAT
    · by_cases hm : w.protocol.m_enable_version_check = true ∧
          env.mavlink_msg_heartbeat_decode message ≠ env.MAVLINK_VERSION
      · rw [handleMessage_mismatch env link message x w hu' hk hm.1 hm.2]
        exact ⟨rfl, rfl⟩
      · rw [handleMessage_create env link message x w hu' hk hm]
        cases x.created
        · exact ⟨rfl, rfl⟩
        · exact hd _
    · rw [handleMessage_unknown env link message x w hu' hk]
      exact ⟨rfl, rfl⟩

theorem notLogWrite_of_routing (e : Event) (h : e.isRouting = true) :
    e.isLogWrite = false ∧ e.isLoggingFailed = false := by
  cases e with
  | protocolStatusMessage n =>
    cases n <;> simp_all [Event.isRouting, Event.isLogging, Event.isLogWrite,
      Event.isLoggingFailed]
  | _ => simp_all [Event.isRouting, Event.isLogging, Event.isLogWrite, Event.isLoggingFailed]

/-- Closing a file and announcing a change are the only events of
`enableLogging(false)`. -/
theorem enableLogging_false (openOk : Bool) (p : Protocol) :
    (enableLogging false openOk p).1.m_loggingEnabled = false ∧
    (enableLogging false openOk p).1.m_logfile = none ∧
    (enableLogging false openOk p).2.filter Event.isLogWrite = [] ∧
    (enableLogging false openOk p).2.filter Event.isLoggingFailed = [] := by
  unfold enableLogging
  cases hf : p.m_logfile with
  | none =>
    cases hl : p.m_loggingEnabled <;> simp [hf, Event.isLogWrite, Event.isLoggingFailed]
  | some f =>
    cases hl : p.m_loggingEnabled <;> cases ho : f.isOpen <;>
      simp [ho, Event.isLogWrite, Event.isLoggingFailed]

theorem setLogfileName_off (filename : String) (openOk : Bool) (p : Protocol)
    (hoff : p.m_loggingEnabled = false) :
    (setLogfileName filename openOk p).1.m_loggingEnabled = false ∧
    (setLogfileName filename openOk p).2.filter Event.isLogWrite = [] ∧
    (setLogfileName filename openOk p).2.filter Event.isLoggingFailed = [] := by
  have hc : ∀ g : Event → Bool, (∀ n, g (Event.logClose n) = false) →
      (match p.m_logfile with
        | some f => if f.isOpen = true then [Event.logClose f.fileName] else []
        | none => []).filter g = [] := by
    intro g hg
    cases p.m_logfile with
    | none => rfl
    | some f => cases hf : f.isOpen <;> simp [hg]
  simp only [setLogfileName, List.filter_append]
  rw [hoff]
  refine ⟨(enableLogging_false openOk _).1, ?_, ?_⟩
  · rw [(enableLogging_false openOk _).2.2.1, hc Event.isLogWrite (fun _ => rfl)]
    rfl
  · rw [(enableLogging_false openOk _).2.2.2, hc Event.isLoggingFailed (fun _ => rfl)]
    rfl

/-- One operation other than `enableLogging(true)` keeps logging off. -/
theorem step_keeps_logging_off (env : Env) (w : World) (op : Op)
    (hoff : w.protocol.m_loggingEnabled = false) (hop : op.enablesLogging = false) :
    (step env w op).1.protocol.m_loggingEnabled = false ∧
    (step env w op).2.filter Event.isLogWrite = [] ∧
    (step env w op).2.filter Event.isLoggingFailed = [] := by
  cases op with
  | receive link message x =>
    have hr := handleMessage_off_routing env link message x w hoff
    have hm := (handleMessage_logging_members env link message x w).1
    rw [logPacket_off env message x w.protocol hoff] at hm
    exact ⟨hm.trans hoff,
      filter_nil_of_all (fun e h => (notLogWrite_of_routing e h).1) _ hr,
      filter_nil_of_all (fun e h => (notLogWrite_of_routing e h).2) _ hr⟩
  | enableVersionCheck enabled => exact ⟨hoff, rfl, rfl⟩
  | enableMultiplexing enabled =>
    refine ⟨hoff, ?_, ?_⟩ <;>
      (simp only [step, World.onProtocol, enableMultiplexing]; split <;> rfl)
  | enableHeartbeats enabled => exact ⟨hoff, rfl, rfl⟩
  | enableLogging enabled openOk =>
    cases enabled with
    | true => simp [Op.enablesLogging] at hop
    | false =>
      have h := enableLogging_false openOk w.protocol
      exact ⟨h.1, h.2.2.1, h.2.2.2⟩
  | setLogfileName filename openOk =>
    exact setLogfileName_off filename openOk w.protocol hoff
  | setSystemId id => exact ⟨hoff, rfl, rfl⟩
  | setLinks links => exact ⟨hoff, rfl, rfl⟩

theorem run_keeps_logging_off (env : Env) : ∀ (ops : List Op) (w : World),
    w.protocol.m_loggingEnabled = false →
    ops.all (fun op => !op.enablesLogging) = true →
      (run env ops w).1.protocol.m_loggingEnabled = false ∧
      (run env ops w).2.filter Event.isLogWrite = [] ∧
      (run env ops w).2.filter Event.isLoggingFailed = [] := by
  intro ops
  induction ops with
  | nil => intro w hoff _; exact ⟨hoff, rfl, rfl⟩
  | cons op rest ih =>
    intro w hoff hall
    simp only [List.all_cons, Bool.and_eq_true, Bool.not_eq_true'] at hall
    have hs := step_keeps_logging_off env w op hoff hall.1
    have hr := ih (step env w op).1 hs.1 hall.2
    simp only [run, List.filter_append, hs.2.1, hs.2.2, hr.2.1, hr.2.2, List.append_nil]
    exact ⟨hr.1, trivial, trivial⟩

/-- C20: when logging is on and the write of the log record returns fewer
bytes than the fixed record length, then (i) the processing of the packet
emits exactly one "MAVLink Logging failed" status message; (ii) afterwards
logging is off and the log file object is gone, and over any later packets
and setter calls other than `enableLogging(true)` logging stays off, nothing
is written to a log and no further failure is reported; (iii) the world the
packet leaves and every event it produces after the logging block (device
lookup and creation, counters, loss report, `messageReceived`, relay) are
exactly those it leaves and produces when `enableLogging(false)` had been
called before it, and the logging block itself produces only logging
events. -/
theorem short_write_disables_logging (env : Env) (link : Link) (message : Message) (x : Ext)
    (w : World) (f : QFile) (hen : w.protocol.m_loggingEnabled = true)
    (hf : w.protocol.m_logfile = some f)
    (hshort : x.written < ((env.MAVLINK_MAX_PACKET_LEN + 8 : Nat) : Int)) :
    (handleMessage env link message x w).2.filter Event.isLoggingFailed
      = [Event.protocolStatusMessage (Notice.loggingFailed f.fileName)] ∧
    ((handleMessage env link message x w).1.protocol.m_loggingEnabled = false ∧
      (handleMessage env link message x w).1.protocol.m_logfile = none ∧
      ∀ ops : List Op, ops.all (fun op => !op.enablesLogging) = true →
        (run env ops (handleMessage env link message x w).1).1.protocol.m_loggingEnabled
          = false ∧
        (run env ops (handleMessage env link message x w).1).2.filter Event.isLogWrite = [] ∧
        (run env ops (handleMessage env link message x w).1).2.filter Event.isLoggingFailed
          = []) ∧
    ((handleMessage env link message x w).1
        = (handleMessage env link message x (loggingOff w)).1 ∧
      (handleMessage env link message x w).2
        = (logPacket env message x w.protocol).2
            ++ (handleMessage env link message x (loggingOff w)).2 ∧
      (logPacket env message x w.protocol).2.all Event.isLogging = true ∧
      (handleMessage env link message x (loggingOff w)).2.all Event.isRouting = true) := by
  have hs := logPacket_short env message x w.protocol f hen hf hshort
  have hq : (logPacket env message x w.protocol).1 = (loggingOff w).protocol := by
    rw [hs]; rfl
  have hidle : logPacket env message x (loggingOff w).protocol = ((loggingOff w).protocol, []) :=
    logPacket_off env message x _ rfl
  have hsplit := handleMessage_after_logging env link message x w _ hq hidle
  have hw : ({ w with protocol := (loggingOff w).protocol } : World) = loggingOff w := rfl
  rw [hw] at hsplit
  have hroute := handleMessage_off_routing env link message x (loggingOff w) rfl
  have hmem := handleMessage_logging_members env link message x w
  rw [hq] at hmem
  have hoff : (handleMessage env link message x w).1.protocol.m_loggingEnabled = false :=
    hmem.1
  refine ⟨?_, ⟨hoff, hmem.2, fun ops hall => run_keeps_logging_off env ops _ hoff hall⟩,
    ?_, ?_, logPacket_events env message x w.protocol, hroute⟩
  · rw [hsplit]
    simp only [List.filter_append,
      filter_nil_of_all (fun e h => (notLogWrite_of_routing e h).2) _ hroute, List.append_nil]
    rw [hs]
    cases f.isOpen <;> simp [Event.isLoggingFailed]
  · rw [hsplit]
  · rw [hsplit]

set_option maxRecDepth 200000 in
theorem short_write_disables_logging_witness :
    (busyWorld.protocol.m_loggingEnabled = true ∧
      busyWorld.protocol.m_logfile = some { fileName := "packetlog.mavlink", isOpen := true } ∧
      shortWrite.written < ((sampleEnv.MAVLINK_MAX_PACKET_LEN + 8 : Nat) : Int)) ∧
    (handleMessage sampleEnv linkA (statusText 1 1 0) shortWrite busyWorld).2.filter
        Event.isLoggingFailed
      = [Event.protocolStatusMessage (Notice.loggingFailed "packetlog.mavlink")] ∧
    (handleMessage sampleEnv linkA (statusText 1 1 0) shortWrite busyWorld).2.filter
        Event.isRouting
      = [Event.messageReceived linkA (statusText 1 1 0),
         Event.writeBytes linkB [85, 0, 0, 255, 0, 254],
         Event.writeBytes linkC [85, 0, 0, 255, 0, 254]] :=
  ⟨⟨by decide, by decide, by decide⟩,
   (short_write_disables_logging sampleEnv linkA (statusText 1 1 0) shortWrite busyWorld
      { fileName := "packetlog.mavlink", isOpen := true } (by decide) (by decide)
      (by decide)).1,
   by decide⟩


/-! ### Turning logging off and on -/

theorem logPacket_full (env : Env) (message : Message) (x : Ext) (p : Protocol) (f : QFile)
    (hen : p.m_loggingEnabled = true) (hf : p.m_logfile = some f)
    (hfull : ((env.MAVLINK_MAX_PACKET_LEN + 8 : Nat) : Int) ≤ x.written) :
    logPacket env message x p = (p, [Event.logWrite f.fileName (logRecord env message x)]) := by
  have hnot : ¬ (x.written < ((env.MAVLINK_MAX_PACKET_LEN + 8 : Nat) : Int)) := by omega
  have hlen : (logRecord env message x).length ≤ x.written.toNat := by
    rw [(logRecord_layout env message x).1]
    omega
  unfold logPacket
  simp only [hf, hen, if_true, hnot, if_false, List.take_of_length_le hlen]

set_option maxRecDepth 200000 in
/-- Against C21 as stated: after `enableLogging(false)` and then
`enableLogging(true)` the flag is true although no log file object exists,
and a decoded packet is not written to any log. -/
theorem reenable_logging_counterexample :
    (enableLogging true true (enableLogging false true busyWorld.protocol).1).1.m_loggingEnabled
      = true ∧
    (enableLogging true true (enableLogging false true busyWorld.protocol).1).1.m_logfile
      = none ∧
    (logPacket sampleEnv (statusText 1 1 0) sampleExt
      (enableLogging true true (enableLogging false true busyWorld.protocol).1).1).2 = [] := by
  decide

/-- C21 (amended): after `enableLogging(false)` returns, the flag is false
and the log file object is deleted, so no log target is open.  After
`enableLogging(true)` returns on a state that has a log file object whose
`open` succeeds, the flag is true, the file is open, and a decoded packet is
appended to it; on a state without a log file object the flag is true but
nothing is opened and no packet is logged.  In particular
`enableLogging(false)` followed by `enableLogging(true)` leaves no log file
object and logs nothing, until `setLogfileName` names a target again, which
is then opened and written to.  (The case of a failing `open` is not part of
this statement.) -/
theorem logging_toggle (env : Env) (message : Message) (x : Ext) (p : Protocol) :
    (∀ openOk : Bool,
      (enableLogging false openOk p).1.m_loggingEnabled = false ∧
      (enableLogging false openOk p).1.m_logfile = none) ∧
    (∀ f : QFile, p.m_logfile = some f →
      (enableLogging true true p).1.m_loggingEnabled = true ∧
      (enableLogging true true p).1.m_logfile = some { f with isOpen := true } ∧
      (((env.MAVLINK_MAX_PACKET_LEN + 8 : Nat) : Int) ≤ x.written →
        (logPacket env message x (enableLogging true true p).1).2
          = [Event.logWrite f.fileName (logRecord env message x)])) ∧
    (∀ openOk : Bool, p.m_logfile = none →
      (enableLogging true openOk p).1.m_loggingEnabled = true ∧
      (enableLogging true openOk p).1.m_logfile = none ∧
      (logPacket env message x (enableLogging true openOk p).1).2 = []) ∧
    (∀ (o1 o2 : Bool) (filename : String),
      (enableLogging true o2 (enableLogging false o1 p).1).1.m_loggingEnabled = true ∧
      (enableLogging true o2 (enableLogging false o1 p).1).1.m_logfile = none ∧
      (logPacket env message x (enableLogging true o2 (enableLogging false o1 p).1).1).2
        = [] ∧
      (setLogfileName filename true
          (enableLogging true o2 (enableLogging false o1 p).1).1).1.m_logfile
        = some { fileName := filename, isOpen := true } ∧
      (((env.MAVLINK_MAX_PACKET_LEN + 8 : Nat) : Int) ≤ x.written →
        (logPacket env message x
          (setLogfileName filename true
            (enableLogging true o2 (enableLogging false o1 p).1).1).1).2
          = [Event.logWrite filename (logRecord env message x)])) := by
  have hoff : ∀ openOk : Bool,
      (enableLogging false openOk p).1.m_loggingEnabled = false ∧
      (enableLogging false openOk p).1.m_logfile = none :=
    fun openOk => ⟨(enableLogging_false openOk p).1, (enableLogging_false openOk p).2.1⟩
  have hnone : ∀ (q : Protocol) (openOk : Bool), q.m_logfile = none →
      (enableLogging true openOk q).1.m_loggingEnabled = true ∧
      (enableLogging true openOk q).1.m_logfile = none ∧
      (logPacket env message x (enableLogging true openOk q).1).2 = [] := by
    intro q openOk hq
    have h1 : (enableLogging true openOk q).1.m_logfile = none := by
      simp [enableLogging, hq]
    refine ⟨by simp [enableLogging], h1, ?_⟩
    unfold logPacket
    rw [h1]
  have hsome : ∀ (q : Protocol) (f : QFile), q.m_logfile = some f →
      (enableLogging true true q).1.m_loggingEnabled = true ∧
      (enableLogging true true q).1.m_logfile = some { f with isOpen := true } ∧
      (((env.MAVLINK_MAX_PACKET_LEN + 8 : Nat) : Int) ≤ x.written →
        (logPacket env message x (enableLogging true true q).1).2
          = [Event.logWrite f.fileName (logRecord env message x)]) := by
    intro q f hq
    have h1 : (enableLogging true true q).1.m_loggingEnabled = true := by
      simp [enableLogging]
    have h2 : (enableLogging true true q).1.m_logfile = some { f with isOpen := true } := by
      simp [enableLogging, hq]
    refine ⟨h1, h2, fun hfull => ?_⟩
    rw [logPacket_full env message x _ _ h1 h2 hfull]
  refine ⟨hoff, hsome p, fun openOk => hnone p openOk, ?_⟩
  intro o1 o2 filename
  have hq := hnone (enableLogging false o1 p).1 o2 (hoff o1).2
  have hset : (setLogfileName filename true
      (enableLogging true o2 (enableLogging false o1 p).1).1)
      = enableLogging true true
          { (enableLogging true o2 (enableLogging false o1 p).1).1 with
            m_logfile := some { fileName := filename, isOpen := false } } := by
    simp only [setLogfileName, hq.1, hq.2.1, List.nil_append]
  have hs := hsome
    { (enableLogging true o2 (enableLogging false o1 p).1).1 with
      m_logfile := some { fileName := filename, isOpen := false } }
    { fileName := filename, isOpen := false } rfl
  refine ⟨hq.1, hq.2.1, hq.2.2, ?_, ?_⟩
  · rw [hset]; exact hs.2.1
  · rw [hset]; exact hs.2.2

set_option maxRecDepth 200000 in
theorem logging_toggle_witness :
    busyWorld.protocol.m_logfile = some { fileName := "packetlog.mavlink", isOpen := true } ∧
    (enableLogging true true busyWorld.protocol).1.m_logfile
      = some { fileName := "packetlog.mavlink", isOpen := true } ∧
    (logWrites (logPacket sampleEnv (statusText 1 1 0) sampleExt
      (enableLogging true true busyWorld.protocol).1).2 = 1) :=
  ⟨by decide,
   ((logging_toggle sampleEnv (statusText 1 1 0) sampleExt busyWorld.protocol).2.1
      { fileName := "packetlog.mavlink", isOpen := true } (by decide)).2.1,
   by decide⟩


/-! ### The byte loop -/

theorem logWrites_append (a b : List Event) :
    logWrites (a ++ b) = logWrites a + logWrites b := by
  simp [logWrites, List.filter_append]

theorem logWrites_routing (l : List Event) (h : l.all Event.isRouting = true) :
    logWrites l = 0 := by
  unfold logWrites
  rw [filter_nil_of_all (fun e he => (notLogWrite_of_routing e he).1) l h]
  rfl

/-- The events of one packet are those of the logging block (lines 191–206)
followed by events of the gate and the dispatch only. -/
theorem handleMessage_split (env : Env) (link : Link) (message : Message) (x : Ext)
    (w : World) :
    ∃ rest, (handleMessage env link message x w).2
        = (logPacket env message x w.protocol).2 ++ rest ∧
      rest.all Event.isRouting = true := by
  by_cases hu : getUASForId w.uas message.sysid = true
  · rw [handleMessage_known env link message x w hu]
    exact ⟨_, rfl, dispatch_routing _ _ _ _⟩
  · have hu' : getUASForId w.uas message.sysid = false := by simpa using hu
    by_cases hk : message.msgid = env.MAVLINK_MSG_ID_HEARTBEAT
    · by_cases hm : w.protocol.m_enable_version_check = true ∧
          env.mavlink_msg_heartbeat_decode message ≠ env.MAVLINK_VERSION
      · rw [handleMessage_mismatch env link message x w hu' hk hm.1 hm.2]
        refine ⟨_, List.append_assoc _ _ _, ?_⟩
        simp only [List.all_append, conflictNotice_routing, Bool.true_and]
        split <;> rfl
      · rw [handleMessage_create env link message x w hu' hk hm]
        cases x.created
        · simp only [Bool.false_eq_true, if_false]
          refine ⟨_, List.append_assoc _ _ _, ?_⟩
          simp only [List.all_append, conflictNotice_routing, Bool.true_and]
          rfl
        · simp only [if_true]
          refine ⟨conflictNotice message (logPacket env message x w.protocol).1
            ++ [Event.createUAS link message.sysid
                (env.mavlink_msg_heartbeat_decode message) true]
            ++ (dispatch env link message
              { w with protocol := (logPacket env message x w.protocol).1
                       uas := message.sysid :: w.uas }).2, by simp [List.append_assoc], ?_⟩
          simp only [List.all_append, conflictNotice_routing, dispatch_routing, Bool.true_and,
            Bool.and_true]
          rfl
    · rw [handleMessage_unknown env link message x w hu' hk]
      exact ⟨[], by simp, rfl⟩

/-- With logging on and a log file object, the logging block starts with the
write of the record and writes nothing else. -/
theorem logPacket_on (env : Env) (message : Message) (x : Ext) (p : Protocol) (f : QFile)
    (hen : p.m_loggingEnabled = true) (hf : p.m_logfile = some f) :
    ∃ tail, (logPacket env message x p).2
        = Event.logWrite f.fileName ((logRecord env message x).take x.written.toNat) :: tail ∧
      tail.filter Event.isLogWrite = [] := by
  by_cases hshort : x.written < ((env.MAVLINK_MAX_PACKET_LEN + 8 : Nat) : Int)
  · rw [logPacket_short env message x p f hen hf hshort]
    refine ⟨[Event.protocolStatusMessage (Notice.loggingFailed f.fileName)]
         ++ (if f.isOpen = true then [Event.logClose f.fileName] else [])
         ++ [Event.loggingChanged false], by simp, ?_⟩
    cases f.isOpen <;> rfl
  · refine ⟨[], ?_, rfl⟩
    unfold logPacket
    simp only [hf, hen, if_true, hshort, if_false]

theorem logPacket_logWrites_le (env : Env) (message : Message) (x : Ext) (p : Protocol) :
    logWrites (logPacket env message x p).2 ≤ 1 := by
  cases hf : p.m_logfile with
  | none =>
    have : logPacket env message x p = (p, []) := by
      unfold logPacket
      rw [hf]
    rw [this]
    exact Nat.zero_le _
  | some f =>
    cases hen : p.m_loggingEnabled with
    | false =>
      rw [logPacket_off env message x p hen]
      exact Nat.zero_le _
    | true =>
      obtain ⟨tail, ht, hn⟩ := logPacket_on env message x p f hen hf
      rw [ht]
      simp [logWrites, Event.isLogWrite, hn]

theorem handleMessage_logWrites_le (env : Env) (link : Link) (message : Message) (x : Ext)
    (w : World) : logWrites (handleMessage env link message x w).2 ≤ 1 := by
  obtain ⟨rest, hr, ha⟩ := handleMessage_split env link message x w
  rw [hr, logWrites_append, logWrites_routing rest ha]
  exact logPacket_logWrites_le env message x w.protocol

theorem run_packets_logWrites_le (env : Env) :
    ∀ (ps : List (Link × Message × Ext)) (w : World),
      logWrites (run env (packets ps) w).2 ≤ ps.length := by
  intro ps
  induction ps with
  | nil => intro w; exact Nat.le_refl _
  | cons t rest ih =>
    intro w
    simp only [packets, List.map_cons, run, step, List.length_cons]
    rw [logWrites_append]
    have h1 := handleMessage_logWrites_le env t.1 t.2.1 t.2.2 w
    have h2 := ih (handleMessage env t.1 t.2.1 t.2.2 w).1
    simp only [packets] at h2
    omega

/-- A complete write leaves the logging members as they were. -/
theorem handleMessage_full_keeps (env : Env) (link : Link) (message : Message) (x : Ext)
    (w : World) (f : QFile)
    (hen : w.protocol.m_loggingEnabled = true) (hf : w.protocol.m_logfile = some f)
    (hfull : ((env.MAVLINK_MAX_PACKET_LEN + 8 : Nat) : Int) ≤ x.written) :
    (handleMessage env link message x w).1.protocol.m_loggingEnabled = true ∧
    (handleMessage env link message x w).1.protocol.m_logfile = some f := by
  have h := handleMessage_logging_members env link message x w
  rw [logPacket_full env message x w.protocol f hen hf hfull] at h
  exact ⟨h.1.trans hen, h.2.trans hf⟩

theorem handleMessage_logWrites_on (env : Env) (link : Link) (message : Message) (x : Ext)
    (w : World) (f : QFile)
    (hen : w.protocol.m_loggingEnabled = true) (hf : w.protocol.m_logfile = some f) :
    ∃ rest, (handleMessage env link message x w).2
        = Event.logWrite f.fileName ((logRecord env message x).take x.written.toNat) :: rest ∧
      rest.filter Event.isLogWrite = [] := by
  obtain ⟨rest, hr, ha⟩ := handleMessage_split env link message x w
  obtain ⟨tail, ht, hn⟩ := logPacket_on env message x w.protocol f hen hf
  refine ⟨tail ++ rest, ?_, ?_⟩
  · rw [hr, ht]; rfl
  · rw [List.filter_append, hn,
      filter_nil_of_all (fun e he => (notLogWrite_of_routing e he).1) rest ha]
    rfl

theorem run_packets_logWrites_full (env : Env) (f : QFile) :
    ∀ (ps : List (Link × Message × Ext)) (w : World),
      w.protocol.m_loggingEnabled = true → w.protocol.m_logfile = some f →
      (∀ t ∈ ps, ((env.MAVLINK_MAX_PACKET_LEN + 8 : Nat) : Int) ≤ t.2.2.written) →
      logWrites (run env (packets ps) w).2 = ps.length := by
  intro ps
  induction ps with
  | nil => intro w _ _ _; rfl
  | cons t rest ih =>
    intro w hen hf hfull
    simp only [packets, List.map_cons, run, step, List.length_cons]
    rw [logWrites_append]
    have ht := hfull t (List.mem_cons_self _ _)
    have hk := handleMessage_full_keeps env t.1 t.2.1 t.2.2 w f hen hf ht
    obtain ⟨r, hr, hn⟩ := handleMessage_logWrites_on env t.1 t.2.1 t.2.2 w f hen hf
    have h2 := ih (handleMessage env t.1 t.2.1 t.2.2 w).1 hk.1 hk.2
      (fun u hu => hfull u (List.mem_cons_of_mem _ hu))
    simp only [packets] at h2
    rw [h2, hr]
    simp [logWrites, Event.isLogWrite, hn]
    omega

theorem receiveBytes_none (env : Env) (link : Link) (byte : Nat) (x : Ext)
    (rest : List (Nat × Ext)) (r : Receiver)
    (h : (env.mavlink_parse_char (r.channels link.id) byte).2 = none) :
    receiveBytes env link ((byte, x) :: rest) r =
      receiveBytes env link rest
        { world := r.world,
          channels := setChannel r.channels link.id
            (env.mavlink_parse_char (r.channels link.id) byte).1 } := by
  rw [receiveBytes]
  simp only [h]

theorem receiveBytes_some (env : Env) (link : Link) (byte : Nat) (x : Ext)
    (rest : List (Nat × Ext)) (r : Receiver) (message : Message)
    (h : (env.mavlink_parse_char (r.channels link.id) byte).2 = some message) :
    receiveBytes env link ((byte, x) :: rest) r =
      ((receiveBytes env link rest
          { world := (handleMessage env link message x r.world).1,
            channels := setChannel r.channels link.id
              (env.mavlink_parse_char (r.channels link.id) byte).1 }).1,
       (handleMessage env link message x r.world).2 ++
        (receiveBytes env link rest
          { world := (handleMessage env link message x r.world).1,
            channels := setChannel r.channels link.id
              (env.mavlink_parse_char (r.channels link.id) byte).1 }).2) := by
  rw [receiveBytes]
  simp only [h]

theorem decoded_none (env : Env) (link : Link) (byte : Nat) (x : Ext)
    (rest : List (Nat × Ext)) (channels : Nat → List Nat)
    (h : (env.mavlink_parse_char (channels link.id) byte).2 = none) :
    decoded env link ((byte, x) :: rest) channels =
      decoded env link rest
        (setChannel channels link.id (env.mavlink_parse_char (channels link.id) byte).1) := by
  rw [decoded]
  simp only [h]

theorem decoded_some (env : Env) (link : Link) (byte : Nat) (x : Ext)
    (rest : List (Nat × Ext)) (channels : Nat → List Nat) (message : Message)
    (h : (env.mavlink_parse_char (channels link.id) byte).2 = some message) :
    decoded env link ((byte, x) :: rest) channels =
      (link, message, x) :: decoded env link rest
        (setChannel channels link.id (env.mavlink_parse_char (channels link.id) byte).1) := by
  rw [decoded]
  simp only [h]

/-- The byte loop is the session of the packets the decoder completes. -/
theorem receiveBytes_run (env : Env) (link : Link) :
    ∀ (bytes : List (Nat × Ext)) (r : Receiver),
      (receiveBytes env link bytes r).1.world
        = (run env (packets (decoded env link bytes r.channels)) r.world).1 ∧
      (receiveBytes env link bytes r).2
        = (run env (packets (decoded env link bytes r.channels)) r.world).2 := by
  intro bytes
  induction bytes with
  | nil => intro r; exact ⟨rfl, rfl⟩
  | cons b rest ih =>
    intro r
    obtain ⟨byte, x⟩ := b
    cases hd : (env.mavlink_parse_char (r.channels link.id) byte).2 with
    | none =>
      rw [receiveBytes_none env link byte x rest r hd, decoded_none env link byte x rest _ hd]
      exact ih _
    | some message =>
      rw [receiveBytes_some env link byte x rest r message hd,
        decoded_some env link byte x rest _ message hd]
      simp only [packets, List.map_cons, run, step]
      have h := ih { world := (handleMessage env link message x r.world).1,
                     channels := setChannel r.channels link.id
                       (env.mavlink_parse_char (r.channels link.id) byte).1 }
      simp only [packets] at h
      exact ⟨h.1, by rw [h.2]⟩

theorem decoded_ext (env : Env) (link : Link) :
    ∀ (bytes : List (Nat × Ext)) (channels : Nat → List Nat) (t : Link × Message × Ext),
      t ∈ decoded env link bytes channels → ∃ b ∈ bytes, t.2.2 = b.2 := by
  intro bytes
  induction bytes with
  | nil => intro channels t ht; simp [decoded] at ht
  | cons b rest ih =>
    intro channels t ht
    obtain ⟨byte, x⟩ := b
    cases hd : (env.mavlink_parse_char (channels link.id) byte).2 with
    | none =>
      rw [decoded_none env link byte x rest _ hd] at ht
      obtain ⟨c, hc, he⟩ := ih _ t ht
      exact ⟨c, List.mem_cons_of_mem _ hc, he⟩
    | some message =>
      rw [decoded_some env link byte x rest _ message hd, List.mem_cons] at ht
      rcases ht with ht | ht
      · exact ⟨(byte, x), List.mem_cons_self _ _, by rw [ht]⟩
      · obtain ⟨c, hc, he⟩ := ih _ t ht
        exact ⟨c, List.mem_cons_of_mem _ hc, he⟩

theorem decoded_length_le (env : Env) (link : Link) :
    ∀ (bytes : List (Nat × Ext)) (channels : Nat → List Nat),
      (decoded env link bytes channels).length ≤ bytes.length := by
  intro bytes
  induction bytes with
  | nil => intro channels; exact Nat.le_refl _
  | cons b rest ih =>
    intro channels
    obtain ⟨byte, x⟩ := b
    cases hd : (env.mavlink_parse_char (channels link.id) byte).2 with
    | none =>
      rw [decoded_none env link byte x rest _ hd, List.length_cons]
      exact Nat.le_succ_of_le (ih _)
    | some message =>
      rw [decoded_some env link byte x rest _ message hd, List.length_cons, List.length_cons]
      exact Nat.succ_le_succ (ih _)

/-- One call on `b1 ++ b2` is the call on `b1` followed by the call on `b2`. -/
theorem receiveBytes_append (env : Env) (link : Link) :
    ∀ (b1 b2 : List (Nat × Ext)) (r : Receiver),
      receiveBytes env link (b1 ++ b2) r =
        ((receiveBytes env link b2 (receiveBytes env link b1 r).1).1,
         (receiveBytes env link b1 r).2
           ++ (receiveBytes env link b2 (receiveBytes env link b1 r).1).2) := by
  intro b1
  induction b1 with
  | nil => intro b2 r; simp [receiveBytes]
  | cons b rest ih =>
    intro b2 r
    obtain ⟨byte, x⟩ := b
    rw [List.cons_append]
    cases hd : (env.mavlink_parse_char (r.channels link.id) byte).2 with
    | none =>
      rw [receiveBytes_none env link byte x _ r hd, receiveBytes_none env link byte x _ r hd]
      exact ih b2 _
    | some message =>
      rw [receiveBytes_some env link byte x _ r message hd,
        receiveBytes_some env link byte x _ r message hd, ih b2 _]
      simp only [List.append_assoc]

theorem decoded_append (env : Env) (link : Link) :
    ∀ (b1 b2 : List (Nat × Ext)) (r : Receiver),
      decoded env link (b1 ++ b2) r.channels =
        decoded env link b1 r.channels
          ++ decoded env link b2 (receiveBytes env link b1 r).1.channels := by
  intro b1
  induction b1 with
  | nil => intro b2 r; simp [receiveBytes, decoded]
  | cons b rest ih =>
    intro b2 r
    obtain ⟨byte, x⟩ := b
    rw [List.cons_append]
    cases hd : (env.mavlink_parse_char (r.channels link.id) byte).2 with
    | none =>
      rw [receiveBytes_none env link byte x _ r hd, decoded_none env link byte x _ _ hd,
        decoded_none env link byte x _ _ hd]
      exact ih b2 { world := r.world, channels := setChannel r.channels link.id
                       (env.mavlink_parse_char (r.channels link.id) byte).1 }
    | some message =>
      rw [receiveBytes_some env link byte x _ r message hd,
        decoded_some env link byte x _ _ message hd,
        decoded_some env link byte x _ _ message hd, List.cons_append]
      have h := ih b2 { world := (handleMessage env link message x r.world).1,
                        channels := setChannel r.channels link.id
                          (env.mavlink_parse_char (r.channels link.id) byte).1 }
      simp only at h
      rw [h]


/-- C23: logging precedes the device gate.  With logging enabled and a log
file object present, the processing of a decoded packet starts with the write
of one record (the timestamp and the packet, as many bytes as the write
stored) and writes no second record, whatever the gate then decides: this
holds in particular for a packet from an unknown source that is not a
heartbeat and for a version-mismatched heartbeat.  For a whole call of
`receiveBytes` the events are those of the packets the decoder completed, in
order; there is at most one record per completed packet, exactly one per
completed packet when every write is complete, and none when the bytes
complete no packet. -/
theorem logged_before_gate (env : Env) (link : Link) (message : Message) (x : Ext)
    (w : World) (f : QFile)
    (hen : w.protocol.m_loggingEnabled = true) (hf : w.protocol.m_logfile = some f) :
    (∃ rest, (handleMessage env link message x w).2
        = Event.logWrite f.fileName ((logRecord env message x).take x.written.toNat) :: rest ∧
      rest.filter Event.isLogWrite = []) ∧
    logWrites (handleMessage env link message x w).2 = 1 ∧
    (attributed env w message x = false →
      logWrites (handleMessage env link message x w).2 = 1 ∧
      (handleMessage env link message x w).2.any Event.isMessageReceived = false) ∧
    (∀ (bytes : List (Nat × Ext)) (channels : Nat → List Nat),
      (receiveBytes env link bytes { world := w, channels := channels }).2
        = (run env (packets (decoded env link bytes channels)) w).2 ∧
      logWrites (receiveBytes env link bytes { world := w, channels := channels }).2
        ≤ (decoded env link bytes channels).length ∧
      ((∀ b ∈ bytes, ((env.MAVLINK_MAX_PACKET_LEN + 8 : Nat) : Int) ≤ b.2.written) →
        logWrites (receiveBytes env link bytes { world := w, channels := channels }).2
          = (decoded env link bytes channels).length) ∧
      (decoded env link bytes channels = [] →
        (receiveBytes env link bytes { world := w, channels := channels }).2 = [])) := by
  obtain ⟨rest, hr, hn⟩ := handleMessage_logWrites_on env link message x w f hen hf
  have hone : logWrites (handleMessage env link message x w).2 = 1 := by
    rw [hr]
    simp [logWrites, Event.isLogWrite, hn]
  refine ⟨⟨rest, hr, hn⟩, hone, fun ha => ⟨hone, ?_⟩, ?_⟩
  · have h := (handleMessage_received env link message x w).1
    rw [if_neg (by rw [ha]; exact Bool.false_ne_true), List.filter_eq_nil_iff] at h
    rw [List.any_eq_false]
    exact h
  · intro bytes channels
    have hrun := receiveBytes_run env link bytes { world := w, channels := channels }
    refine ⟨hrun.2, ?_, ?_, ?_⟩
    · rw [hrun.2]
      exact run_packets_logWrites_le env _ w
    · intro hfull
      rw [hrun.2]
      refine run_packets_logWrites_full env f _ w hen hf ?_
      intro t ht
      obtain ⟨b, hb, he⟩ := decoded_ext env link bytes channels t ht
      rw [he]
      exact hfull b hb
    · intro hd
      rw [hrun.2]
      simp only [hd]
      rfl

set_option maxRecDepth 200000 in
theorem logged_before_gate_witness :
    busyWorld.protocol.m_loggingEnabled = true ∧
    attributed sampleEnv busyWorld (statusText 7 1 0) sampleExt = false ∧
    logWrites (handleMessage sampleEnv linkA (statusText 7 1 0) sampleExt busyWorld).2 = 1 ∧
    attributed sampleEnv busyWorld (heartbeat 7 1 0 3) sampleExt = false ∧
    logWrites (handleMessage sampleEnv linkA (heartbeat 7 1 0 3) sampleExt busyWorld).2 = 1 :=
  ⟨rfl, by decide,
   (logged_before_gate sampleEnv linkA (statusText 7 1 0) sampleExt busyWorld
      { fileName := "packetlog.mavlink", isOpen := true } rfl rfl).2.1,
   by decide,
   (logged_before_gate sampleEnv linkA (heartbeat 7 1 0 3) sampleExt busyWorld
      { fileName := "packetlog.mavlink", isOpen := true } rfl rfl).2.1⟩

/-- C24: dropping a packet does not halt ingestion.  One call of
`receiveBytes` on `b1 ++ b2` ends in the state, and produces the events, of
the call on `b1` followed by a separate call on `b2`; the packets completed
in `b1 ++ b2` are those completed in `b1` followed by those a separate call
on `b2` completes.  After a byte that completes a packet, dropped or not, the
loop goes on with the remaining bytes from the state that packet left. -/
theorem ingestion_continues (env : Env) (link : Link) (b1 b2 : List (Nat × Ext))
    (r : Receiver) :
    receiveBytes env link (b1 ++ b2) r =
      ((receiveBytes env link b2 (receiveBytes env link b1 r).1).1,
       (receiveBytes env link b1 r).2
         ++ (receiveBytes env link b2 (receiveBytes env link b1 r).1).2) ∧
    decoded env link (b1 ++ b2) r.channels =
      decoded env link b1 r.channels
        ++ decoded env link b2 (receiveBytes env link b1 r).1.channels ∧
    (∀ (byte : Nat) (x : Ext) (message : Message),
      (env.mavlink_parse_char ((receiveBytes env link b1 r).1.channels link.id) byte).2
        = some message →
      receiveBytes env link (b1 ++ (byte, x) :: b2) r =
        ((receiveBytes env link b2
            { world := (handleMessage env link message x (receiveBytes env link b1 r).1.world).1,
              channels := setChannel (receiveBytes env link b1 r).1.channels link.id
                (env.mavlink_parse_char
                  ((receiveBytes env link b1 r).1.channels link.id) byte).1 }).1,
         (receiveBytes env link b1 r).2
           ++ ((handleMessage env link message x (receiveBytes env link b1 r).1.world).2
           ++ (receiveBytes env link b2
            { world := (handleMessage env link message x (receiveBytes env link b1 r).1.world).1,
              channels := setChannel (receiveBytes env link b1 r).1.channels link.id
                (env.mavlink_parse_char
                  ((receiveBytes env link b1 r).1.channels link.id) byte).1 }).2))) := by
  refine ⟨receiveBytes_append env link b1 b2 r, decoded_append env link b1 b2 r, ?_⟩
  intro byte x message hd
  rw [receiveBytes_append env link b1 _ r,
    receiveBytes_some env link byte x b2 _ message hd]

set_option maxRecDepth 200000 in
theorem ingestion_continues_witness :
    isMismatchDrop sampleEnv freshWorld (Op.receive linkA (heartbeat 7 1 0 3) sampleExt) = true ∧
    (decoded sampleEnv linkA (withExt sampleExt mismatchedFrame)
        freshReceiver.channels).map (fun t => (t.1, t.2.1))
      = [(linkA, heartbeat 7 1 0 3)] ∧
    decoded sampleEnv linkA (withExt sampleExt mismatchedFrame ++ withExt sampleExt goodFrame)
        freshReceiver.channels
      = decoded sampleEnv linkA (withExt sampleExt mismatchedFrame) freshReceiver.channels
        ++ decoded sampleEnv linkA (withExt sampleExt goodFrame)
          (receiveBytes sampleEnv linkA (withExt sampleExt mismatchedFrame)
            freshReceiver).1.channels ∧
    (receiveBytes sampleEnv linkA
        (withExt sampleExt mismatchedFrame ++ withExt sampleExt goodFrame) freshReceiver).2
      = [Event.protocolStatusMessage (Notice.versionMismatch 7 3 2),
         Event.createUAS linkA 1 2 true,
         Event.messageReceived linkA (heartbeat 1 1 0 2)] :=
  ⟨by decide, by decide,
   (ingestion_continues sampleEnv linkA (withExt sampleExt mismatchedFrame)
      (withExt sampleExt goodFrame) freshReceiver).2.1,
   by decide⟩


/-! ### The windowed loss counter and the loss ratio -/

theorem gapIterations_le (seq : Nat) : ∀ (fuel : Nat) (last : Int) (k : Nat),
    gapIterations seq fuel last k ≤ fuel := by
  intro fuel
  induction fuel with
  | zero => intro last k; simp [gapIterations]
  | succ n ih =>
    intro last k
    unfold gapIterations
    split
    · exact Nat.succ_le_succ (ih _ _)
    · exact Nat.zero_le _

theorem registeredLoss_le (last : Int) (seq : Nat) : registeredLoss last seq ≤ 255 := by
  unfold registeredLoss
  split
  · exact Nat.zero_le _
  · exact gapIterations_le seq 255 _ 0

/-- An update that registers a loss reports and resets the window. -/
theorem updateLoss_registers (sysid compid seq : Nat) (p : Protocol)
    (h : (updateLoss sysid compid seq p).1.totalLossCounter ≠ p.totalLossCounter) :
    (updateLoss sysid compid seq p).2
      = [Event.receiveLossChanged sysid (receiveLoss (countPacket sysid compid seq p))] ∧
    (updateLoss sysid compid seq p).1.currLossCounter = 0 ∧
    (updateLoss sysid compid seq p).1.currReceiveCounter = 0 := by
  have hf := (reportLoss_frame p.totalLossCounter sysid (countPacket sysid compid seq p)).2.2
  have hne : p.totalLossCounter ≠ (countPacket sysid compid seq p).totalLossCounter := by
    intro he
    apply h
    unfold updateLoss
    rw [hf, ← he]
  unfold updateLoss reportLoss
  rw [if_pos (Or.inl hne)]
  exact ⟨rfl, rfl, rfl⟩

/-- The windowed loss counter is zero after an update that found it zero. -/
theorem updateLoss_currLoss (sysid compid seq : Nat) (p : Protocol)
    (h : p.currLossCounter = 0) : (updateLoss sysid compid seq p).1.currLossCounter = 0 := by
  have hl := countPacket_lost sysid compid seq p
  unfold updateLoss reportLoss
  split
  · rfl
  · rename_i hc
    have hc1 : p.totalLossCounter = (countPacket sysid compid seq p).totalLossCounter := by
      by_contra hne
      exact hc (Or.inl hne)
    simp only
    rw [hl.2, h]
    rw [hl.1] at hc1
    omega

theorem handleMessage_currLoss (env : Env) (link : Link) (message : Message) (x : Ext)
    (w : World) (h : w.protocol.currLossCounter = 0) :
    (handleMessage env link message x w).1.protocol.currLossCounter = 0 := by
  have hl : (logPacket env message x w.protocol).1.currLossCounter = 0 := by
    rw [logPacket_eq]; exact h
  have hd : ∀ v : World, v.protocol.currLossCounter = 0 →
      (dispatch env link message v).1.protocol.currLossCounter = 0 := by
    intro v hv
    rw [dispatch_world]
    exact updateLoss_currLoss _ _ _ _ hv
  by_cases hu : getUASForId w.uas message.sysid = true
  · rw [handleMessage_known env link message x w hu]
    exact hd _ hl
  · have hu' : getUASForId w.uas message.sysid = false := by simpa using hu
    by_cases hk : message.msgid = env.MAVLINK_MSG_ID_HEARTBEAT
    · by_cases hm : w.protocol.m_enable_version_check = true ∧
          env.mavlink_msg_heartbeat_decode message ≠ env.MAVLINK_VERSION
      · rw [handleMessage_mismatch env link message x w hu' hk hm.1 hm.2]
        exact hl
      · rw [handleMessage_create env link message x w hu' hk hm]
        cases x.created
        · exact hl
        · exact hd _ hl
    · rw [handleMessage_unknown env link message x w hu' hk]
      exact hl

theorem step_setter_currLoss (env : Env) (w : World) (op : Op)
    (h : ∀ link message x, op ≠ Op.receive link message x) :
    (step env w op).1.protocol.currLossCounter = w.protocol.currLossCounter := by
  cases op with
  | receive link message x => exact absurd rfl (h link message x)
  | enableVersionCheck enabled => rfl
  | enableMultiplexing enabled => rfl
  | enableHeartbeats enabled => rfl
  | enableLogging enabled openOk =>
    simp only [step, World.onProtocol]
    rw [enableLogging_eq]
  | setLogfileName filename openOk =>
    simp only [step, World.onProtocol, setLogfileName]
    rw [enableLogging_eq]
  | setSystemId id => rfl
  | setLinks links => rfl

theorem run_currLoss (env : Env) : ∀ (ops : List Op) (w : World),
    w.protocol.currLossCounter = 0 → (run env ops w).1.protocol.currLossCounter = 0 := by
  intro ops
  induction ops with
  | nil => intro w h; exact h
  | cons op rest ih =>
    intro w h
    simp only [run]
    apply ih
    rcases Op.receive_or_setter op with ⟨link, message, x, rfl⟩ | hne
    · exact handleMessage_currLoss env link message x w h
    · rw [step_setter_currLoss env w op hne]; exact h

theorem constructor_currLoss (uninitialised : Bool) (defaultSystemId : Int) (s : Settings)
    (home : String) (openOk : Bool) :
    (constructor uninitialised defaultSystemId s home openOk).1.currLossCounter = 0 := by
  simp only [constructor, loadSettings]
  rw [enableLogging_eq]
  rfl

/-- C25: the windowed loss counter is 0 after every decoded packet.  The
constructor leaves it 0; an update that registers a loss emits the report and
resets the window in the same step; a packet processed from a state with the
counter at 0 leaves it at 0, and so does every session and every call of
`receiveBytes` that starts from the constructed object.  Hence a ratio
reported by an update that registered no loss is exactly 0. -/
theorem window_loss_zero (env : Env) :
    (∀ (uninitialised : Bool) (defaultSystemId : Int) (s : Settings) (home : String)
        (openOk : Bool),
      (constructor uninitialised defaultSystemId s home openOk).1.currLossCounter = 0) ∧
    (∀ (sysid compid seq : Nat) (p : Protocol),
      (updateLoss sysid compid seq p).1.totalLossCounter ≠ p.totalLossCounter →
      (updateLoss sysid compid seq p).2
        = [Event.receiveLossChanged sysid (receiveLoss (countPacket sysid compid seq p))] ∧
      (updateLoss sysid compid seq p).1.currLossCounter = 0) ∧
    (∀ (link : Link) (message : Message) (x : Ext) (w : World),
      w.protocol.currLossCounter = 0 →
      (handleMessage env link message x w).1.protocol.currLossCounter = 0) ∧
    (∀ (uninitialised : Bool) (defaultSystemId : Int) (s : Settings) (home : String)
        (openOk : Bool) (uas : List Nat) (links : List Link) (ops : List Op),
      (run env ops
        { protocol := (constructor uninitialised defaultSystemId s home openOk).1
          uas := uas, links := links }).1.protocol.currLossCounter = 0) ∧
    (∀ (uninitialised : Bool) (defaultSystemId : Int) (s : Settings) (home : String)
        (openOk : Bool) (uas : List Nat) (links : List Link) (ops : List Op)
        (link : Link) (bytes : List (Nat × Ext)) (channels : Nat → List Nat),
      (receiveBytes env link bytes
        { world := (run env ops
            { protocol := (constructor uninitialised defaultSystemId s home openOk).1
              uas := uas, links := links }).1
          channels := channels }).1.world.protocol.currLossCounter = 0) ∧
    (∀ (sysid compid seq : Nat) (p : Protocol) (id : Nat) (ratio : ℚ),
      p.currLossCounter = 0 →
      (updateLoss sysid compid seq p).1.totalLossCounter = p.totalLossCounter →
      Event.receiveLossChanged id ratio ∈ (updateLoss sysid compid seq p).2 →
      ratio = 0) := by
  have hrun : ∀ (uninitialised : Bool) (defaultSystemId : Int) (s : Settings) (home : String)
      (openOk : Bool) (uas : List Nat) (links : List Link) (ops : List Op),
      (run env ops
        { protocol := (constructor uninitialised defaultSystemId s home openOk).1
          uas := uas, links := links }).1.protocol.currLossCounter = 0 :=
    fun u d s home o uas links ops =>
      run_currLoss env ops _ (constructor_currLoss u d s home o)
  refine ⟨constructor_currLoss, ?_, handleMessage_currLoss env, hrun, ?_, ?_⟩
  · intro sysid compid seq p h
    exact ⟨(updateLoss_registers sysid compid seq p h).1,
      (updateLoss_registers sysid compid seq p h).2.1⟩
  · intro u d s home o uas links ops link bytes channels
    rw [(receiveBytes_run env link bytes _).1]
    exact run_currLoss env _ _ (hrun u d s home o uas links ops)
  · intro sysid compid seq p id ratio h0 hsame hmem
    have hl := countPacket_lost sysid compid seq p
    have hf := (reportLoss_frame p.totalLossCounter sysid (countPacket sysid compid seq p)).2.2
    have hreg : registeredLoss (p.lastIndex sysid compid) seq = 0 := by
      have : (countPacket sysid compid seq p).totalLossCounter = p.totalLossCounter := by
        rw [← hf]; exact hsame
      rw [hl.1] at this
      omega
    have hc : (countPacket sysid compid seq p).currLossCounter = 0 := by
      rw [hl.2, h0, hreg]
    unfold updateLoss reportLoss at hmem
    split at hmem
    · simp only [List.mem_singleton, Event.receiveLossChanged.injEq] at hmem
      rw [hmem.2]
      exact receiveLoss_of_no_loss _ hc
    · simp at hmem

/-- C26: the loss-ratio division is defined and bounded.  At every report the
windowed received counter is at least 1, so the denominator is not zero; the
reported ratio, as an exact rational, is the quotient of lines 312–313 and
lies in [0, 100); with at most 255 windowed losses it is at most 25500/256,
and the windowed losses are at most 255 whenever the window held no loss
before the packet. -/
theorem ratio_bounded (p : Protocol) (sysid compid seq id : Nat) (ratio : ℚ)
    (h : Event.receiveLossChanged id ratio ∈ (updateLoss sysid compid seq p).2) :
    1 ≤ (countPacket sysid compid seq p).currReceiveCounter ∧
    (((countPacket sysid compid seq p).currLossCounter : ℚ)
      + ((countPacket sysid compid seq p).currReceiveCounter : ℚ)) ≠ 0 ∧
    ratio = ((countPacket sysid compid seq p).currLossCounter : ℚ) /
        (((countPacket sysid compid seq p).currLossCounter : ℚ)
          + ((countPacket sysid compid seq p).currReceiveCounter : ℚ)) * 100 ∧
    0 ≤ ratio ∧ ratio < 100 ∧
    ((countPacket sysid compid seq p).currLossCounter ≤ 255 → ratio ≤ 25500 / 256) ∧
    (p.currLossCounter = 0 →
      (countPacket sysid compid seq p).currLossCounter ≤ 255 ∧ ratio ≤ 25500 / 256) := by
  have hrecv := (countPacket_received sysid compid seq p).2
  have hone : 1 ≤ (countPacket sysid compid seq p).currReceiveCounter := by omega
  have hR : (1 : ℚ) ≤ ((countPacket sysid compid seq p).currReceiveCounter : ℚ) := by
    exact_mod_cast hone
  have hL : (0 : ℚ) ≤ ((countPacket sysid compid seq p).currLossCounter : ℚ) :=
    Nat.cast_nonneg _
  have hden : (0 : ℚ) < ((countPacket sysid compid seq p).currLossCounter : ℚ)
      + ((countPacket sysid compid seq p).currReceiveCounter : ℚ) := by linarith
  have hratio : ratio = ((countPacket sysid compid seq p).currLossCounter : ℚ) /
        (((countPacket sysid compid seq p).currLossCounter : ℚ)
          + ((countPacket sysid compid seq p).currReceiveCounter : ℚ)) * 100 := by
    unfold updateLoss reportLoss at h
    split at h
    · simp only [List.mem_singleton, Event.receiveLossChanged.injEq] at h
      rw [h.2, receiveLoss, add_comm]
    · simp at h
  have hbound : (countPacket sysid compid seq p).currLossCounter ≤ 255 →
      ratio ≤ 25500 / 256 := by
    intro hle
    have hle' : ((countPacket sysid compid seq p).currLossCounter : ℚ) ≤ 255 := by
      exact_mod_cast hle
    rw [hratio, div_mul_eq_mul_div, div_le_div_iff₀ hden (by norm_num)]
    nlinarith
  refine ⟨hone, ne_of_gt hden, hratio, ?_, ?_, hbound, ?_⟩
  · rw [hratio]
    exact mul_nonneg (div_nonneg hL (le_of_lt hden)) (by norm_num)
  · rw [hratio, div_mul_eq_mul_div, div_lt_iff₀ hden]
    nlinarith
  · intro h0
    have hl := (countPacket_lost sysid compid seq p).2
    have hle : (countPacket sysid compid seq p).currLossCounter ≤ 255 := by
      rw [hl, h0, Nat.zero_add]
      exact registeredLoss_le _ _
    exact ⟨hle, hbound hle⟩

theorem ratio_bounded_witness :
    Event.receiveLossChanged 1 50
        ∈ (updateLoss 1 1 4 (track [(1, 1, 0), (1, 1, 2)] fresh).1).2 ∧
    (0 : ℚ) ≤ 50 ∧ (50 : ℚ) < 100 ∧
    1 ≤ (countPacket 1 1 4 (track [(1, 1, 0), (1, 1, 2)] fresh).1).currReceiveCounter :=
  have hmem : Event.receiveLossChanged 1 50
      ∈ (updateLoss 1 1 4 (track [(1, 1, 0), (1, 1, 2)] fresh).1).2 := by
    simp [track, updateLoss, reportLoss, countPacket, fresh, construct, setIndex, gapLoop,
      GapLoop.continues, GapLoop.body, advanceIndex, receiveLoss]
    norm_num
  ⟨hmem, (ratio_bounded _ 1 1 4 1 50 hmem).2.2.2.1, (ratio_bounded _ 1 1 4 1 50 hmem).2.2.2.2.1,
   (ratio_bounded _ 1 1 4 1 50 hmem).1⟩


/-! ### Termination of the gap loop -/

theorem gap_le (p s : Nat) : gap p s ≤ 255 := by
  unfold gap
  omega

theorem gap_self (s : Nat) (hs : s < 256) : gap s s = 255 := by
  unfold gap
  omega

/-- The loop started after a recorded sequence number `prev` runs `gap prev
seq` times with any fuel that allows as many, and ends with `last = seq`. -/
theorem gapLoop_from (seq prev : Nat) (hs : seq < 256) (hp : prev < 256) (t c fuel : Nat)
    (hfuel : gap prev seq ≤ fuel) :
    gapLoop seq fuel
        { last := advanceIndex (prev : Int), totalLossCounter := t, currLossCounter := c,
          safeguard := 0 }
      = { last := (seq : Int), totalLossCounter := t + gap prev seq,
          currLossCounter := c + gap prev seq, safeguard := gap prev seq } := by
  have hlt : (prev + 1) % 256 < 256 := Nat.mod_lt _ (by norm_num)
  have hg : gap prev seq = (seq + 256 - (prev + 1) % 256) % 256 := rfl
  rw [advanceIndex_natCast prev hp,
    gapLoop_reaches seq hs fuel ((prev + 1) % 256) t c 0 hlt (by rw [← hg]; exact hfuel)
      (by rw [← hg]; have := gap_le prev seq; omega),
    ← hg, Nat.zero_add]

theorem countPacket_lastIndex (sysid compid seq : Nat) (pr : Protocol) (hs : seq < 256)
    (htable : ∀ i j, pr.lastIndex i j = -1 ∨ (0 ≤ pr.lastIndex i j ∧ pr.lastIndex i j ≤ 255)) :
    (countPacket sysid compid seq pr).lastIndex sysid compid = (seq : Int) := by
  rcases htable sysid compid with h | ⟨h0, h1⟩
  · rw [countPacket_unseen pr sysid compid seq h]
    exact setIndex_same _ _ _ _
  · have hp : pr.lastIndex sysid compid = (((pr.lastIndex sysid compid).toNat : Nat) : Int) :=
      (Int.toNat_of_nonneg h0).symm
    rw [countPacket_seen pr sysid compid seq (pr.lastIndex sysid compid).toNat hs
      (by omega) hp]
    exact setIndex_same _ _ _ _

/-- C27: for a dispatched packet with sequence number `seq` in 0..255 and a
table whose entries are -1 or in 0..255, the gap loop of lines 284–297 ends
after `gap prev seq`, at most 255, iterations (any larger iteration budget
gives the same result), and it ends with the expected sequence number equal
to `seq`, so the test `lastIndex != seq` is the one that fails.  Afterwards
the entry of the pair is `seq`, the other entries are unchanged, and all
entries are again -1 or in 0..255.  A repeated sequence number registers 255
losses; a pair without a recorded number does not enter the loop. -/
theorem gap_loop_terminates (pr : Protocol) (sysid compid seq : Nat) (hs : seq < 256)
    (htable : ∀ i j, pr.lastIndex i j = -1 ∨ (0 ≤ pr.lastIndex i j ∧ pr.lastIndex i j ≤ 255)) :
    (countPacket sysid compid seq pr).lastIndex sysid compid = (seq : Int) ∧
    (updateLoss sysid compid seq pr).1.lastIndex sysid compid = (seq : Int) ∧
    (∀ i j, ¬ (i = sysid ∧ j = compid) →
      (updateLoss sysid compid seq pr).1.lastIndex i j = pr.lastIndex i j) ∧
    (∀ i j, (updateLoss sysid compid seq pr).1.lastIndex i j = -1 ∨
      (0 ≤ (updateLoss sysid compid seq pr).1.lastIndex i j ∧
        (updateLoss sysid compid seq pr).1.lastIndex i j ≤ 255)) ∧
    (pr.lastIndex sysid compid = -1 →
      (countPacket sysid compid seq pr).totalLossCounter = pr.totalLossCounter) ∧
    (∀ prev : Nat, pr.lastIndex sysid compid = (prev : Int) →
      gap prev seq ≤ 255 ∧
      (∀ fuel t c, gap prev seq ≤ fuel →
        gapLoop seq fuel
            { last := advanceIndex (prev : Int), totalLossCounter := t, currLossCounter := c,
              safeguard := 0 }
          = { last := (seq : Int), totalLossCounter := t + gap prev seq,
              currLossCounter := c + gap prev seq, safeguard := gap prev seq }) ∧
      (gapLoop seq 255
          { last := advanceIndex (pr.lastIndex sysid compid)
            totalLossCounter := pr.totalLossCounter
            currLossCounter := pr.currLossCounter
            safeguard := 0 }).last = (seq : Int) ∧
      (countPacket sysid compid seq pr).totalLossCounter
        = pr.totalLossCounter + gap prev seq ∧
      (prev = seq →
        (countPacket sysid compid seq pr).totalLossCounter = pr.totalLossCounter + 255)) := by
  have hlast := countPacket_lastIndex sysid compid seq pr hs htable
  have hframe :
      (updateLoss sysid compid seq pr).1.lastIndex = (countPacket sysid compid seq pr).lastIndex :=
    (reportLoss_frame pr.totalLossCounter sysid (countPacket sysid compid seq pr)).1
  refine ⟨hlast, by rw [hframe]; exact hlast, ?_, ?_, ?_, ?_⟩
  · intro i j hij
    rw [hframe]
    exact countPacket_lastIndex_other sysid compid seq i j pr hij
  · intro i j
    rw [hframe]
    by_cases hij : i = sysid ∧ j = compid
    · rw [hij.1, hij.2, hlast]
      right
      omega
    · rw [countPacket_lastIndex_other sysid compid seq i j pr hij]
      exact htable i j
  · intro h
    rw [countPacket_unseen pr sysid compid seq h]
  · intro prev hprev
    have hp : prev < 256 := by
      rcases htable sysid compid with h | ⟨_, h1⟩
      · omega
      · omega
    have hcp := countPacket_seen pr sysid compid seq prev hs hp hprev
    refine ⟨gap_le prev seq, fun fuel t c hf => gapLoop_from seq prev hs hp t c fuel hf,
      ?_, by rw [hcp], ?_⟩
    · rw [hprev, gapLoop_from seq prev hs hp _ _ 255 (gap_le prev seq)]
    · intro he
      rw [hcp, he, gap_self seq hs]

theorem gap_loop_terminates_witness :
    (updateLoss 1 1 7 fresh).1.lastIndex 1 1 = 7 ∧
    (countPacket 1 1 7 (updateLoss 1 1 7 fresh).1).lastIndex 1 1 = 7 ∧
    (countPacket 1 1 7 (updateLoss 1 1 7 fresh).1).totalLossCounter
      = (updateLoss 1 1 7 fresh).1.totalLossCounter + 255 :=
  ⟨by decide,
   (gap_loop_terminates (updateLoss 1 1 7 fresh).1 1 1 7 (by decide)
      (gap_loop_terminates fresh 1 1 7 (by decide) (fun _ _ => Or.inl rfl)).2.2.2.1).1,
   ((gap_loop_terminates (updateLoss 1 1 7 fresh).1 1 1 7 (by decide)
      (gap_loop_terminates fresh 1 1 7 (by decide)
        (fun _ _ => Or.inl rfl)).2.2.2.1).2.2.2.2.2 7 (by decide)).2.2.2.2 rfl⟩


/-! ### The heartbeat rate, the log file name, and the sender ids -/

/-- Against C28 as stated: with rate 0 the division of line 550 has no
result, and with rate 2000 the operation completes with a period of 0 ms. -/
theorem heartbeat_rate_guard_counterexample :
    (setHeartbeatRate 0 fresh).isNone = true ∧
    (setHeartbeatRate 2000 fresh).map (fun p => decide (1 ≤ p.heartbeatTimer.interval))
      = some false := by
  refine ⟨by decide, by decide⟩

/-- C28 (amended): the timer-period computation `1000 / rate` of line 550 is
an integer division without any guard.  For every rate other than 0 the
operation completes and leaves the truncated quotient as the period; the
period is at least 1 ms exactly for the rates 1..1000 (it is 0 ms above 1000
and not positive for negative rates).  Nothing is stated for rate 0. -/
theorem heartbeat_rate_guard (rate : Int) (p : Protocol) (h : rate ≠ 0) :
    ∃ q, setHeartbeatRate rate p = some q ∧
      getHeartbeatRate q = rate ∧
      q.heartbeatTimer.interval = Int.tdiv 1000 rate ∧
      (1 ≤ q.heartbeatTimer.interval ↔ (1 ≤ rate ∧ rate ≤ 1000)) ∧
      (1000 < rate → q.heartbeatTimer.interval = 0) := by
  refine ⟨{ p with heartbeatRate := rate
                   heartbeatTimer := { p.heartbeatTimer with interval := Int.tdiv 1000 rate } },
    by simp [setHeartbeatRate, h], rfl, rfl, ?_, ?_⟩
  · simp only
    rcases lt_or_gt_of_ne h with hneg | hpos
    · have hle : Int.tdiv 1000 rate ≤ 0 := by
        have h1 : Int.tdiv 1000 rate = -(Int.tdiv 1000 (-rate)) := by
          rw [Int.tdiv_neg, neg_neg]
        have h2 : 0 ≤ Int.tdiv 1000 (-rate) := Int.tdiv_nonneg (by norm_num) (by omega)
        omega
      constructor
      · intro h1; omega
      · intro h1; omega
    · rw [Int.tdiv_eq_ediv (by norm_num) (by omega), Int.le_ediv_iff_mul_le hpos]
      constructor
      · intro h1; omega
      · intro h1; omega
  · intro hbig
    simp only
    rw [Int.tdiv_eq_ediv (by norm_num) (by omega)]
    exact Int.ediv_eq_zero_of_lt (by norm_num) hbig

theorem heartbeat_rate_guard_witness :
    (4 : Int) ≠ 0 ∧
    ∃ q, setHeartbeatRate 4 fresh = some q ∧
      getHeartbeatRate q = 4 ∧
      q.heartbeatTimer.interval = Int.tdiv 1000 4 ∧
      (1 ≤ q.heartbeatTimer.interval ↔ ((1 : Int) ≤ 4 ∧ (4 : Int) ≤ 1000)) ∧
      ((1000 : Int) < 4 → q.heartbeatTimer.interval = 0) :=
  ⟨by decide, heartbeat_rate_guard 4 fresh (by decide)⟩

/-- Against C29 as stated: on the freshly constructed object, where logging
is disabled, `setLogfileName("flight.mavlink")` leaves no log file object and
`getLogfileName()` returns the default path in the home directory. -/
theorem logfile_name_counterexample :
    fresh.m_loggingEnabled = false ∧
    (setLogfileName "flight.mavlink" true fresh).1.m_logfile = none ∧
    getLogfileName "/home/user" (setLogfileName "flight.mavlink" true fresh).1
      = "/home/user/qgroundcontrol_packetlog.mavlink" ∧
    getLogfileName "/home/user" (setLogfileName "flight.mavlink" true fresh).1
      ≠ "flight.mavlink" := by
  refine ⟨by decide, by decide, by decide, by decide⟩

/-- C29 (amended): for every filename `f` and every prior state in which
logging is enabled (log file object present or absent, `open` succeeding or
failing), `setLogfileName(f)` followed by `getLogfileName()` returns `f`.  In
a prior state in which logging is disabled, `setLogfileName(f)` ends with
`enableLogging(false)`, which deletes the log file object again, and
`getLogfileName()` returns the default path in the home directory. -/
theorem logfile_name_round_trip (filename home : String) (openOk : Bool) (p : Protocol) :
    (p.m_loggingEnabled = true →
      getLogfileName home (setLogfileName filename openOk p).1 = filename) ∧
    (p.m_loggingEnabled = false →
      (setLogfileName filename openOk p).1.m_logfile = none ∧
      getLogfileName home (setLogfileName filename openOk p).1
        = home ++ "/qgroundcontrol_packetlog.mavlink") := by
  constructor
  · intro hen
    unfold getLogfileName setLogfileName
    simp only [hen]
    cases openOk <;> simp [enableLogging]
  · intro hoff
    have hnone : (setLogfileName filename openOk p).1.m_logfile = none := by
      unfold setLogfileName
      simp only [hoff]
      exact (enableLogging_false openOk _).2.1
    refine ⟨hnone, ?_⟩
    unfold getLogfileName
    rw [hnone]

set_option maxRecDepth 200000 in
theorem logfile_name_round_trip_witness :
    busyWorld.protocol.m_loggingEnabled = true ∧
    getLogfileName "/home/user" (setLogfileName "flight.mavlink" true busyWorld.protocol).1
      = "flight.mavlink" :=
  ⟨by decide,
   (logfile_name_round_trip "flight.mavlink" "/home/user" true busyWorld.protocol).1
     (by decide)⟩

set_option maxRecDepth 200000 in
/-- Against C30 as stated: a packet of system 1, component 1 relayed to the
link with id 1 leaves with system id 255 and component id 0, the ids of the
ground station, in the place of the sender ids. -/
theorem sent_identity_counterexample :
    linkB.id = 1 ∧
    sampleEnv.mavlink_msg_to_send_buffer (statusText 1 1 0) = [85, 0, 0, 1, 1, 254] ∧
    sentBytes sampleEnv busyWorld.protocol linkB (statusText 1 1 0) = [85, 0, 0, 255, 0, 254] ∧
    (sentMessage sampleEnv busyWorld.protocol linkB (statusText 1 1 0)).sysid = 255 ∧
    (dispatch sampleEnv linkA (statusText 1 1 0) busyWorld).2.filter Event.isWriteBytes
      = [Event.writeBytes linkB [85, 0, 0, 255, 0, 254],
         Event.writeBytes linkC [85, 0, 0, 255, 0, 254]] := by
  refine ⟨by decide, by decide, by decide, by decide, by decide⟩

/-- C30 (amended): on a link whose id is 0, `sendMessage(link, message)`
encodes the message passed in, unchanged.  On a link whose id is not 0 it
encodes the message re-finalised by `mavlink_finalize_message_chan` with the
own system id and component id of the ground station, the link id as channel
and the length of the message; where that library function stamps the ids it
is given and keeps message id and payload, the bytes carry the ids of the
ground station, not those of the sender, with the message id and payload of
the message passed in.  In a multiplex fan-out every write carries exactly
the bytes `sendMessage` produces for that destination link and the originally
received packet, whatever links are served before or after it. -/
theorem sent_identity (env : Env) (p : Protocol) (link : Link) (message : Message) :
    (link.id = 0 →
      sentMessage env p link message = message ∧
      sentBytes env p link message = env.mavlink_msg_to_send_buffer message) ∧
    (link.id ≠ 0 →
      sentMessage env p link message
        = env.mavlink_finalize_message_chan message p.systemId env.defaultComponentId link.id
            message.len) ∧
    (link.id ≠ 0 → 0 ≤ p.systemId →
      (∀ (m : Message) (sys : Int) (comp chan len : Nat), 0 ≤ sys →
        (env.mavlink_finalize_message_chan m sys comp chan len).sysid = sys.toNat ∧
        (env.mavlink_finalize_message_chan m sys comp chan len).compid = comp ∧
        (env.mavlink_finalize_message_chan m sys comp chan len).msgid = m.msgid ∧
        (env.mavlink_finalize_message_chan m sys comp chan len).payload = m.payload) →
      ((sentMessage env p link message).sysid : Int) = p.systemId ∧
      (sentMessage env p link message).compid = env.defaultComponentId ∧
      (sentMessage env p link message).msgid = message.msgid ∧
      (sentMessage env p link message).payload = message.payload) ∧
    (sendMessage env p link message
      = if link.connected = true then [Event.writeBytes link (sentBytes env p link message)]
        else []) ∧
    (∀ (origin : Link) (before after : List Link),
      multiplex env p origin message (before ++ link :: after)
        = multiplex env p origin message before
          ++ (if link.handle ≠ origin.handle ∧ link.connected = true then
                [Event.writeBytes link (sentBytes env p link message)]
              else [])
          ++ multiplex env p origin message after) := by
  refine ⟨?_, ?_, ?_, sendMessage_eq env p link message, ?_⟩
  · intro h0
    simp [sentBytes, sentMessage, h0]
  · intro hne
    simp [sentMessage, hne]
  · intro hne hsys hlib
    have hm : sentMessage env p link message
        = env.mavlink_finalize_message_chan message p.systemId env.defaultComponentId link.id
            message.len := by
      simp [sentMessage, hne]
    have := hlib message p.systemId env.defaultComponentId link.id message.len hsys
    rw [hm]
    exact ⟨by rw [this.1]; exact Int.toNat_of_nonneg hsys, this.2.1, this.2.2.1, this.2.2.2⟩
  · intro origin before after
    rw [multiplex_append, multiplex, sendMessage_eq, List.append_assoc]
    by_cases hh : link.handle = origin.handle <;> cases hl : link.connected <;> simp [hh, hl]

set_option maxRecDepth 200000 in
theorem sent_identity_witness :
    linkA.id = 0 ∧
    sentBytes sampleEnv busyWorld.protocol linkA (statusText 1 1 0) = [85, 0, 0, 1, 1, 254] ∧
    linkC.id ≠ 0 ∧
    sentBytes sampleEnv busyWorld.protocol linkC (statusText 1 1 0)
      = sampleEnv.mavlink_msg_to_send_buffer
          (sampleEnv.mavlink_finalize_message_chan (statusText 1 1 0)
            busyWorld.protocol.systemId sampleEnv.defaultComponentId linkC.id
            (statusText 1 1 0).len) :=
  ⟨by decide,
   ((sent_identity sampleEnv busyWorld.protocol linkA (statusText 1 1 0)).1 (by decide)).2,
   by decide,
   congrArg sampleEnv.mavlink_msg_to_send_buffer
     ((sent_identity sampleEnv busyWorld.protocol linkC (statusText 1 1 0)).2.1 (by decide))⟩

end MAVLinkProtocol
